import Mathlib

/-!
# odyncash — a verification development

Shallow embedding of parts of the odyncash node, followed by the theorems about
them:
* InstantSend transaction locking: the data types declared in `src/instantsend.h`
  (`CTxLockVote`, `COutPointLock`, `CTxLockCandidate`, `CInstantSend`), the
  operations on them and their serialization;
* stormnode payment votes and block payees (`src/stormnode-payments.cpp`);
* the block-tip notification (`src/psnotificationinterface.cpp`);
* the signature quorum of fluid tokens (`src/fluid/fluiddb.cpp`);
* the amount units of the user interface (`src/qt/cashunits.cpp`).

Conventions of the embedding
* `uint256` values (transaction and vote hashes) are natural numbers.
* A `std::map<K, V>` is an association list `List (K × V)`; `std::map::find`,
  `count`, `emplace`/`insert` (which never overwrite an existing key), in-place
  update through an iterator and `erase` are `mapFind`, `mapCount`, `mapEmplace`,
  `mapModify` and `mapErase`.  Entries are kept in insertion order; nothing that
  is modelled here depends on the iteration order of a map.
* A `std::set<uint256>` is a duplicate-free list built with `setInsert`.
* `int`, `int64_t` and `CAmount` values are mathematical integers: constants of
  the headers, clock readings, block heights, ranks, amounts and sizes of
  containers (the conversion of a `size()` to `int` is exact for the containers
  that occur).  Where the program adds or subtracts two `CAmount` arguments
  (`IsBlockValueValid`, `FillBlockPayee`) the result is the 64-bit two's
  complement one, `wrapInt64` of the mathematical result.
* `GetTime()` is an explicit argument `now`.
* What a function takes from files that are not part of the sources (constants,
  collaborators, library helpers) is an explicit argument, bundled per part in
  a structure (`Env`, `PayEnv`, `PayoutEnv`, `TipEnv`, `FluidEnv`, `BlockEnv`,
  `SerLib`, `CashEnv`).
-/

set_option autoImplicit false

/-! ## Part 1 — definitions -/

/-! ### `std::map` and `std::set` -/

section Maps

variable {K V : Type} [DecidableEq K]

/-- The value stored under key `k` (`std::map::find`), the first match of the list. -/
def mapFind : List (K × V) → K → Option V
  | [], _ => none
  | (k', v) :: rest, k => if k' = k then some v else mapFind rest k

/-- Whether key `k` is present (`std::map::count`). -/
def mapCount (m : List (K × V)) (k : K) : Bool :=
  (mapFind m k).isSome

/-- Insertion that keeps an existing entry (`std::map::emplace` / `insert`): the
new map and whether the insertion took place. -/
def mapEmplace (m : List (K × V)) (k : K) (v : V) : List (K × V) × Bool :=
  if mapCount m k then (m, false) else (m ++ [(k, v)], true)

/-- In-place update of the value found under `k` (`it->second.f()` after a
successful `find`); the map is unchanged when `k` is absent. -/
def mapModify : List (K × V) → K → (V → V) → List (K × V)
  | [], _, _ => []
  | (k', v) :: rest, k, f =>
      if k' = k then (k', f v) :: rest else (k', v) :: mapModify rest k f

/-- Removal of every entry stored under key `k` (`std::map::erase`). -/
def mapErase (m : List (K × V)) (k : K) : List (K × V) :=
  m.filter (fun p => decide (p.1 ≠ k))

/-- Insertion into a `std::set`. -/
def setInsert (s : List K) (k : K) : List K :=
  if k ∈ s then s else s ++ [k]

end Maps

/-! ### 64-bit signed arithmetic -/

/-- The `int64_t` (`CAmount`) that a 64-bit two's complement addition or
subtraction leaves for the mathematical result `x`: the integer of
`[-2^63, 2^63)` congruent to `x` modulo `2^64`. -/
def wrapInt64 (x : Int) : Int :=
  (x + 2 ^ 63) % 2 ^ 64 - 2 ^ 63

/-! ### Outpoints and lock votes (`instantsend.h`) -/

/-- A 256-bit hash. -/
abbrev uint256 := Nat

/-- A transaction output reference: transaction hash and output index. -/
structure COutPoint where
  hash : uint256
  n : Nat
  deriving DecidableEq, Repr

/-- Header: `class CTxLockVote` of `instantsend.h`: the fields in declaration order. -/
structure CTxLockVote where
  txHash : uint256
  outpoint : COutPoint
  outpointMasternode : COutPoint
  vchMasternodeSignature : List Nat
  nConfirmedHeight : Int
  nTimeCreated : Int
  deriving DecidableEq, Repr

namespace CTxLockVote

/-- Header: `uint256 GetTxHash() const { return txHash; }` -/
def GetTxHash (v : CTxLockVote) : uint256 := v.txHash

/-- Header: `COutPoint GetOutpoint() const { return outpoint; }` -/
def GetOutpoint (v : CTxLockVote) : COutPoint := v.outpoint

/-- Header: `COutPoint GetMasternodeOutpoint() const { return outpointMasternode; }` -/
def GetMasternodeOutpoint (v : CTxLockVote) : COutPoint := v.outpointMasternode

end CTxLockVote

/-! ### `COutPointLock` -/

/-- Header: `class COutPointLock` of `instantsend.h`. -/
structure COutPointLock where
  outpoint : COutPoint
  mapMasternodeVotes : List (COutPoint × CTxLockVote)
  fAttacked : Bool
  deriving DecidableEq, Repr

namespace COutPointLock

/-- Header: `static const int SIGNATURES_REQUIRED = 10;` -/
def SIGNATURES_REQUIRED : Int := 10

/-- Header: `static const int SIGNATURES_TOTAL = 15;` -/
def SIGNATURES_TOTAL : Int := 15

/-- Header: `COutPointLock(const COutPoint& outpointIn)`: no votes, `fAttacked = false`. -/
def new (outpointIn : COutPoint) : COutPointLock :=
  { outpoint := outpointIn, mapMasternodeVotes := [], fAttacked := false }

/-- Header: `COutPoint GetOutpoint() const { return outpoint; }` -/
def GetOutpoint (l : COutPointLock) : COutPoint := l.outpoint

/-- Header: `int CountVotes() const { return fAttacked ? 0 : mapMasternodeVotes.size(); }` -/
def CountVotes (l : COutPointLock) : Int :=
  if l.fAttacked then 0 else (l.mapMasternodeVotes.length : Int)

/-- Header: `bool IsReady() const { return !fAttacked && CountVotes() >= SIGNATURES_REQUIRED; }` -/
def IsReady (l : COutPointLock) : Bool :=
  !l.fAttacked && decide (l.CountVotes ≥ SIGNATURES_REQUIRED)

/-- Header: `void MarkAsAttacked() { fAttacked = true; }` -/
def MarkAsAttacked (l : COutPointLock) : COutPointLock :=
  { l with fAttacked := true }

/-- Modelled from the spec: the body of `COutPointLock::HasMasternodeVoted`
(declared in `instantsend.h`, defined in `instantsend.cpp`, which is not part of
the sources).  Spec §4.3: "`hasVoted(masternodeOutpoint)` is a pure lookup" in
the mapping from voting-masternode outpoint to its vote. -/
def HasMasternodeVoted (l : COutPointLock) (outpointMasternodeIn : COutPoint) : Bool :=
  mapCount l.mapMasternodeVotes outpointMasternodeIn

/-- Modelled from the spec: the body of `COutPointLock::AddVote` (declared in
`instantsend.h`, defined in `instantsend.cpp`, which is not part of the sources).
Spec §4.3: "`addVote(vote)` inserts the vote keyed by the voting masternode's
outpoint; returns false (no-op) if that masternode has already voted for this
outpoint — first vote per masternode wins, later ones are silently dropped
rather than overwriting".  The result is the returned flag and the lock
afterwards. -/
def AddVote (l : COutPointLock) (vote : CTxLockVote) : Bool × COutPointLock :=
  let r := mapEmplace l.mapMasternodeVotes vote.GetMasternodeOutpoint vote
  (r.2, { l with mapMasternodeVotes := r.1 })

/-- The mutating member functions of `COutPointLock`. -/
inductive Op where
  | addVote (vote : CTxLockVote)
  | markAsAttacked
  deriving Repr

/-- The lock after one mutating call. -/
def step (l : COutPointLock) : Op → COutPointLock
  | .addVote vote => (l.AddVote vote).2
  | .markAsAttacked => l.MarkAsAttacked

/-- The lock after a finite sequence of mutating calls, first call first. -/
def run (l : COutPointLock) (ops : List Op) : COutPointLock :=
  ops.foldl step l

end COutPointLock

/-! ### Lock requests and lock candidates -/

/-- Modelled from the spec: the transaction type behind `CTransactionRef`
(`primitives/transaction.h` is not part of the sources).  Spec §3: the identity
of a lock request "is the transaction's hash", and the candidate tracks one
outpoint lock "per input"; a transaction is its hash and the outpoints its
inputs spend. -/
structure CTransaction where
  hash : uint256
  vin : List COutPoint
  deriving DecidableEq, Repr

/-- Header: `MakeTransactionRef()`: the transaction without inputs that a default
constructed `CTxLockRequest` wraps; its hash is written 0. -/
def CTransaction.null : CTransaction := { hash := 0, vin := [] }

/-- Header: `class CTxLockRequest` of `instantsend.h`. -/
structure CTxLockRequest where
  tx : CTransaction
  deriving DecidableEq, Repr

namespace CTxLockRequest

/-- Header: `CTxLockRequest() : tx(MakeTransactionRef()) {}` -/
def empty : CTxLockRequest := { tx := CTransaction.null }

/-- Header: `const uint256& GetHash() const { return tx->GetHash(); }` -/
def GetHash (r : CTxLockRequest) : uint256 := r.tx.hash

/-- Header: `explicit operator bool() const { return *this != CTxLockRequest(); }`, where
`operator!=` compares the two transactions, which compare by hash. -/
def toBool (r : CTxLockRequest) : Bool := decide (r.tx.hash ≠ empty.tx.hash)

end CTxLockRequest

/-- Header: `INSTANTSEND_LOCK_TIMEOUT_SECONDS = 15` of `instantsend.h`. -/
def INSTANTSEND_LOCK_TIMEOUT_SECONDS : Int := 15

/-- Header: `INSTANTSEND_FAILED_TIMEOUT_SECONDS = 60` of `instantsend.h`. -/
def INSTANTSEND_FAILED_TIMEOUT_SECONDS : Int := 60

/-- Header: `class CTxLockCandidate` of `instantsend.h`. -/
structure CTxLockCandidate where
  nConfirmedHeight : Int
  nTimeCreated : Int
  txLockRequest : CTxLockRequest
  mapOutPointLocks : List (COutPoint × COutPointLock)
  deriving DecidableEq, Repr

namespace CTxLockCandidate

/-- Header: `CTxLockCandidate(const CTxLockRequest& txLockRequestIn)`: confirmed height
-1, creation time `GetTime()`, no outpoint locks. -/
def new (now : Int) (txLockRequestIn : CTxLockRequest) : CTxLockCandidate :=
  { nConfirmedHeight := -1, nTimeCreated := now,
    txLockRequest := txLockRequestIn, mapOutPointLocks := [] }

/-- Header: `uint256 GetHash() const { return txLockRequest.GetHash(); }` -/
def GetHash (c : CTxLockCandidate) : uint256 := c.txLockRequest.GetHash

/-- Modelled from the spec: the body of `CTxLockCandidate::AddOutPointLock`
(declared in `instantsend.h`, defined in `instantsend.cpp`, which is not part of
the sources).  Spec §4.4: "`addOutpointLock(outpoint)` idempotently ensures an
Outpoint Lock entry exists for that input"; a new entry is the lock
`COutPointLock(outpoint)` of the header. -/
def AddOutPointLock (c : CTxLockCandidate) (outpoint : COutPoint) : CTxLockCandidate :=
  { c with mapOutPointLocks :=
      (mapEmplace c.mapOutPointLocks outpoint (COutPointLock.new outpoint)).1 }

/-- Modelled from the spec: the body of `CTxLockCandidate::MarkOutpointAsAttacked`
(declared in `instantsend.h`, defined in `instantsend.cpp`, which is not part of
the sources).  Spec §4.5: "mark every Outpoint Lock for that UTXO across all
contending candidates as attacked": the lock of this candidate for the outpoint,
when it has one, is marked with `COutPointLock::MarkAsAttacked`. -/
def MarkOutpointAsAttacked (c : CTxLockCandidate) (outpoint : COutPoint) : CTxLockCandidate :=
  { c with mapOutPointLocks :=
      mapModify c.mapOutPointLocks outpoint COutPointLock.MarkAsAttacked }

/-- Modelled from the spec: the body of `CTxLockCandidate::AddVote` (declared in
`instantsend.h`, defined in `instantsend.cpp`, which is not part of the sources).
Spec §4.4: "`addVote(vote)` routes to the matching Outpoint Lock by the vote's
target outpoint; fails if no such Outpoint Lock exists yet … or if the
underlying Outpoint Lock's `addVote` rejects it".  The result is the returned
flag and the candidate afterwards. -/
def AddVote (c : CTxLockCandidate) (vote : CTxLockVote) : Bool × CTxLockCandidate :=
  match mapFind c.mapOutPointLocks vote.GetOutpoint with
  | none => (false, c)
  | some l =>
      ((l.AddVote vote).1,
       { c with mapOutPointLocks :=
           mapModify c.mapOutPointLocks vote.GetOutpoint (fun l' => (l'.AddVote vote).2) })

/-- Modelled from the spec: the body of `CTxLockCandidate::IsAllOutPointsReady`
(declared in `instantsend.h`, defined in `instantsend.cpp`, which is not part of
the sources).  Spec §4.4: "logical AND of `isReady()` over every owned Outpoint
Lock, true vacuously only if the transaction has at least one input (a
transaction with zero tracked inputs is never considered ready)". -/
def IsAllOutPointsReady (c : CTxLockCandidate) : Bool :=
  if c.mapOutPointLocks.isEmpty then false
  else c.mapOutPointLocks.all (fun p => p.2.IsReady)

/-- Modelled from the spec: the body of `CTxLockCandidate::HasMasternodeVoted`
(declared in `instantsend.h`, defined in `instantsend.cpp`, which is not part of
the sources).  Spec §4.5: one vote per masternode per outpoint is enforced "by
consulting the candidate": the lookup of §4.3 in the lock of the outpoint, false
when the candidate has no lock for it. -/
def HasMasternodeVoted (c : CTxLockCandidate) (outpointIn outpointMasternodeIn : COutPoint) :
    Bool :=
  match mapFind c.mapOutPointLocks outpointIn with
  | none => false
  | some l => l.HasMasternodeVoted outpointMasternodeIn

/-- Modelled from the spec: the body of `CTxLockCandidate::IsTimedOut` (declared
in `instantsend.h`, defined in `instantsend.cpp`, which is not part of the
sources).  Spec §4.2 and §4.4: it "compares creation timestamp against the
lock-acceptance window (15 seconds …)", "anchored to the candidate's own
creation time". -/
def IsTimedOut (c : CTxLockCandidate) (now : Int) : Bool :=
  decide (now - c.nTimeCreated > INSTANTSEND_LOCK_TIMEOUT_SECONDS)

end CTxLockCandidate

/-! ### The orchestrator `CInstantSend`

The tables are the private members of `class CInstantSend` in `instantsend.h`.
The member functions are declared there and defined in `instantsend.cpp`, which
is not part of the sources; they are modelled from §4.5 of the specification.
The events of the model are the arrival of a lock request, the arrival of a lock
vote (a vote the node casts itself arrives like any other vote) and the
maintenance sweep.  Chain-tip handling (`UpdatedBlockTip`, `SyncTransaction`) is
outside the model, so confirmation heights keep their initial value -1. -/

namespace CTxLockVote

/-- The vote as the receiver holds it: the four wire fields come from the
message, the two local-only fields from the constructor `CTxLockVote()`
(`nConfirmedHeight(-1)`, `nTimeCreated(GetTime())`). -/
def received (now : Int) (v : CTxLockVote) : CTxLockVote :=
  { v with nConfirmedHeight := -1, nTimeCreated := now }

end CTxLockVote

/-- Modelled from the spec: the external collaborators of §6 (masternode registry,
signature check, request validation, mempool load), whose code is not part of the
sources, as oracles. -/
structure Env where
  /-- The hash behind `CTxLockVote::GetHash`, a function of the three identity
  fields. -/
  hashTriple : uint256 → COutPoint → COutPoint → uint256
  /-- Signature and masternode eligibility of a vote (`CTxLockVote::IsValid` and
  `CheckSignature`, which consult the masternode registry), at a given time. -/
  voteIsValid : Int → CTxLockVote → Bool
  /-- Validation of a lock request (`CTxLockRequest::IsValid`: fee and form). -/
  requestIsValid : CTxLockRequest → Bool
  /-- Whether a request is refused by the auto-lock throttle at a given time: it
  is not simple, was not requested by a wallet operation, and the mempool load
  exceeds the auto-lock threshold. -/
  autoLockThrottled : Int → CTxLockRequest → Bool
  /-- The per-masternode rate limit on orphan votes, from the table of last
  orphan-vote times; the statistic is left open by the specification (§9). -/
  orphanVoteThrottled : Int → List (COutPoint × Int) → COutPoint → Bool
  /-- Whether the retention window of the rejected record of a request has
  elapsed at a given time; the header stores no time with such a record. -/
  rejectedRecordExpired : Int → uint256 → Bool

/-- Modelled from the spec: the body of `CTxLockVote::GetHash` (defined in
`instantsend.cpp`, not part of the sources).  Spec §3: "Identity/hash for
deduplication excludes the signature field", and the two local-only fields are
"not part of the wire identity". -/
def CTxLockVote.GetHash (env : Env) (v : CTxLockVote) : uint256 :=
  env.hashTriple v.txHash v.outpoint v.outpointMasternode

/-- The data members of `class CInstantSend` (`instantsend.h`), in declaration
order. -/
structure CInstantSend where
  nCachedBlockHeight : Int
  mapLockRequestAccepted : List (uint256 × CTxLockRequest)
  mapLockRequestRejected : List (uint256 × CTxLockRequest)
  mapTxLockVotes : List (uint256 × CTxLockVote)
  mapTxLockVotesOrphan : List (uint256 × CTxLockVote)
  mapTxLockCandidates : List (uint256 × CTxLockCandidate)
  mapVotedOutpoints : List (COutPoint × List uint256)
  mapLockedOutpoints : List (COutPoint × uint256)
  mapMasternodeOrphanVotes : List (COutPoint × Int)
  deriving DecidableEq, Repr

namespace CInstantSend

/-- The state at process start: the global `instantsend` object, every table
empty. -/
def init : CInstantSend :=
  { nCachedBlockHeight := 0, mapLockRequestAccepted := [], mapLockRequestRejected := [],
    mapTxLockVotes := [], mapTxLockVotesOrphan := [], mapTxLockCandidates := [],
    mapVotedOutpoints := [], mapLockedOutpoints := [], mapMasternodeOrphanVotes := [] }

/-- Modelled from the spec: the body of `CInstantSend::GetLockedOutPointTxHash`
(defined in `instantsend.cpp`, not part of the sources).  Spec §6:
"`lockedUtxoOwner(outpoint) -> txHash?`", read from the "forward index from UTXO
to the transaction hash that has won the lock on it".  `none` is the C++ result
`false`, `some h` is `true` with `hashRet = h`. -/
def GetLockedOutPointTxHash (s : CInstantSend) (outpoint : COutPoint) : Option uint256 :=
  mapFind s.mapLockedOutpoints outpoint

/-- Modelled from the spec: the body of `CInstantSend::IsLockedInstantSendTransaction`
(defined in `instantsend.cpp`, not part of the sources).  Spec §4.5: the state of
a transaction follows "from table membership", and finalization is to "record
every input's UTXO as won by this transaction hash": a transaction is locked
when it has a candidate that tracks at least one input and every tracked input
is recorded as won by the transaction. -/
def IsLockedInstantSendTransaction (s : CInstantSend) (txHash : uint256) : Bool :=
  match mapFind s.mapTxLockCandidates txHash with
  | none => false
  | some c =>
      !c.mapOutPointLocks.isEmpty &&
      c.mapOutPointLocks.all (fun p => decide (s.GetLockedOutPointTxHash p.1 = some txHash))

/-- Modelled from the spec: `CInstantSend::AcceptLockRequest` (defined in
`instantsend.cpp`, not part of the sources): the request is recorded in the
accepted table of §3. -/
def AcceptLockRequest (s : CInstantSend) (txLockRequest : CTxLockRequest) : CInstantSend :=
  { s with mapLockRequestAccepted :=
      (mapEmplace s.mapLockRequestAccepted txLockRequest.GetHash txLockRequest).1 }

/-- Modelled from the spec: `CInstantSend::RejectLockRequest` (defined in
`instantsend.cpp`, not part of the sources): the request is "recorded in the
rejected table for replay suppression" (§4.5). -/
def RejectLockRequest (s : CInstantSend) (txLockRequest : CTxLockRequest) : CInstantSend :=
  { s with mapLockRequestRejected :=
      (mapEmplace s.mapLockRequestRejected txLockRequest.GetHash txLockRequest).1 }

/-- Modelled from the spec: `CInstantSend::CreateEmptyTxLockCandidate` (defined in
`instantsend.cpp`, not part of the sources).  Spec §3: a candidate is created on
the "first orphaned vote for a not-yet-seen transaction (as an empty shell
awaiting the request)". -/
def CreateEmptyTxLockCandidate (now : Int) (s : CInstantSend) (txHash : uint256) :
    CInstantSend :=
  { s with mapTxLockCandidates :=
      (mapEmplace s.mapTxLockCandidates txHash
        (CTxLockCandidate.new now CTxLockRequest.empty)).1 }

/-- Modelled from the spec: `CInstantSend::CreateTxLockCandidate` (defined in
`instantsend.cpp`, not part of the sources).  Spec §4.5: "create or fetch the
Lock Candidate, call `addOutpointLock` for every input"; a fetched empty shell
receives the request it was awaiting. -/
def CreateTxLockCandidate (now : Int) (s : CInstantSend) (txLockRequest : CTxLockRequest) :
    CInstantSend :=
  let fill : CTxLockCandidate → CTxLockCandidate := fun c =>
    txLockRequest.tx.vin.foldl CTxLockCandidate.AddOutPointLock
      (if c.txLockRequest.toBool then c else { c with txLockRequest := txLockRequest })
  match mapFind s.mapTxLockCandidates txLockRequest.GetHash with
  | none =>
      { s with mapTxLockCandidates :=
          s.mapTxLockCandidates ++
            [(txLockRequest.GetHash, fill (CTxLockCandidate.new now txLockRequest))] }
  | some _ =>
      { s with mapTxLockCandidates :=
          mapModify s.mapTxLockCandidates txLockRequest.GetHash fill }

/-- Modelled from the spec: the test of `CInstantSend::UpdateVotedOutpoints`
(defined in `instantsend.cpp`, not part of the sources) for "more than one
distinct transaction hash contending for the same UTXO" (§4.5): the list holds two
different hashes. -/
def hasConflict (txs : List uint256) : Bool :=
  txs.any (fun a => txs.any (fun b => decide (a ≠ b)))

/-- Modelled from the spec: `CInstantSend::UpdateVotedOutpoints` (defined in
`instantsend.cpp`, not part of the sources).  Spec §4.5: "update the
UTXO→voting-transaction-set reverse index; if that index now shows more than one
distinct transaction hash contending for the same UTXO, mark every Outpoint Lock
for that UTXO across all contending candidates as attacked". -/
def UpdateVotedOutpoints (s : CInstantSend) (vote : CTxLockVote) : CInstantSend :=
  let voted :=
    match mapFind s.mapVotedOutpoints vote.GetOutpoint with
    | none => s.mapVotedOutpoints ++ [(vote.GetOutpoint, [vote.GetTxHash])]
    | some _ =>
        mapModify s.mapVotedOutpoints vote.GetOutpoint (fun txs => setInsert txs vote.GetTxHash)
  let txs := (mapFind voted vote.GetOutpoint).getD []
  { s with
    mapVotedOutpoints := voted,
    mapTxLockCandidates :=
      if hasConflict txs then
        s.mapTxLockCandidates.map (fun p =>
          if p.1 ∈ txs then (p.1, p.2.MarkOutpointAsAttacked vote.GetOutpoint) else p)
      else s.mapTxLockCandidates }

/-- Modelled from the spec: `CInstantSend::ResolveConflicts` (defined in
`instantsend.cpp`, not part of the sources).  Spec §4.5: finalization goes ahead
when "the UTXO→winner index has no conflicting entry"; the result is true when no
tracked input is recorded as won by another transaction. -/
def ResolveConflicts (s : CInstantSend) (txLockCandidate : CTxLockCandidate) : Bool :=
  txLockCandidate.mapOutPointLocks.all (fun p =>
    match s.GetLockedOutPointTxHash p.1 with
    | none => true
    | some h => decide (h = txLockCandidate.GetHash))

/-- Modelled from the spec: `CInstantSend::LockTransactionInputs` (defined in
`instantsend.cpp`, not part of the sources).  Spec §4.5: "record every input's
UTXO as won by this transaction hash". -/
def LockTransactionInputs (s : CInstantSend) (txLockCandidate : CTxLockCandidate) :
    CInstantSend :=
  let locked := txLockCandidate.mapOutPointLocks.foldl
    (fun m p => (mapEmplace m p.1 txLockCandidate.GetHash).1) s.mapLockedOutpoints
  { s with mapLockedOutpoints := locked }

/-- Modelled from the spec: `CInstantSend::TryToFinalizeLockCandidate` (defined in
`instantsend.cpp`, not part of the sources).  Spec §4.5, Finalize: "check
`isAllOutPointsReady()`; if true and the UTXO→winner index has no conflicting
entry, record every input's UTXO as won by this transaction hash … If a
conflicting winner already exists for the same UTXO, … the existing winner is
authoritative and the late contender is rejected". -/
def TryToFinalizeLockCandidate (s : CInstantSend) (txLockCandidate : CTxLockCandidate) :
    CInstantSend :=
  if txLockCandidate.IsAllOutPointsReady then
    if s.ResolveConflicts txLockCandidate then s.LockTransactionInputs txLockCandidate
    else s.RejectLockRequest txLockCandidate.txLockRequest
  else s

/-- Modelled from the spec: the one-vote-per-masternode-per-outpoint check inside
`CInstantSend::ProcessNewTxLockVote` (defined in `instantsend.cpp`, not part of
the sources).  Spec §4.5: it is made "by consulting the candidate (if known) or
the orphan table (if not)".  A transaction is known when its candidate holds a
request. -/
def HasMasternodeVoted (s : CInstantSend) (vote : CTxLockVote) : Bool :=
  let inOrphans := s.mapTxLockVotesOrphan.any (fun p =>
    decide (p.2.GetTxHash = vote.GetTxHash ∧ p.2.GetOutpoint = vote.GetOutpoint ∧
      p.2.GetMasternodeOutpoint = vote.GetMasternodeOutpoint))
  match mapFind s.mapTxLockCandidates vote.GetTxHash with
  | none => inOrphans
  | some c =>
      if c.txLockRequest.toBool then
        c.HasMasternodeVoted vote.GetOutpoint vote.GetMasternodeOutpoint
      else inOrphans

/-- Modelled from the spec: the end of `CInstantSend::ProcessNewTxLockVote`
(defined in `instantsend.cpp`, not part of the sources) for a vote that has been
matched into its candidate, which is now `c`: the candidate is stored, the vote
enters the vote table, and finalization is attempted ("after any successful vote
insertion", §4.5). -/
def StoreVote (env : Env) (s : CInstantSend) (vote : CTxLockVote) (c : CTxLockCandidate) :
    CInstantSend :=
  TryToFinalizeLockCandidate
    { s with
      mapTxLockCandidates := mapModify s.mapTxLockCandidates vote.GetTxHash (fun _ => c),
      mapTxLockVotes := (mapEmplace s.mapTxLockVotes (vote.GetHash env) vote).1 }
    c

/-- Modelled from the spec: the orphan branch of
`CInstantSend::ProcessNewTxLockVote` (defined in `instantsend.cpp`, not part of
the sources).  Spec §4.5: "If the vote's transaction is unknown, park it in the
orphan vote table …, subject to a per-masternode rate limit"; the first
orphaned vote of a transaction creates its empty candidate (§3).  The orphan table
is keyed by vote hash, as the header declares it.  The flag tells whether the vote
was kept. -/
def ParkOrphanVote (env : Env) (now : Int) (s : CInstantSend) (vote : CTxLockVote) :
    Bool × CInstantSend :=
  if env.orphanVoteThrottled now s.mapMasternodeOrphanVotes vote.GetMasternodeOutpoint then
    (false, s)
  else
    let s₁ := CreateEmptyTxLockCandidate now s vote.GetTxHash
    (true,
      { s₁ with
        mapTxLockVotesOrphan := (mapEmplace s₁.mapTxLockVotesOrphan (vote.GetHash env) vote).1,
        mapMasternodeOrphanVotes :=
          mapErase s₁.mapMasternodeOrphanVotes vote.GetMasternodeOutpoint ++
            [(vote.GetMasternodeOutpoint, now)] })

/-- Modelled from the spec: `CInstantSend::ProcessNewTxLockVote` (defined in
`instantsend.cpp`, not part of the sources).  Spec §4.5, Receive vote: "Verify
signature and masternode eligibility; on failure, drop the vote …  On structural
success, enforce one-vote-per-masternode-per-outpoint …; update the
UTXO→voting-transaction-set reverse index; … mark every Outpoint Lock for that
UTXO across all contending candidates as attacked …  If the vote's transaction is
unknown, park it in the orphan vote table".  A vote for a known transaction whose
candidate has timed out does not count (§8: votes count "within the 15-second
window"); a vote whose outpoint the candidate does not track "is then orphaned by
the caller" (§4.4).  The flag tells whether the vote was kept. -/
def ProcessNewTxLockVote (env : Env) (now : Int) (s : CInstantSend) (vote : CTxLockVote) :
    Bool × CInstantSend :=
  if !env.voteIsValid now vote then (false, s)
  else if s.HasMasternodeVoted vote then (false, s)
  else
    let s₁ := s.UpdateVotedOutpoints vote
    match mapFind s₁.mapTxLockCandidates vote.GetTxHash with
    | none => ParkOrphanVote env now s₁ vote
    | some c =>
        if !c.txLockRequest.toBool then ParkOrphanVote env now s₁ vote
        else if c.IsTimedOut now then (false, s₁)
        else if (c.AddVote vote).1 then (true, StoreVote env s₁ vote (c.AddVote vote).2)
        else ParkOrphanVote env now s₁ vote

/-- Modelled from the spec: `CInstantSend::ProcessOrphanTxLockVote` (defined in
`instantsend.cpp`, not part of the sources): one parked vote is replayed "against
the now-populated candidate" (§4.5).  It goes through the steps of a received
vote that follow the signature check; once matched into the candidate it leaves
the orphan table. -/
def ProcessOrphanTxLockVote (env : Env) (now : Int) (s : CInstantSend) (vote : CTxLockVote) :
    CInstantSend :=
  match mapFind s.mapTxLockCandidates vote.GetTxHash with
  | none => s
  | some c₀ =>
      if !c₀.txLockRequest.toBool then s
      else if c₀.HasMasternodeVoted vote.GetOutpoint vote.GetMasternodeOutpoint then s
      else
        let s₁ := s.UpdateVotedOutpoints vote
        match mapFind s₁.mapTxLockCandidates vote.GetTxHash with
        | none => s₁
        | some c =>
            if c.IsTimedOut now then s₁
            else if (c.AddVote vote).1 then
              StoreVote env
                { s₁ with mapTxLockVotesOrphan :=
                    mapErase s₁.mapTxLockVotesOrphan (vote.GetHash env) }
                vote (c.AddVote vote).2
            else s₁

/-- Modelled from the spec: `CInstantSend::ProcessOrphanTxLockVotes` (defined in
`instantsend.cpp`, not part of the sources), for the transaction just accepted:
"replay any previously orphaned votes matching this transaction hash" (§4.5). -/
def ProcessOrphanTxLockVotes (env : Env) (now : Int) (s : CInstantSend) (txHash : uint256) :
    CInstantSend :=
  ((s.mapTxLockVotesOrphan.filter (fun p => decide (p.2.GetTxHash = txHash))).map Prod.snd).foldl
    (ProcessOrphanTxLockVote env now) s

/-- Modelled from the spec: `CInstantSend::ProcessTxLockRequest` with the
bookkeeping of its caller (defined in `instantsend.cpp`, not part of the
sources).  Spec §4.5, Accept request: "reject immediately (→ Rejected, recorded in
the rejected table for replay suppression) if it fails validation … or if …
mempool load exceeds a configured auto-lock threshold …  On acceptance, create or
fetch the Lock Candidate, call `addOutpointLock` for every input, then replay any
previously orphaned votes matching this transaction hash"; and §8: "replaying an
already-accepted Lock Request … is a no-op".  The flag tells whether the request
was accepted by this call. -/
def ProcessTxLockRequest (env : Env) (now : Int) (s : CInstantSend)
    (txLockRequest : CTxLockRequest) : Bool × CInstantSend :=
  if mapCount s.mapLockRequestAccepted txLockRequest.GetHash
      || mapCount s.mapLockRequestRejected txLockRequest.GetHash then (false, s)
  else if !env.requestIsValid txLockRequest || env.autoLockThrottled now txLockRequest then
    (false, s.RejectLockRequest txLockRequest)
  else
    (true,
      ProcessOrphanTxLockVotes env now
        (CreateTxLockCandidate now (s.AcceptLockRequest txLockRequest) txLockRequest)
        txLockRequest.GetHash)

/-- Modelled from the spec: the handling of a received lock vote in
`CInstantSend::ProcessMessage` (defined in `instantsend.cpp`, not part of the
sources).  Spec §4.5: "deduplicate by vote hash (ignore if already known-valid or
already known-orphan)", then process the vote. -/
def ProcessTxLockVote (env : Env) (now : Int) (s : CInstantSend) (vote : CTxLockVote) :
    Bool × CInstantSend :=
  let v := CTxLockVote.received now vote
  if mapCount s.mapTxLockVotes (v.GetHash env) || mapCount s.mapTxLockVotesOrphan (v.GetHash env)
  then (false, s)
  else ProcessNewTxLockVote env now s v

/-- Modelled from the spec: the body of `CTxLockVote::IsFailed` (defined in
`instantsend.cpp`, not part of the sources).  Spec §4.2: it "marks votes belonging
to a candidate that failed to reach quorum within the longer retention window (60
seconds)". -/
def IsFailed (s : CInstantSend) (now : Int) (v : CTxLockVote) : Bool :=
  decide (now - v.nTimeCreated > INSTANTSEND_FAILED_TIMEOUT_SECONDS) &&
    !s.IsLockedInstantSendTransaction v.GetTxHash

/-- Modelled from the spec: the test `CInstantSend::CheckAndRemove` (defined in
`instantsend.cpp`, not part of the sources) applies to the candidate stored under
`txHash`.  Spec §4.5, Timeout sweep: "any Pending candidate whose `isTimedOut()`
holds without having reached `isAllOutPointsReady()`"; a finalized candidate is
not Pending. -/
def IsFailedCandidate (s : CInstantSend) (now : Int) (txHash : uint256)
    (c : CTxLockCandidate) : Bool :=
  c.IsTimedOut now && !c.IsAllOutPointsReady && !s.IsLockedInstantSendTransaction txHash

/-- Modelled from the spec: `CInstantSend::CheckAndRemove` (defined in
`instantsend.cpp`, not part of the sources).  Spec §4.5, Timeout sweep: a failed
candidate "is moved to Rejected/Failed bookkeeping retained only for the 60-second
dedup window, then purged.  Any vote (accepted or orphaned) beyond its own
expiry/failed window is purged independently.  Purging never removes a finalized
(Locked) entry".  The failed window is `IsFailed`; the height-based expiry of §4.2
never applies here, since confirmation heights stay at -1.  The index of won
outpoints is not touched. -/
def CheckAndRemove (env : Env) (now : Int) (s : CInstantSend) : CInstantSend :=
  let failed := s.mapTxLockCandidates.filter (fun p => s.IsFailedCandidate now p.1 p.2)
  let failedHashes := failed.map Prod.fst
  let moved := (failed.filter (fun p => p.2.txLockRequest.toBool)).foldl
    (fun m p => (mapEmplace m p.1 p.2.txLockRequest).1) s.mapLockRequestRejected
  { s with
    mapTxLockCandidates := s.mapTxLockCandidates.filter (fun p => decide (p.1 ∉ failedHashes)),
    mapLockRequestAccepted :=
      s.mapLockRequestAccepted.filter (fun p => decide (p.1 ∉ failedHashes)),
    mapLockRequestRejected := moved.filter (fun p => !env.rejectedRecordExpired now p.1),
    mapTxLockVotes := s.mapTxLockVotes.filter (fun p => !s.IsFailed now p.2),
    mapTxLockVotesOrphan := s.mapTxLockVotesOrphan.filter (fun p => !s.IsFailed now p.2) }

/-- The events the orchestrator reacts to, each with the clock reading at which
it is handled. -/
inductive Event where
  | lockRequest (now : Int) (txLockRequest : CTxLockRequest)
  | lockVote (now : Int) (vote : CTxLockVote)
  | checkAndRemove (now : Int)
  deriving Repr

/-- The state after one event. -/
def step (env : Env) (s : CInstantSend) : Event → CInstantSend
  | .lockRequest now txLockRequest => (ProcessTxLockRequest env now s txLockRequest).2
  | .lockVote now vote => (ProcessTxLockVote env now s vote).2
  | .checkAndRemove now => CheckAndRemove env now s

/-- The state after a finite sequence of events, first event first. -/
def run (env : Env) (s : CInstantSend) (events : List Event) : CInstantSend :=
  events.foldl (step env) s

/-- The states the orchestrator can be in: those reached from the state at
process start by a finite sequence of events. -/
def Reachable (env : Env) (s : CInstantSend) : Prop :=
  ∃ events : List Event, s = run env init events

end CInstantSend

/-! ### Observations on the tables, used to state the invariants -/

/-- The outpoint lock that the candidate of transaction `txHash` holds for
outpoint `o`, when there is one. -/
def lockOf (cands : List (uint256 × CTxLockCandidate)) (txHash : uint256) (o : COutPoint) :
    Option COutPointLock :=
  match mapFind cands txHash with
  | none => none
  | some c => mapFind c.mapOutPointLocks o

/-- The transaction hashes the reverse index records as voted for on outpoint `o`. -/
def votedFor (voted : List (COutPoint × List uint256)) (o : COutPoint) : List uint256 :=
  (mapFind voted o).getD []

/-- The invariant behind the conflict property.  A lock that holds a vote belongs
to a transaction the reverse index lists for its outpoint; and when the index
lists two different transactions for an outpoint, the lock of each listed
transaction for that outpoint is marked attacked or holds no vote yet. -/
def ConflictInv (cands : List (uint256 × CTxLockCandidate))
    (voted : List (COutPoint × List uint256)) : Prop :=
  (∀ tx o l, lockOf cands tx o = some l → l.mapMasternodeVotes ≠ [] → tx ∈ votedFor voted o) ∧
  (∀ tx o l, lockOf cands tx o = some l → CInstantSend.hasConflict (votedFor voted o) = true →
    tx ∈ votedFor voted o → l.fAttacked = true ∨ l.mapMasternodeVotes = [])

/-- The index of won outpoints `m'` extends `m`: every winner recorded in `m` is
still recorded in `m'`, and `m'` has at most one entry per outpoint if `m` has. -/
def LockedExt (m m' : List (COutPoint × uint256)) : Prop :=
  (∀ o tx, mapFind m o = some tx → mapFind m' o = some tx) ∧
  ((m.map Prod.fst).Nodup → (m'.map Prod.fst).Nodup)

/-- The candidate of a request with the single input `u`, created at time `t₀`,
whose lock for `u` is not attacked and holds the votes `done`, oldest first. -/
def collectingCandidate (r : CTxLockRequest) (u : COutPoint) (t₀ : Int)
    (done : List CTxLockVote) : CTxLockCandidate :=
  { nConfirmedHeight := -1, nTimeCreated := t₀, txLockRequest := r,
    mapOutPointLocks :=
      [(u, { outpoint := u,
             mapMasternodeVotes := done.map (fun v => (v.GetMasternodeOutpoint, v)),
             fAttacked := false })] }

/-- The state `s` of an orchestrator that started from `s₀`, accepted the request
`r` with the single input `u` at time `t₀` and has since counted the votes `done`
for it, with no other transaction voted for on `u`: the candidate is
`collectingCandidate`, the reverse index lists no other transaction for `u`, `u`
is recorded as won by the transaction exactly when ten votes are in, the orphan
table is the one of `s₀`, and the vote table knows the votes of `s₀` and `done`. -/
def Collecting (env : Env) (s₀ s : CInstantSend) (r : CTxLockRequest) (u : COutPoint)
    (t₀ : Int) (done : List CTxLockVote) : Prop :=
  mapFind s.mapTxLockCandidates r.GetHash = some (collectingCandidate r u t₀ done) ∧
  (∀ x ∈ votedFor s.mapVotedOutpoints u, x = r.GetHash) ∧
  mapFind s.mapLockedOutpoints u = (if 10 ≤ done.length then some r.GetHash else none) ∧
  s.mapTxLockVotesOrphan = s₀.mapTxLockVotesOrphan ∧
  (∀ h, mapCount s.mapTxLockVotes h = true →
    mapCount s₀.mapTxLockVotes h = true ∨ h ∈ done.map (CTxLockVote.GetHash env))

/-! ### Concrete scenarios -/

namespace Scenario

/-- Collaborators that accept every vote and every request and never throttle. -/
def env : Env :=
  { hashTriple := fun h o m => 1000 * h + 100 * o.n + m.n,
    voteIsValid := fun _ _ => true,
    requestIsValid := fun _ => true,
    autoLockThrottled := fun _ _ => false,
    orphanVoteThrottled := fun _ _ _ => false,
    rejectedRecordExpired := fun _ _ => false }

/-- The contested outpoint: output 0 of transaction 7. -/
def U : COutPoint := { hash := 7, n := 0 }

/-- The collateral outpoint of masternode number `i`. -/
def masternode (i : Nat) : COutPoint := { hash := 50, n := i }

/-- A lock request for the transaction with hash `h` that spends `U`. -/
def request (h : uint256) : CTxLockRequest := { tx := { hash := h, vin := [U] } }

/-- The vote of masternode `i` for input `U` of transaction `h`, as sent. -/
def vote (h : uint256) (i : Nat) : CTxLockVote :=
  { txHash := h, outpoint := U, outpointMasternode := masternode i,
    vchMasternodeSignature := [i], nConfirmedHeight := -1, nTimeCreated := 0 }

/-- The candidate of transaction `h`, created at time `t`, holding the single
lock `l`. -/
def candidate (t : Int) (h : uint256) (l : COutPointLock) : CTxLockCandidate :=
  { nConfirmedHeight := -1, nTimeCreated := t, txLockRequest := request h,
    mapOutPointLocks := [(U, l)] }

/-- Ten lock-vote events at time `t`: masternodes 1 to 10 vote for input `U` of
transaction `h`. -/
def tenVotes (t : Int) (h : uint256) : List CInstantSend.Event :=
  (List.range 10).map (fun i => .lockVote t (vote h (i + 1)))

/-- Transaction 1 is requested and receives ten votes on `U`. -/
def lockEvents : List CInstantSend.Event :=
  .lockRequest 100 (request 1) :: tenVotes 101 1

/-- Afterwards transaction 2, which also spends `U`, is requested and receives ten
votes on `U`. -/
def lateEvents : List CInstantSend.Event :=
  .lockRequest 102 (request 2) :: tenVotes 103 2

/-- The lock for `U` of transaction 2 after `lockEvents` and `lateEvents`: ten
votes, marked attacked. -/
def lateLock : COutPointLock :=
  { outpoint := U,
    mapMasternodeVotes :=
      (List.range 10).map (fun i => (masternode (i + 1), CTxLockVote.received 103 (vote 2 (i + 1)))),
    fAttacked := true }

/-- The votes of masternodes 1 to `n` for input `U` of transaction 1, each handled
at time 101. -/
def timedVotes (n : Nat) : List (Int × CTxLockVote) :=
  (List.range n).map (fun i => (101, vote 1 (i + 1)))

end Scenario

/-! ### Stormnode payment votes (`stormnode-payments.cpp`)

The functions are those of `src/stormnode-payments.cpp`.  The header
`stormnode-payments.h`, the stormnode registry, the sync manager, the spork
manager and the message signer are not part of the sources: the constants and the
collaborators enter as the fields of `PayEnv`.  Log output is left out; the calls
that act on the peer or on other subsystems are collected, in order, as a list of
`Effect`s.  `int` values are mathematical integers (block heights, ranks and
vote counts). -/

/-- A script: its bytes. -/
abbrev CScript := List Nat

/-- A transaction input as the payment code uses it: the outpoint it spends. -/
structure CTxIn where
  prevout : COutPoint
  deriving DecidableEq, Repr

/-- A stormnode payment vote: the fields `stormnode-payments.cpp` reads and
writes. -/
structure CStormnodePaymentVote where
  vinStormnode : CTxIn
  nBlockHeight : Int
  payee : CScript
  vchSig : List Nat
  deriving DecidableEq, Repr

/-- An entry of the stormnode registry: the fields the payment code reads. -/
structure CStormnode where
  nProtocolVersion : Int
  pubKeyStormnode : Nat
  deriving DecidableEq, Repr

/-- A payee of a block with the hashes of the votes for it; `GetPayee()` is
`scriptPubKey` and `GetVoteCount()` is the number of hashes. -/
structure CStormnodePayee where
  scriptPubKey : CScript
  vecVoteHashes : List uint256
  deriving DecidableEq, Repr

/-- The payees voted for at one block height. -/
structure CStormnodeBlockPayees where
  nBlockHeight : Int
  vecPayees : List CStormnodePayee
  deriving DecidableEq, Repr

/-- The peer a message comes from: the fields of `CNode` the payment code reads. -/
structure CNode where
  id : Int
  nVersion : Int
  addr : Nat
  deriving DecidableEq, Repr

/-- The sporks `stormnode-payments.cpp` consults. -/
inductive Spork where
  | SPORK_8_STORMNODE_PAYMENT_ENFORCEMENT
  | SPORK_9_SUPERBLOCKS_ENABLED
  | SPORK_10_STORMNODE_PAY_UPDATED_NODES
  | SPORK_13_OLD_SUPERBLOCK_FLAG
  deriving DecidableEq, Repr

/-- The calls of the payment code that act outside its own tables. -/
inductive Effect where
  /-- `Misbehaving(nodeId, howmuch)`: the misbehavior score of the peer grows. -/
  | Misbehaving (nodeId : Int) (howmuch : Int)
  /-- `snodeman.AskForSN(pnode, vin)`: the record of a stormnode is requested. -/
  | AskForSN (nodeId : Int) (vin : CTxIn)
  /-- `vote.Relay()`: the inventory of the vote with this hash is relayed. -/
  | Relay (hash : uint256)
  /-- `stormnodeSync.AddedPaymentVote()`. -/
  | AddedPaymentVote
  /-- `netfulfilledman.AddFulfilledRequest(addr, STORMNODEPAYMENTSYNC)`. -/
  | AddFulfilledRequest (addr : Nat)
  /-- `Sync(pfrom, nCountNeeded)`: the stored votes are announced to the peer. -/
  | Sync (nodeId : Int) (nCountNeeded : Int)
  deriving DecidableEq, Repr

/-- The total by which a list of effects raises the misbehavior score of a peer. -/
def misbehaviorScore (nodeId : Int) : List Effect → Int
  | [] => 0
  | .Misbehaving n howmuch :: rest =>
      (if n = nodeId then howmuch else 0) + misbehaviorScore nodeId rest
  | _ :: rest => misbehaviorScore nodeId rest

/-- The constants of `stormnode-payments.h` and the collaborators of
`stormnode-payments.cpp`, none of which is part of the sources. -/
structure PayEnv where
  SNPAYMENTS_SIGNATURES_REQUIRED : Int
  SNPAYMENTS_SIGNATURES_TOTAL : Int
  MIN_STORMNODE_PAYMENT_PROTO_VERSION_1 : Int
  MIN_STORMNODE_PAYMENT_PROTO_VERSION_2 : Int
  /-- The global `fLiteMode`. -/
  fLiteMode : Bool
  /-- `stormnodeSync.IsStormnodeListSynced()`. -/
  IsStormnodeListSynced : Bool
  /-- `stormnodeSync.IsSynced()`. -/
  IsSynced : Bool
  /-- `sporkManager.IsSporkActive`. -/
  IsSporkActive : Spork → Bool
  /-- `snodeman.Find(vin)`: the registry entry, `none` for a null pointer. -/
  Find : CTxIn → Option CStormnode
  /-- `snodeman.GetStormnodeRank(vin, nBlockHeight, nMinProtocol)`. -/
  GetStormnodeRank : CTxIn → Int → Int → Int
  /-- The value of `int(snodeman.size() * nStorageCoeff)`, a floating-point
  product. -/
  scaledStormnodeCount : Int
  /-- The member `nMinBlocksToStore`. -/
  nMinBlocksToStore : Int
  /-- `GetBlockHash(hash, nBlockHeight)`: `none` when it returns false. -/
  GetBlockHash : Int → Option uint256
  /-- `CStormnodePaymentVote::GetHash()`. -/
  voteHash : CStormnodePaymentVote → uint256
  /-- `netfulfilledman.HasFulfilledRequest(addr, STORMNODEPAYMENTSYNC)`. -/
  HasFulfilledRequest : Nat → Bool
  /-- `COutPoint::ToStringShort()`. -/
  ToStringShort : COutPoint → String
  /-- `ScriptToAsmStr(script)`. -/
  ScriptToAsmStr : CScript → String
  /-- `sandStormSigner.SignMessage(strMessage, vchSigRet, key)`: the returned flag
  and the signature it leaves in `vchSigRet`. -/
  SignMessage : String → Nat → Bool × List Nat
  /-- `sandStormSigner.VerifyMessage(pubkey, vchSig, strMessage, strErrorRet)`. -/
  VerifyMessage : Nat → List Nat → String → Bool
  /-- `activeStormnode.keyStormnode`. -/
  keyStormnode : Nat
  /-- `activeStormnode.pubKeyStormnode`. -/
  pubKeyStormnode : Nat

/-- The data members of `CStormnodePayments` that `stormnode-payments.cpp` uses;
`pCurrentBlockIndex` is the height of the block index it points to, `none` for a
null pointer. -/
structure CStormnodePayments where
  mapStormnodePaymentVotes : List (uint256 × CStormnodePaymentVote)
  mapStormnodeBlocks : List (Int × CStormnodeBlockPayees)
  mapStormnodesLastVote : List (COutPoint × Int)
  pCurrentBlockIndex : Option Int
  deriving DecidableEq, Repr

namespace CStormnodePaymentVote

/-- The string both `Sign` and `CheckSignature` build:
`vinStormnode.prevout.ToStringShort() + boost::lexical_cast<std::string>(nBlockHeight)
+ ScriptToAsmStr(payee)`. -/
def strMessage (env : PayEnv) (vote : CStormnodePaymentVote) : String :=
  env.ToStringShort vote.vinStormnode.prevout ++ toString vote.nBlockHeight
    ++ env.ScriptToAsmStr vote.payee

/-- Source: `bool CStormnodePaymentVote::Sign()`; the result is the returned flag
and the vote afterwards (`SignMessage` writes `vchSig`). -/
def Sign (env : PayEnv) (vote : CStormnodePaymentVote) : Bool × CStormnodePaymentVote :=
  let signed := env.SignMessage (strMessage env vote) env.keyStormnode
  let vote' := { vote with vchSig := signed.2 }
  if !signed.1 then (false, vote')
  else if !env.VerifyMessage env.pubKeyStormnode vote'.vchSig (strMessage env vote) then
    (false, vote')
  else (true, vote')

/-- Source: `bool CStormnodePaymentVote::CheckSignature()`. -/
def CheckSignature (env : PayEnv) (vote : CStormnodePaymentVote) : Bool :=
  match env.Find vote.vinStormnode with
  | none => false
  | some psn =>
      if !env.VerifyMessage psn.pubKeyStormnode vote.vchSig (strMessage env vote) then false
      else true

end CStormnodePaymentVote

namespace CStormnodePayments

/-- Source: `int CStormnodePayments::GetMinStormnodePaymentsProto()`. -/
def GetMinStormnodePaymentsProto (env : PayEnv) : Int :=
  if env.IsSporkActive .SPORK_10_STORMNODE_PAY_UPDATED_NODES
  then env.MIN_STORMNODE_PAYMENT_PROTO_VERSION_2
  else env.MIN_STORMNODE_PAYMENT_PROTO_VERSION_1

/-- Source: `int CStormnodePayments::GetStorageLimit()`:
`std::max(int(snodeman.size() * nStorageCoeff), nMinBlocksToStore)`. -/
def GetStorageLimit (env : PayEnv) : Int :=
  max env.scaledStormnodeCount env.nMinBlocksToStore

end CStormnodePayments

/-- Source: `bool CStormnodePaymentVote::IsValid(CNode* pnode, int nValidationHeight,
std::string& strError)`; the result is the returned flag and the effects, the
error string is left out. -/
def CStormnodePaymentVote.IsValid (env : PayEnv) (vote : CStormnodePaymentVote)
    (pnode : CNode) (nValidationHeight : Int) : Bool × List Effect :=
  match env.Find vote.vinStormnode with
  | none =>
      (false, if env.IsSynced then [Effect.AskForSN pnode.id vote.vinStormnode] else [])
  | some psn =>
      let nMinRequiredProtocol :=
        if vote.nBlockHeight > nValidationHeight
        then CStormnodePayments.GetMinStormnodePaymentsProto env
        else env.MIN_STORMNODE_PAYMENT_PROTO_VERSION_1
      if psn.nProtocolVersion < nMinRequiredProtocol then (false, [])
      else
        let nRank :=
          env.GetStormnodeRank vote.vinStormnode (vote.nBlockHeight - 101) nMinRequiredProtocol
        if nRank > env.SNPAYMENTS_SIGNATURES_TOTAL then
          (false,
            if nRank > env.SNPAYMENTS_SIGNATURES_TOTAL * 2
                && decide (vote.nBlockHeight > nValidationHeight)
            then [Effect.Misbehaving pnode.id 20] else [])
        else (true, [])

namespace CStormnodeBlockPayees

/-- Source: `void CStormnodeBlockPayees::AddPayee(const CStormnodePaymentVote& vote)`,
with the hash of the vote as argument: the first payee with the script of the
vote receives the hash, otherwise a new payee is appended. -/
def AddPayee (b : CStormnodeBlockPayees) (payee : CScript) (hash : uint256) :
    CStormnodeBlockPayees :=
  let rec go : List CStormnodePayee → List CStormnodePayee
    | [] => [{ scriptPubKey := payee, vecVoteHashes := [hash] }]
    | p :: rest =>
        if p.scriptPubKey = payee then
          { p with vecVoteHashes := p.vecVoteHashes ++ [hash] } :: rest
        else p :: go rest
  { b with vecPayees := go b.vecPayees }

end CStormnodeBlockPayees

namespace CStormnodePayments

/-- Source: `bool CStormnodePayments::CanVote(COutPoint outStormnode, int nBlockHeight)`;
the result is the returned flag and the state afterwards. -/
def CanVote (s : CStormnodePayments) (outStormnode : COutPoint) (nBlockHeight : Int) :
    Bool × CStormnodePayments :=
  if mapFind s.mapStormnodesLastVote outStormnode = some nBlockHeight then (false, s)
  else
    (true,
      { s with mapStormnodesLastVote :=
          match mapFind s.mapStormnodesLastVote outStormnode with
          | none => s.mapStormnodesLastVote ++ [(outStormnode, nBlockHeight)]
          | some _ => mapModify s.mapStormnodesLastVote outStormnode (fun _ => nBlockHeight) })

/-- Source: `bool CStormnodePayments::AddPaymentVote(const CStormnodePaymentVote& vote)`;
the result is the returned flag and the state afterwards. -/
def AddPaymentVote (env : PayEnv) (s : CStormnodePayments) (vote : CStormnodePaymentVote) :
    Bool × CStormnodePayments :=
  match env.GetBlockHash (vote.nBlockHeight - 101) with
  | none => (false, s)
  | some _ =>
      if mapCount s.mapStormnodePaymentVotes (env.voteHash vote) then (false, s)
      else
        let votes := s.mapStormnodePaymentVotes ++ [(env.voteHash vote, vote)]
        let blocks :=
          if mapCount s.mapStormnodeBlocks vote.nBlockHeight then s.mapStormnodeBlocks
          else s.mapStormnodeBlocks ++
            [(vote.nBlockHeight, { nBlockHeight := vote.nBlockHeight, vecPayees := [] })]
        (true,
          { s with
            mapStormnodePaymentVotes := votes,
            mapStormnodeBlocks :=
              mapModify blocks vote.nBlockHeight
                (fun b => b.AddPayee vote.payee (env.voteHash vote)) })

/-- The messages `CStormnodePayments::ProcessMessage` reacts to, already decoded:
`STORMNODEPAYMENTSYNC` with its count, `STORMNODEPAYMENTVOTE` with its vote, and
any other command. -/
inductive Command where
  | STORMNODEPAYMENTSYNC (nCountNeeded : Int)
  | STORMNODEPAYMENTVOTE (vote : CStormnodePaymentVote)
  | other
  deriving Repr

/-- Source: `void CStormnodePayments::ProcessMessage(CNode* pfrom, std::string&
strCommand, CDataStream& vRecv)`; the result is the state afterwards and the
effects in the order of the calls.  `Sync` is recorded as one effect. -/
def ProcessMessage (env : PayEnv) (s : CStormnodePayments) (pfrom : CNode) :
    Command → CStormnodePayments × List Effect
  | .other =>
      (s, [])
  | .STORMNODEPAYMENTSYNC nCountNeeded =>
      if !env.IsStormnodeListSynced then (s, [])
      else if env.fLiteMode then (s, [])
      else if !env.IsSynced then (s, [])
      else if env.HasFulfilledRequest pfrom.addr then (s, [Effect.Misbehaving pfrom.id 20])
      else (s, [Effect.AddFulfilledRequest pfrom.addr, Effect.Sync pfrom.id nCountNeeded])
  | .STORMNODEPAYMENTVOTE vote =>
      if !env.IsStormnodeListSynced then (s, [])
      else if env.fLiteMode then (s, [])
      else if pfrom.nVersion < GetMinStormnodePaymentsProto env then (s, [])
      else
        match s.pCurrentBlockIndex with
        | none => (s, [])
        | some nHeight =>
            if mapCount s.mapStormnodePaymentVotes (env.voteHash vote) then (s, [])
            else
              let nFirstBlock := nHeight - GetStorageLimit env
              if vote.nBlockHeight < nFirstBlock || vote.nBlockHeight > nHeight + 20 then (s, [])
              else
                let valid := vote.IsValid env pfrom nHeight
                if !valid.1 then (s, valid.2)
                else
                  let canVote := s.CanVote vote.vinStormnode.prevout vote.nBlockHeight
                  if !canVote.1 then (canVote.2, valid.2)
                  else if !vote.CheckSignature env then
                    (canVote.2,
                      valid.2 ++
                        (if env.IsSynced && decide (vote.nBlockHeight > nHeight)
                          then [Effect.Misbehaving pfrom.id 20] else []) ++
                        [Effect.AskForSN pfrom.id vote.vinStormnode])
                  else
                    let added := AddPaymentVote env canVote.2 vote
                    if added.1 then
                      (added.2,
                        valid.2 ++ [Effect.Relay (env.voteHash vote), Effect.AddedPaymentVote])
                    else (added.2, valid.2)

end CStormnodePayments

namespace PaymentScenario

/-- Collaborators of a synced node: quorum of 10 with 6 required, tip-independent
registry that knows stormnode 1 (protocol 70200, public key 11) and ranks every
known stormnode by the output index of its collateral. -/
def env : PayEnv :=
  { SNPAYMENTS_SIGNATURES_REQUIRED := 6,
    SNPAYMENTS_SIGNATURES_TOTAL := 10,
    MIN_STORMNODE_PAYMENT_PROTO_VERSION_1 := 70100,
    MIN_STORMNODE_PAYMENT_PROTO_VERSION_2 := 70200,
    fLiteMode := false,
    IsStormnodeListSynced := true,
    IsSynced := true,
    IsSporkActive := fun _ => true,
    Find := fun vin =>
      if vin.prevout.hash = 50 then some { nProtocolVersion := 70200, pubKeyStormnode := 11 }
      else none,
    GetStormnodeRank := fun vin _ _ => vin.prevout.n,
    scaledStormnodeCount := 100,
    nMinBlocksToStore := 5000,
    GetBlockHash := fun h => some h.toNat,
    voteHash := fun v => v.vinStormnode.prevout.n + 1000 * v.nBlockHeight.toNat,
    HasFulfilledRequest := fun _ => false,
    ToStringShort := fun o => toString o.hash ++ "-" ++ toString o.n,
    ScriptToAsmStr := fun script => toString script,
    SignMessage := fun _ key => (true, [key]),
    VerifyMessage := fun pubkey sig _ => decide (sig = [pubkey]),
    keyStormnode := 11,
    pubKeyStormnode := 11 }

/-- The payments state of a node whose tip is at height 10000 and which holds no
vote. -/
def state : CStormnodePayments :=
  { mapStormnodePaymentVotes := [], mapStormnodeBlocks := [], mapStormnodesLastVote := [],
    pCurrentBlockIndex := some 10000 }

/-- The peer that sends the votes. -/
def peer : CNode := { id := 3, nVersion := 70200, addr := 77 }

/-- The vote of the stormnode with collateral output `rank` of transaction
`collateral` for block `height`. -/
def vote (collateral : uint256) (rank : Nat) (height : Int) : CStormnodePaymentVote :=
  { vinStormnode := { prevout := { hash := collateral, n := rank } },
    nBlockHeight := height, payee := [1, 2, 3], vchSig := [11] }

end PaymentScenario

/-! ### Block payees, payee selection and the payee output (`stormnode-payments.cpp`)

`CAmount` values are mathematical integers, and the subtraction of
`FillBlockPayee` is the 64-bit one (`wrapInt64`).  The instant-send part of the
development describes a transaction by its hash and inputs; the payment code
reads the outputs of a `const CTransaction&` through `PayoutEnv.vout` and
`PayoutEnv.GetValueOut`, and changes the outputs of a `CMutableTransaction`. -/

namespace CStormnodePayee

/-- The accessor `GetPayee()` of a payee entry: its script. -/
def GetPayee (p : CStormnodePayee) : CScript := p.scriptPubKey

/-- The accessor `GetVoteCount()` of a payee entry: the number of vote hashes. -/
def GetVoteCount (p : CStormnodePayee) : Int := p.vecVoteHashes.length

end CStormnodePayee

/-- A transaction output (`primitives/transaction.h`, not part of the sources):
the two fields the payment code reads and writes. -/
structure CTxOut where
  nValue : Int
  scriptPubKey : CScript
  deriving DecidableEq, Repr

/-- A transaction under construction: the outputs `FillBlockPayee` changes. -/
structure CMutableTransaction where
  vout : List CTxOut
  deriving DecidableEq, Repr

/-- What the payee code reads from outside (`validation.cpp`,
`primitives/transaction.h`, `stormnodeman.cpp`; not part of the sources). -/
structure PayoutEnv where
  /-- `GetStormnodePayment(nHeight, blockValue)`. -/
  GetStormnodePayment : Int → Int → Int
  /-- `CTransaction::GetValueOut()`. -/
  GetValueOut : CTransaction → Int
  /-- The member `vout` of a `CTransaction`. -/
  vout : CTransaction → List CTxOut
  /-- The value of a default constructed output, `CTxOut()`. -/
  emptyTxOut : CTxOut
  /-- `GetScriptForDestination(winningNode->pubKeyCollateralAddress.GetID())` for
  `winningNode = snodeman.GetNextStormnodeInQueueForPayment(nBlockHeight, true,
  nCount)`; `none` when `winningNode` is null. -/
  GetNextStormnodeInQueueForPayment : Int → Option CScript

namespace CStormnodeBlockPayees

/-- Source: `bool CStormnodeBlockPayees::GetBestPayee(CScript& payeeRet)`; the
result is the returned flag and `payeeRet` afterwards.  The pair threaded
through the loop is `(payeeRet, nVotes)`. -/
def GetBestPayee (b : CStormnodeBlockPayees) (payeeRet : CScript) : Bool × CScript :=
  if b.vecPayees.length = 0 then (false, payeeRet)
  else
    let r := b.vecPayees.foldl
      (fun (acc : CScript × Int) payee =>
        if payee.GetVoteCount > acc.2 then (payee.GetPayee, payee.GetVoteCount) else acc)
      (payeeRet, -1)
    (decide (r.2 > -1), r.1)

/-- Source: `bool CStormnodeBlockPayees::IsTransactionValid(const CTransaction& txNew)`;
the two nested loops return true at the first payee with enough votes that has
an output with its script and the payment value. -/
def IsTransactionValid (env : PayEnv) (penv : PayoutEnv) (b : CStormnodeBlockPayees)
    (txNew : CTransaction) : Bool :=
  let nStormnodePayment := penv.GetStormnodePayment b.nBlockHeight (penv.GetValueOut txNew)
  let nMaxSignatures := b.vecPayees.foldl
    (fun (n : Int) payee => if payee.GetVoteCount ≥ n then payee.GetVoteCount else n) 0
  if nMaxSignatures < env.SNPAYMENTS_SIGNATURES_REQUIRED then true
  else
    b.vecPayees.any fun payee =>
      decide (payee.GetVoteCount ≥ env.SNPAYMENTS_SIGNATURES_REQUIRED) &&
        (penv.vout txNew).any fun txout =>
          decide (payee.GetPayee = txout.scriptPubKey)
            && decide (nStormnodePayment = txout.nValue)

/-- The number of votes recorded for a script among the payees of a block. -/
def votesFor (b : CStormnodeBlockPayees) (script : CScript) : Int :=
  ((b.vecPayees.filter (fun p => decide (p.GetPayee = script))).map
    CStormnodePayee.GetVoteCount).sum

end CStormnodeBlockPayees

namespace CStormnodePayments

/-- Source: `bool CStormnodePayments::GetBlockPayee(int nBlockHeight, CScript& payee)`;
the result is the returned flag and `payee` afterwards. -/
def GetBlockPayee (s : CStormnodePayments) (nBlockHeight : Int) (payee : CScript) :
    Bool × CScript :=
  match mapFind s.mapStormnodeBlocks nBlockHeight with
  | some b => b.GetBestPayee payee
  | none => (false, payee)

/-- Source: `bool CStormnodePayments::IsTransactionValid(const CTransaction& txNew,
int nBlockHeight)`. -/
def IsTransactionValid (env : PayEnv) (penv : PayoutEnv) (s : CStormnodePayments)
    (txNew : CTransaction) (nBlockHeight : Int) : Bool :=
  match mapFind s.mapStormnodeBlocks nBlockHeight with
  | some b => b.IsTransactionValid env penv txNew
  | none => true

/-- Source: `void CStormnodePayments::FillBlockPayee(CMutableTransaction& txNew, int
nBlockHeight, CAmount blockReward, CTxOut& txoutStormnodeRet)`, with the state of
the global `snpayments` it asks for the payee; the result is `txNew` and
`txoutStormnodeRet` afterwards, `none` stands for the access to `txNew.vout[0]`
of a transaction without outputs.  `txNew.vout[0].nValue -= stormnodePayment` is
a subtraction of `int64_t` values. -/
def FillBlockPayee (penv : PayoutEnv) (snpayments : CStormnodePayments)
    (txNew : CMutableTransaction) (nBlockHeight blockReward : Int) :
    Option (CMutableTransaction × CTxOut) :=
  let txoutStormnodeRet := penv.emptyTxOut
  let found := snpayments.GetBlockPayee nBlockHeight []
  let winner : Option CScript :=
    if !found.1 then penv.GetNextStormnodeInQueueForPayment nBlockHeight
    else some found.2
  match winner with
  | none => some (txNew, txoutStormnodeRet)
  | some payee =>
      let stormnodePayment := penv.GetStormnodePayment nBlockHeight blockReward
      match txNew.vout with
      | [] => none
      | first :: rest =>
          let txoutStormnodeRet : CTxOut :=
            { nValue := stormnodePayment, scriptPubKey := payee }
          some ({ vout :=
                    ({ first with nValue := wrapInt64 (first.nValue - stormnodePayment) }
                        :: rest)
                      ++ [txoutStormnodeRet] },
                txoutStormnodeRet)

/-- The number of votes recorded for a script at a block height. -/
def votesFor (s : CStormnodePayments) (nBlockHeight : Int) (script : CScript) : Int :=
  match mapFind s.mapStormnodeBlocks nBlockHeight with
  | some b => b.votesFor script
  | none => 0

/-- The scripts of the payee entries recorded at a block height. -/
def payeeScripts (s : CStormnodePayments) (nBlockHeight : Int) : List CScript :=
  match mapFind s.mapStormnodeBlocks nBlockHeight with
  | some b => b.vecPayees.map CStormnodePayee.GetPayee
  | none => []

/-- A sequence of `CanVote` calls, each for a stormnode outpoint and a block
height: the flags returned, in order, and the state afterwards. -/
def CanVoteCalls (s : CStormnodePayments) :
    List (COutPoint × Int) → List Bool × CStormnodePayments
  | [] => ([], s)
  | (outStormnode, nBlockHeight) :: rest =>
      let r := s.CanVote outStormnode nBlockHeight
      let rs := CanVoteCalls r.2 rest
      (r.1 :: rs.1, rs.2)

end CStormnodePayments

/-- The sum of the values of a list of outputs. -/
def totalValue (vout : List CTxOut) : Int := (vout.map CTxOut.nValue).sum

namespace PaymentScenario

/-- A reward rule that pays half of the block value to the stormnode; outputs of
a transaction read off its hash (one output of value 100 to script `[1, 2, 3]`
for hash 1, one to script `[9]` otherwise); the locally computed winner has
script `[7]` at even heights and is unknown at odd ones. -/
def payout : PayoutEnv :=
  { GetStormnodePayment := fun _ blockValue => blockValue / 2,
    GetValueOut := fun _ => 200,
    vout := fun tx =>
      if tx.hash = 1 then [{ nValue := 100, scriptPubKey := [1, 2, 3] }]
      else [{ nValue := 100, scriptPubKey := [9] }],
    emptyTxOut := { nValue := -1, scriptPubKey := [] },
    GetNextStormnodeInQueueForPayment := fun h => if h % 2 = 0 then some [7] else none }

/-- The payees of block 10005: script `[1, 2, 3]` with 6 votes, script `[9]`
with 6 votes and script `[4]` with 2 votes. -/
def payees : CStormnodeBlockPayees :=
  { nBlockHeight := 10005,
    vecPayees :=
      [{ scriptPubKey := [4], vecVoteHashes := [1, 2] },
       { scriptPubKey := [1, 2, 3], vecVoteHashes := [3, 4, 5, 6, 7, 8] },
       { scriptPubKey := [9], vecVoteHashes := [9, 10, 11, 12, 13, 14] }] }

/-- The payments state that holds `payees` for block 10005. -/
def stateWithPayees : CStormnodePayments :=
  { state with mapStormnodeBlocks := [(10005, payees)] }

/-- A coinbase under construction with one output of value 500. -/
def coinbase : CMutableTransaction :=
  { vout := [{ nValue := 500, scriptPubKey := [8] }] }

/-- A transaction under construction whose one output has a value five above the
least `CAmount`, `std::numeric_limits<int64_t>::min() + 5`. -/
def coinbaseLow : CMutableTransaction :=
  { vout := [{ nValue := -9223372036854775803, scriptPubKey := [8] }] }

end PaymentScenario

namespace PaymentScenario

/-- The collaborators of `env`, except that the registry ranks no stormnode:
`GetStormnodeRank` answers -1 for every stormnode. -/
def envUnranked : PayEnv :=
  { env with GetStormnodeRank := fun _ _ _ => -1 }

/-- The vote of stormnode 1 for block 10010 with a signature that does not
verify. -/
def voteBadSig : CStormnodePaymentVote :=
  { vote 50 1 10010 with vchSig := [0] }

end PaymentScenario

/-! ### Block-tip notification (`psnotificationinterface.cpp`) -/

/-- The states of a version-bits deployment (`versionbits.h`, not part of the
sources). -/
inductive ThresholdState where
  | THRESHOLD_DEFINED
  | THRESHOLD_STARTED
  | THRESHOLD_LOCKED_IN
  | THRESHOLD_ACTIVE
  | THRESHOLD_FAILED
  deriving DecidableEq, Repr

/-- The subsystems `CPSNotificationInterface::UpdatedBlockTip` calls, each with
the block index it passes on. -/
inductive Notified where
  | masternodeSync (pindexNew : Nat) (fInitialDownload : Bool)
  | mnodeman (pindexNew : Nat)
  | CPrivateSend (pindexNew : Nat)
  | privateSendClient (pindexNew : Nat)
  | instantsend (pindexNew : Nat)
  | mnpayments (pindexNew : Nat)
  | governance (pindexNew : Nat)
  deriving DecidableEq, Repr

/-- What `CPSNotificationInterface::UpdatedBlockTip` reads from outside.  A block
index pointer is the address it holds, `none` for a null pointer. -/
structure TipEnv where
  /-- The member `pprev` of the block index at an address. -/
  pprev : Nat → Option Nat
  /-- `VersionBitsState(pindexPrev, Params().GetConsensus(),
  Consensus::DEPLOYMENT_ISAUTOLOCKS, versionbitscache)`. -/
  VersionBitsState : Option Nat → ThresholdState
  /-- The global `fLiteMode`. -/
  fLiteMode : Bool
  /-- Whether the build defines `ENABLE_WALLET`. -/
  ENABLE_WALLET : Bool

/-- Source: `void CPSNotificationInterface::UpdatedBlockTip(const CBlockIndex*
pindexNew, const CBlockIndex* pindexFork, bool fInitialDownload)`.  The argument
`isAutoLockBip9Active` is the flag `CInstantSend::isAutoLockBip9Active` before
the call; the result is the flag afterwards and the subsystems notified, in
order; `none` stands for the dereference of a null `pindexNew`. -/
def UpdatedBlockTip (env : TipEnv) (isAutoLockBip9Active : Bool)
    (pindexNew pindexFork : Option Nat) (fInitialDownload : Bool) :
    Option (Bool × List Notified) :=
  if pindexNew = pindexFork then some (isAutoLockBip9Active, [])
  else
    match pindexNew with
    | none => none
    | some p =>
        let flag := decide (env.VersionBitsState (env.pprev p) = .THRESHOLD_ACTIVE)
        if fInitialDownload then some (flag, [.masternodeSync p fInitialDownload])
        else if env.fLiteMode then some (flag, [.masternodeSync p fInitialDownload])
        else
          some (flag,
            [.masternodeSync p fInitialDownload, .mnodeman p, .CPrivateSend p] ++
              (if env.ENABLE_WALLET then [.privateSendClient p] else []) ++
              [.instantsend p, .mnpayments p, .governance p])

/-! ### Fluid sovereign quorum (`fluid/fluiddb.cpp`) -/

/-- What `CheckSignatureQuorum` uses of the address class `CDebitAddress`
(`base58.h`), of the sovereign database and of `CFluid`, none of which is part of
the sources.  `A` is the type of address objects. -/
structure FluidEnv (A : Type) where
  /-- The constructor `CDebitAddress(const std::string&)`. -/
  fromString : String → A
  /-- `CDebitAddress::ToString()`. -/
  toString : A → String
  /-- `CDebitAddress::IsValid()`. -/
  IsValid : A → Bool
  /-- The default constructed `CDebitAddress()`. -/
  default : A
  /-- `StringFromCharVector`. -/
  StringFromCharVector : List Nat → String
  /-- `CheckFluidSovereignDB()`. -/
  CheckFluidSovereignDB : Bool
  /-- `pFluidSovereignDB->GetLastFluidSovereignRecord(lastSovereign)` followed by
  `lastSovereign.SovereignAddressesStrings()`: `none` when the record cannot be
  read. -/
  GetLastFluidSovereignRecord : Option (List String)
  /-- `CFluid::GenericVerifyInstruction(consentToken, signer, errMessage,
  whereToLook)`: the address it leaves in `signer` when it returns true. -/
  GenericVerifyInstruction : String → Nat → Option A

section Fluid

variable {A : Type} [DecidableEq A]

/-- Source: `bool GetLastFluidSovereignAddressStrings(std::vector<std::string>&
sovereignAddresses)`; `none` is the result false. -/
def GetLastFluidSovereignAddressStrings (env : FluidEnv A) : Option (List String) :=
  if !env.CheckFluidSovereignDB then none
  else env.GetLastFluidSovereignRecord

/-- One check of the loop body of `CheckSignatureQuorum`:
`if (fluid.GenericVerifyInstruction(consentToken, attemptKey, errMessage, slot) &&
xKey == attemptKey) key = std::make_pair(attemptKey.ToString(), true);`. -/
def quorumSlot (env : FluidEnv A) (consentToken : String) (xKey : A) (slot : Nat)
    (key : A × Bool) : A × Bool :=
  match env.GenericVerifyInstruction consentToken slot with
  | none => key
  | some attemptKey =>
      if xKey = attemptKey then (env.fromString (env.toString attemptKey), true) else key

/-- The loop of `CheckSignatureQuorum` over the sovereign addresses, on the three
pairs `keyOne`, `keyTwo`, `keyThree`; `none` is the `return false` for an invalid
sovereign address. -/
def quorumLoop (env : FluidEnv A) (consentToken : String) :
    List String → (A × Bool) × (A × Bool) × (A × Bool) →
      Option ((A × Bool) × (A × Bool) × (A × Bool))
  | [], keys => some keys
  | sovereignAddress :: rest, (keyOne, keyTwo, keyThree) =>
      let xKey := env.fromString sovereignAddress
      if !env.IsValid xKey then none
      else
        quorumLoop env consentToken rest
          (quorumSlot env consentToken xKey 1 keyOne,
           quorumSlot env consentToken xKey 2 keyTwo,
           quorumSlot env consentToken xKey 3 keyThree)

/-- Source: `bool CheckSignatureQuorum(const std::vector<unsigned char>&
vchFluidScript, std::string& errMessage, bool individual)`; the error message is
left out. -/
def CheckSignatureQuorum (env : FluidEnv A) (vchFluidScript : List Nat) (individual : Bool) :
    Bool :=
  let consentToken := env.StringFromCharVector vchFluidScript
  match GetLastFluidSovereignAddressStrings env with
  | none => false
  | some fluidSovereigns =>
      match quorumLoop env consentToken fluidSovereigns
          ((env.default, false), (env.default, false), (env.default, false)) with
      | none => false
      | some (keyOne, keyTwo, keyThree) =>
          let fValid :=
            decide (env.toString keyOne.1 ≠ env.toString keyTwo.1) &&
            decide (env.toString keyTwo.1 ≠ env.toString keyThree.1) &&
            decide (env.toString keyOne.1 ≠ env.toString keyThree.1)
          if individual then keyOne.2 || keyTwo.2 || keyThree.2
          else if fValid then keyOne.2 && keyTwo.2 && keyThree.2
          else false

end Fluid

/-! ### Block value check (`stormnode-payments.cpp`) -/

/-- The consensus parameters `IsBlockValueValid` reads (`consensus/params.h`, not
part of the sources). -/
structure ConsensusParams where
  nSuperblockStartBlock : Int
  nBudgetPaymentsCycleBlocks : Int
  nBudgetPaymentsStartBlock : Int
  nBudgetPaymentsWindowBlocks : Int

/-- What `IsBlockValueValid` reads from outside: consensus parameters, sync and
spork state, the superblock classes and `CTransaction::GetValueOut`, none of
which is part of the sources.  `CAmount` values are mathematical integers; the
sum `blockReward + nSuperblockPaymentsLimit` is the 64-bit one (`wrapInt64`). -/
structure BlockEnv where
  consensus : ConsensusParams
  /-- `stormnodeSync.IsSynced()`. -/
  IsSynced : Bool
  /-- `sporkManager.IsSporkActive`. -/
  IsSporkActive : Spork → Bool
  /-- `CSuperblock::GetPaymentsLimit(nBlockHeight)`. -/
  GetPaymentsLimit : Int → Int
  /-- `CSuperblock::IsValidBlockHeight(nBlockHeight)`. -/
  IsValidBlockHeight : Int → Bool
  /-- `CSuperblockManager::IsSuperblockTriggered(nBlockHeight)`. -/
  IsSuperblockTriggered : Int → Bool
  /-- `CSuperblockManager::IsValid(txNew, nBlockHeight, blockReward)`. -/
  SuperblockIsValid : CTransaction → Int → Int → Bool
  /-- `CTransaction::GetValueOut()`. -/
  GetValueOut : CTransaction → Int

/-- A block: its transactions, the coinbase first. -/
structure CBlock where
  vtx : List CTransaction

/-- Source: `bool IsBlockValueValid(const CBlock& block, int nBlockHeight, CAmount
blockReward)`; `none` stands for the access to `block.vtx[0]` of a block without
transactions.  `%` is the C++ remainder, which truncates toward zero, and
`blockReward + nSuperblockPaymentsLimit` is an addition of `int64_t` values. -/
def IsBlockValueValid (env : BlockEnv) (block : CBlock) (nBlockHeight blockReward : Int) :
    Option Bool :=
  match block.vtx with
  | [] => none
  | coinbase :: _ =>
      let isNormalBlockValueMet := decide (env.GetValueOut coinbase ≤ blockReward)
      if nBlockHeight < env.consensus.nSuperblockStartBlock then
        let nOffset := Int.tmod nBlockHeight env.consensus.nBudgetPaymentsCycleBlocks
        if nBlockHeight ≥ env.consensus.nBudgetPaymentsStartBlock
            && decide (nOffset < env.consensus.nBudgetPaymentsWindowBlocks) then
          if env.IsSynced && !env.IsSporkActive .SPORK_13_OLD_SUPERBLOCK_FLAG then
            some isNormalBlockValueMet
          else some true
        else some isNormalBlockValueMet
      else
        let nSuperblockPaymentsLimit := env.GetPaymentsLimit nBlockHeight
        let isSuperblockMaxValueMet :=
          decide (env.GetValueOut coinbase
            ≤ wrapInt64 (blockReward + nSuperblockPaymentsLimit))
        if !env.IsSynced then
          if env.IsValidBlockHeight nBlockHeight then some isSuperblockMaxValueMet
          else some isNormalBlockValueMet
        else if env.IsSporkActive .SPORK_9_SUPERBLOCKS_ENABLED then
          if env.IsSuperblockTriggered nBlockHeight then
            if env.SuperblockIsValid coinbase nBlockHeight blockReward then some true
            else some false
          else some isNormalBlockValueMet
        else some isNormalBlockValueMet

namespace BlockScenario

/-- A synced node past the superblock start (height 1000) with superblocks
enabled, a superblock every 100 blocks with a payments limit of 500, triggered at
height 1200, where the superblock manager accepts the coinbase with hash 1. -/
def env : BlockEnv :=
  { consensus :=
      { nSuperblockStartBlock := 1000, nBudgetPaymentsCycleBlocks := 50,
        nBudgetPaymentsStartBlock := 100, nBudgetPaymentsWindowBlocks := 10 },
    IsSynced := true,
    IsSporkActive := fun _ => true,
    GetPaymentsLimit := fun _ => 500,
    IsValidBlockHeight := fun h => decide (Int.tmod h 100 = 0),
    IsSuperblockTriggered := fun h => decide (h = 1200),
    SuperblockIsValid := fun tx _ _ => decide (tx.hash = 1),
    GetValueOut := fun tx => tx.vin.length }

/-- A block whose coinbase has hash `h` and value-out 3. -/
def block (h : uint256) : CBlock :=
  { vtx := [{ hash := h, vin := [Scenario.U, Scenario.U, Scenario.U] }] }

/-- The node of `env` before it has synced. -/
def envUnsynced : BlockEnv :=
  { env with IsSynced := false }

/-- The largest `CAmount`, `std::numeric_limits<int64_t>::max()`. -/
def maxAmount : Int := 9223372036854775807

end BlockScenario

/-- What the loop of `CheckSignatureQuorum` leaves in the pair of signature slot
`slot` that held `key` before it, when every sovereign address is valid: the
re-read address and true when the slot verifies to the address of a listed
sovereign, `key` otherwise. -/
def quorumOutcome {A : Type} [DecidableEq A] (env : FluidEnv A) (consentToken : String)
    (sovereigns : List String) (slot : Nat) (key : A × Bool) : A × Bool :=
  match env.GenericVerifyInstruction consentToken slot with
  | none => key
  | some attemptKey =>
      if attemptKey ∈ sovereigns.map env.fromString
      then (env.fromString (env.toString attemptKey), true) else key

namespace FluidScenario

/-- Addresses are their strings, valid when not empty; five sovereigns; the
three signature slots of every token verify to `S1`, `S2` and `S4`. -/
def env : FluidEnv String :=
  { fromString := fun x => x,
    toString := fun x => x,
    IsValid := fun x => decide (x ≠ ""),
    default := "",
    StringFromCharVector := fun _ => "token",
    CheckFluidSovereignDB := true,
    GetLastFluidSovereignRecord := some ["S1", "S2", "S3", "S4", "S5"],
    GenericVerifyInstruction := fun _ slot =>
      if slot = 1 then some "S1" else if slot = 2 then some "S2"
      else if slot = 3 then some "S4" else none }

end FluidScenario

/-! ### Serialization (`ADD_SERIALIZE_METHODS` and the `SerializationOp` bodies of `instantsend.h`)

A stream is the list of its bytes.  `ADD_SERIALIZE_METHODS` turns the one
`SerializationOp` body of a class into `Serialize` (every `READWRITE` appends to
the stream) and `Unserialize` (every `READWRITE` reads off the front of the
stream); the stream type `s.GetType()` is the argument `nType`. -/

/-- The write direction of `READWRITE` for a type. -/
abbrev StreamWriter (α : Type) := α → List Nat

/-- The read direction of `READWRITE` for a type: the value and the rest of the
stream; `none` is the exception of a short or malformed stream. -/
abbrev StreamReader (α : Type) := List Nat → Option (α × List Nat)

/-- Both directions of `READWRITE` for a type. -/
structure Codec (α : Type) where
  ser : StreamWriter α
  des : StreamReader α

/-- A codec reads back, off the front of any stream, what it wrote, up to `f`. -/
def Codec.Reads {α : Type} (c : Codec α) (f : α → α) : Prop :=
  ∀ (x : α) (rest : List Nat), c.des (c.ser x ++ rest) = some (f x, rest)

/-- The serialization library the header is written against (`serialize.h`,
`uint256.h`, `primitives/transaction.h`; not part of the sources): the stream
type flag `SER_GETHASH`, the codecs of the member types, and the generic
`std::map` and `std::set` serializers, which are given the serializers of the
keys and values. -/
structure SerLib where
  SER_GETHASH : Nat
  hash256 : Codec uint256
  outpoint : Codec COutPoint
  bytes : Codec (List Nat)
  bool : Codec Bool
  int32 : Codec Int
  int64 : Codec Int
  stdString : Codec String
  tx : Codec CTransaction
  serMap : {K V : Type} → StreamWriter K → StreamWriter V → StreamWriter (List (K × V))
  desMap : {K V : Type} → StreamReader K → StreamReader V → StreamReader (List (K × V))
  serSet : {K : Type} → StreamWriter K → StreamWriter (List K)
  desSet : {K : Type} → StreamReader K → StreamReader (List K)

/-- The `std::map` codec built from the codecs of keys and values. -/
def SerLib.mapCodec (L : SerLib) {K V : Type} (ck : Codec K) (cv : Codec V) :
    Codec (List (K × V)) :=
  { ser := L.serMap ck.ser cv.ser, des := L.desMap ck.des cv.des }

/-- The `std::set` codec built from the codec of the elements. -/
def SerLib.setCodec (L : SerLib) {K : Type} (ck : Codec K) : Codec (List K) :=
  { ser := L.serSet ck.ser, des := L.desSet ck.des }

/-- The round-trip laws of the serialization library: every member codec reads
back what it wrote, and so do the containers, element by element. -/
structure SerLib.Lawful (L : SerLib) : Prop where
  hash256 : L.hash256.Reads id
  outpoint : L.outpoint.Reads id
  bytes : L.bytes.Reads id
  bool : L.bool.Reads id
  int32 : L.int32.Reads id
  int64 : L.int64.Reads id
  stdString : L.stdString.Reads id
  tx : L.tx.Reads id
  map : ∀ {K V : Type} (ck : Codec K) (cv : Codec V) (f : V → V),
    ck.Reads id → cv.Reads f →
      (L.mapCodec ck cv).Reads (List.map (fun p => (p.1, f p.2)))
  set : ∀ {K : Type} (ck : Codec K), ck.Reads id → (L.setCodec ck).Reads id

/-- Header: `CTxLockVote::SerializationOp`, write direction: `READWRITE(txHash);
READWRITE(outpoint); READWRITE(outpointMasternode);
if (!(s.GetType() & SER_GETHASH)) { READWRITE(vchMasternodeSignature); }`.
`nConfirmedHeight` and `nTimeCreated` ("local memory only") are not written. -/
def CTxLockVote.Serialize (L : SerLib) (nType : Nat) (v : CTxLockVote) : List Nat :=
  L.hash256.ser v.txHash ++ (L.outpoint.ser v.outpoint ++
    (L.outpoint.ser v.outpointMasternode ++
      (if nType &&& L.SER_GETHASH = 0 then L.bytes.ser v.vchMasternodeSignature else [])))

/-- Header: `CTxLockVote::SerializationOp`, read direction, into a vote built by
`CTxLockVote()`: empty signature, `nConfirmedHeight(-1)`,
`nTimeCreated(GetTime())`; the three identity fields are read, and the signature
unless the stream type has `SER_GETHASH`. -/
def CTxLockVote.Unserialize (L : SerLib) (nType : Nat) (now : Int) : StreamReader CTxLockVote :=
  fun s =>
    match L.hash256.des s with
    | none => none
    | some (txHash, s) =>
      match L.outpoint.des s with
      | none => none
      | some (outpoint, s) =>
        match L.outpoint.des s with
        | none => none
        | some (outpointMasternode, s) =>
          match (if nType &&& L.SER_GETHASH = 0 then L.bytes.des s else some ([], s)) with
          | none => none
          | some (vchMasternodeSignature, s) =>
            some ({ txHash := txHash, outpoint := outpoint,
                    outpointMasternode := outpointMasternode,
                    vchMasternodeSignature := vchMasternodeSignature,
                    nConfirmedHeight := -1, nTimeCreated := now }, s)

/-- Both directions of `CTxLockVote::SerializationOp`. -/
def CTxLockVote.codec (L : SerLib) (nType : Nat) (now : Int) : Codec CTxLockVote :=
  { ser := CTxLockVote.Serialize L nType, des := CTxLockVote.Unserialize L nType now }

/-- Header: `CTxLockRequest::SerializationOp`: `READWRITE(tx);` -/
def CTxLockRequest.codec (L : SerLib) : Codec CTxLockRequest :=
  { ser := fun r => L.tx.ser r.tx,
    des := fun s =>
      match L.tx.des s with
      | none => none
      | some (tx, s) => some ({ tx := tx }, s) }

/-- Header: `COutPointLock::SerializationOp`, write direction: `READWRITE(outpoint);
READWRITE(mapMasternodeVotes); READWRITE(fAttacked);` -/
def COutPointLock.Serialize (L : SerLib) (nType : Nat) (l : COutPointLock) : List Nat :=
  L.outpoint.ser l.outpoint ++
    (L.serMap L.outpoint.ser (CTxLockVote.Serialize L nType) l.mapMasternodeVotes ++
      L.bool.ser l.fAttacked)

/-- Header: `COutPointLock::SerializationOp`, read direction. -/
def COutPointLock.Unserialize (L : SerLib) (nType : Nat) (now : Int) : StreamReader COutPointLock :=
  fun s =>
    match L.outpoint.des s with
    | none => none
    | some (outpoint, s) =>
      match L.desMap L.outpoint.des (CTxLockVote.Unserialize L nType now) s with
      | none => none
      | some (mapMasternodeVotes, s) =>
        match L.bool.des s with
        | none => none
        | some (fAttacked, s) =>
          some ({ outpoint := outpoint, mapMasternodeVotes := mapMasternodeVotes,
                  fAttacked := fAttacked }, s)

/-- Both directions of `COutPointLock::SerializationOp`. -/
def COutPointLock.codec (L : SerLib) (nType : Nat) (now : Int) : Codec COutPointLock :=
  { ser := COutPointLock.Serialize L nType, des := COutPointLock.Unserialize L nType now }

/-- Header: `CTxLockCandidate::SerializationOp`, write direction:
`READWRITE(txLockRequest); READWRITE(mapOutPointLocks); READWRITE(nTimeCreated);
READWRITE(nConfirmedHeight);` -/
def CTxLockCandidate.Serialize (L : SerLib) (nType : Nat) (c : CTxLockCandidate) : List Nat :=
  (CTxLockRequest.codec L).ser c.txLockRequest ++
    (L.serMap L.outpoint.ser (COutPointLock.Serialize L nType) c.mapOutPointLocks ++
      (L.int64.ser c.nTimeCreated ++ L.int32.ser c.nConfirmedHeight))

/-- Header: `CTxLockCandidate::SerializationOp`, read direction: all four members
are read, so nothing of the default constructed candidate remains. -/
def CTxLockCandidate.Unserialize (L : SerLib) (nType : Nat) (now : Int) :
    StreamReader CTxLockCandidate :=
  fun s =>
    match (CTxLockRequest.codec L).des s with
    | none => none
    | some (txLockRequest, s) =>
      match L.desMap L.outpoint.des (COutPointLock.Unserialize L nType now) s with
      | none => none
      | some (mapOutPointLocks, s) =>
        match L.int64.des s with
        | none => none
        | some (nTimeCreated, s) =>
          match L.int32.des s with
          | none => none
          | some (nConfirmedHeight, s) =>
            some ({ nConfirmedHeight := nConfirmedHeight, nTimeCreated := nTimeCreated,
                    txLockRequest := txLockRequest,
                    mapOutPointLocks := mapOutPointLocks }, s)

/-- Both directions of `CTxLockCandidate::SerializationOp`. -/
def CTxLockCandidate.codec (L : SerLib) (nType : Nat) (now : Int) : Codec CTxLockCandidate :=
  { ser := CTxLockCandidate.Serialize L nType,
    des := CTxLockCandidate.Unserialize L nType now }

/-- An outpoint lock as it is read back: every vote as `CTxLockVote()` leaves its
two local-only fields. -/
def COutPointLock.reloaded (now : Int) (l : COutPointLock) : COutPointLock :=
  { l with
    mapMasternodeVotes := l.mapMasternodeVotes.map (fun p => (p.1, CTxLockVote.received now p.2)) }

/-- A lock candidate as it is read back. -/
def CTxLockCandidate.reloaded (now : Int) (c : CTxLockCandidate) : CTxLockCandidate :=
  { c with
    mapOutPointLocks := c.mapOutPointLocks.map (fun p => (p.1, COutPointLock.reloaded now p.2)) }

namespace CInstantSend

/-- Modelled from the spec: the body of `CInstantSend::Clear` (declared in
`instantsend.h`, defined in `instantsend.cpp`, not part of the sources).  Spec
§6: "on version mismatch the entire state is discarded and rebuilt from live
network traffic"; §9 names it the "reset lifecycle (process start, and on
serialization-version mismatch)": the state of process start. -/
def Clear (_s : CInstantSend) : CInstantSend := init

/-- Header: the nine `READWRITE` lines of the members in
`CInstantSend::SerializationOp`, write direction. -/
def writeMembers (L : SerLib) (nType : Nat) (s : CInstantSend) : List Nat :=
  L.serMap L.hash256.ser (CTxLockRequest.codec L).ser s.mapLockRequestAccepted ++
  (L.serMap L.hash256.ser (CTxLockRequest.codec L).ser s.mapLockRequestRejected ++
  (L.serMap L.hash256.ser (CTxLockVote.Serialize L nType) s.mapTxLockVotes ++
  (L.serMap L.hash256.ser (CTxLockVote.Serialize L nType) s.mapTxLockVotesOrphan ++
  (L.serMap L.hash256.ser (CTxLockCandidate.Serialize L nType) s.mapTxLockCandidates ++
  (L.serMap L.outpoint.ser (L.serSet L.hash256.ser) s.mapVotedOutpoints ++
  (L.serMap L.outpoint.ser L.hash256.ser s.mapLockedOutpoints ++
  (L.serMap L.outpoint.ser L.int64.ser s.mapMasternodeOrphanVotes ++
   L.int32.ser s.nCachedBlockHeight)))))))

/-- Header: `CInstantSend::SerializationOp`, write direction:
`strVersion = SERIALIZATION_VERSION_STRING; READWRITE(strVersion);` and then the
members.  The value of `SERIALIZATION_VERSION_STRING` is defined in
`instantsend.cpp`; it is the argument `version`. -/
def Serialize (L : SerLib) (version : String) (nType : Nat) (s : CInstantSend) : List Nat :=
  L.stdString.ser version ++ writeMembers L nType s

/-- Header: `CInstantSend::SerializationOp`, read direction up to the last
`READWRITE`: the version string found in the stream and the nine members read
after it. -/
def readMembers (L : SerLib) (nType : Nat) (now : Int) :
    StreamReader (String × CInstantSend) :=
  fun s =>
    match L.stdString.des s with
    | none => none
    | some (strVersion, s) =>
    match L.desMap L.hash256.des (CTxLockRequest.codec L).des s with
    | none => none
    | some (mapLockRequestAccepted, s) =>
    match L.desMap L.hash256.des (CTxLockRequest.codec L).des s with
    | none => none
    | some (mapLockRequestRejected, s) =>
    match L.desMap L.hash256.des (CTxLockVote.Unserialize L nType now) s with
    | none => none
    | some (mapTxLockVotes, s) =>
    match L.desMap L.hash256.des (CTxLockVote.Unserialize L nType now) s with
    | none => none
    | some (mapTxLockVotesOrphan, s) =>
    match L.desMap L.hash256.des (CTxLockCandidate.Unserialize L nType now) s with
    | none => none
    | some (mapTxLockCandidates, s) =>
    match L.desMap L.outpoint.des (L.desSet L.hash256.des) s with
    | none => none
    | some (mapVotedOutpoints, s) =>
    match L.desMap L.outpoint.des L.hash256.des s with
    | none => none
    | some (mapLockedOutpoints, s) =>
    match L.desMap L.outpoint.des L.int64.des s with
    | none => none
    | some (mapMasternodeOrphanVotes, s) =>
    match L.int32.des s with
    | none => none
    | some (nCachedBlockHeight, s) =>
      some ((strVersion,
             { nCachedBlockHeight := nCachedBlockHeight,
               mapLockRequestAccepted := mapLockRequestAccepted,
               mapLockRequestRejected := mapLockRequestRejected,
               mapTxLockVotes := mapTxLockVotes,
               mapTxLockVotesOrphan := mapTxLockVotesOrphan,
               mapTxLockCandidates := mapTxLockCandidates,
               mapVotedOutpoints := mapVotedOutpoints,
               mapLockedOutpoints := mapLockedOutpoints,
               mapMasternodeOrphanVotes := mapMasternodeOrphanVotes }), s)

/-- Header: `CInstantSend::SerializationOp`, read direction: the members are read,
then `if (ser_action.ForRead() && (strVersion != SERIALIZATION_VERSION_STRING))
{ Clear(); }`. -/
def Unserialize (L : SerLib) (version : String) (nType : Nat) (now : Int) :
    StreamReader CInstantSend :=
  fun s =>
    match readMembers L nType now s with
    | none => none
    | some ((strVersion, st), s) =>
      some (if strVersion ≠ version then Clear st else st, s)

/-- The state as it is read back from its own serialization: every lock vote,
in the two vote tables and inside the candidates, as `CTxLockVote()` leaves its
two local-only fields. -/
def reloaded (now : Int) (s : CInstantSend) : CInstantSend :=
  { s with
    mapTxLockVotes := s.mapTxLockVotes.map (fun p => (p.1, CTxLockVote.received now p.2)),
    mapTxLockVotesOrphan :=
      s.mapTxLockVotesOrphan.map (fun p => (p.1, CTxLockVote.received now p.2)),
    mapTxLockCandidates :=
      s.mapTxLockCandidates.map (fun p => (p.1, CTxLockCandidate.reloaded now p.2)) }

end CInstantSend

namespace SerScenario

/-- One stream element per number. -/
def token : Codec Nat :=
  { ser := fun n => [n],
    des := fun s =>
      match s with
      | [] => none
      | x :: s => some (x, s) }

/-- The elements of a container one after the other. -/
def serList {α : Type} (w : StreamWriter α) : StreamWriter (List α)
  | [] => []
  | x :: xs => w x ++ serList w xs

/-- Reading a given number of elements. -/
def desList {α : Type} (r : StreamReader α) : Nat → StreamReader (List α)
  | 0, s => some ([], s)
  | n + 1, s =>
    match r s with
    | none => none
    | some (x, s) =>
      match desList r n s with
      | none => none
      | some (xs, s) => some (x :: xs, s)

/-- A container is written as its size and its elements. -/
def serVector {α : Type} (w : StreamWriter α) : StreamWriter (List α) :=
  fun xs => xs.length :: serList w xs

/-- A container is read as its size and that many elements. -/
def desVector {α : Type} (r : StreamReader α) : StreamReader (List α) :=
  fun s =>
    match s with
    | [] => none
    | n :: s => desList r n s

/-- A pair is written as its two components. -/
def serPair {K V : Type} (wk : StreamWriter K) (wv : StreamWriter V) : StreamWriter (K × V) :=
  fun p => wk p.1 ++ wv p.2

/-- A pair is read as its two components. -/
def desPair {K V : Type} (rk : StreamReader K) (rv : StreamReader V) : StreamReader (K × V) :=
  fun s =>
    match rk s with
    | none => none
    | some (k, s) =>
      match rv s with
      | none => none
      | some (v, s) => some ((k, v), s)

/-- An outpoint is written as its hash and its index. -/
def outpoint : Codec COutPoint :=
  { ser := fun o => [o.hash, o.n],
    des := fun s =>
      match s with
      | h :: n :: s => some ({ hash := h, n := n }, s)
      | _ => none }

/-- An integer is written as its sign and its magnitude. -/
def int : Codec Int :=
  { ser := fun i => [if i < 0 then 1 else 0, i.natAbs],
    des := fun s =>
      match s with
      | sg :: m :: s => some (if sg = 1 then -(m : Int) else (m : Int), s)
      | _ => none }

/-- A small serialization library over streams of numbers; `SER_GETHASH` is
`1 << 2` as in `serialize.h`. -/
def lib : SerLib :=
  { SER_GETHASH := 4,
    hash256 := token,
    outpoint := outpoint,
    bytes := { ser := serVector token.ser, des := desVector token.des },
    bool :=
      { ser := fun b => [if b then 1 else 0],
        des := fun s =>
          match s with
          | [] => none
          | x :: s => some (decide (x ≠ 0), s) },
    int32 := int,
    int64 := int,
    stdString :=
      { ser := fun str => serVector token.ser (str.toList.map Char.toNat),
        des := fun s =>
          match desVector token.des s with
          | none => none
          | some (xs, s) => some (String.mk (xs.map Char.ofNat), s) },
    tx :=
      { ser := fun t => t.hash :: serVector outpoint.ser t.vin,
        des := fun s =>
          match s with
          | [] => none
          | h :: s =>
            match desVector outpoint.des s with
            | none => none
            | some (vin, s) => some ({ hash := h, vin := vin }, s) },
    serMap := fun wk wv => serVector (serPair wk wv),
    desMap := fun rk rv => desVector (desPair rk rv),
    serSet := fun wk => serVector wk,
    desSet := fun rk => desVector rk }

/-- The stream type of the state file (`SER_DISK`, `1 << 1`). -/
def SER_DISK : Nat := 2

/-- The stream type of hashing (`SER_GETHASH`, `1 << 2`). -/
def SER_GETHASH : Nat := 4

/-- A version string for the state file. -/
def version : String := "CInstantSend-Version-1"

/-- The outpoint the votes are about. -/
def utxo : COutPoint := { hash := 1, n := 0 }

/-- A voting masternode. -/
def masternode : COutPoint := { hash := 50, n := 1 }

/-- A signed vote for transaction 7, received at time 100, whose transaction
was confirmed at height 118. -/
def vote : CTxLockVote :=
  { txHash := 7, outpoint := utxo, outpointMasternode := masternode,
    vchMasternodeSignature := [9, 9], nConfirmedHeight := 118, nTimeCreated := 100 }

/-- The same vote with another signature and other local fields. -/
def voteResigned : CTxLockVote :=
  { txHash := 7, outpoint := utxo, outpointMasternode := masternode,
    vchMasternodeSignature := [4, 5, 6], nConfirmedHeight := -1, nTimeCreated := 230 }

/-- The lock request of transaction 7, which spends `utxo`. -/
def request : CTxLockRequest := { tx := { hash := 7, vin := [utxo] } }

/-- A state with an accepted request, a rejected one, the vote, and a candidate
whose only outpoint lock holds the vote and is marked attacked. -/
def state : CInstantSend :=
  { nCachedBlockHeight := 120,
    mapLockRequestAccepted := [(7, request)],
    mapLockRequestRejected := [(8, { tx := { hash := 8, vin := [utxo] } })],
    mapTxLockVotes := [(70, vote)],
    mapTxLockVotesOrphan := [],
    mapTxLockCandidates :=
      [(7, { nConfirmedHeight := 118, nTimeCreated := 100, txLockRequest := request,
             mapOutPointLocks :=
               [(utxo, { outpoint := utxo, mapMasternodeVotes := [(masternode, vote)],
                         fAttacked := true })] })],
    mapVotedOutpoints := [(utxo, [7, 8])],
    mapLockedOutpoints := [],
    mapMasternodeOrphanVotes := [(masternode, 90)] }

end SerScenario

/-! ### Amount units (`qt/cashunits.cpp`)

A `QString` is the list of its characters.  The member functions of `QString`
that `cashunits.cpp` calls belong to the Qt library, not to the sources; they
are written out below for the arguments that occur.  `qint64`, `CAmount` and
`int` values are mathematical integers; the only place where a `qint64` leaves
its range is `-n` for the least `qint64`.  The header `cashunits.h` is not part
of the sources: its enumerations are the types `Unit` and `SeparatorStyle`, its
macro `THIN_SP_CP` and its inline helper `removeSpaces` are the fields of
`CashEnv`. -/

/-- A Qt string: its characters. -/
abbrev QString := List Char

namespace QString

/-- Qt: `QString::number(qlonglong n)`, decimal digits with a minus sign for a
negative number. -/
def number (n : Int) : QString :=
  if n < 0 then '-' :: Nat.toDigits 10 n.natAbs else Nat.toDigits 10 n.toNat

/-- Qt: `QString::rightJustified(width, fill)`: the string padded with `fill` on
the left up to `width` characters, unchanged when it is at least that long. -/
def rightJustified (s : QString) (width : Int) (fill : Char) : QString :=
  List.replicate (width.toNat - s.length) fill ++ s

/-- Qt: `QString::leftJustified(width, fill)`: the string padded with `fill` on
the right up to `width` characters, unchanged when it is at least that long. -/
def leftJustified (s : QString) (width : Int) (fill : Char) : QString :=
  s ++ List.replicate (width.toNat - s.length) fill

/-- Qt: `QString::insert(position, ch)` for a position from 0 to the size of the
string. -/
def insert (s : QString) (position : Int) (ch : Char) : QString :=
  s.take position.toNat ++ ch :: s.drop position.toNat

/-- Qt: `QString::split(sep)` for a separator of one character, empty parts
kept: the parts between the occurrences of the separator. -/
def split (sep : Char) : QString → List QString
  | [] => [[]]
  | c :: cs =>
      if c = sep then [] :: split sep cs
      else
        match split sep cs with
        | [] => [[c]]
        | part :: parts => (c :: part) :: parts

/-- A string of decimal digits. -/
def IsDigits (s : QString) : Prop := ∀ c ∈ s, c.isDigit = true

/-- The number a string of decimal digits denotes. -/
def digitsValue (s : QString) : Nat :=
  s.foldl (fun acc c => acc * 10 + (c.toNat - 48)) 0

/-- Qt: `QString::toLongLong(&ok)` in base 10: white space at both ends is
skipped, an optional sign is followed by at least one decimal digit and nothing
else, and the number lies in the range of `qlonglong`; the result is the number
and `ok`, and 0 and false when the conversion fails. -/
def toLongLong (s : QString) : Int × Bool :=
  let t := ((s.dropWhile Char.isWhitespace).reverse.dropWhile Char.isWhitespace).reverse
  let signed : Bool × QString :=
    match t with
    | [] => (false, [])
    | c :: body =>
        if c = '-' then (true, body) else if c = '+' then (false, body) else (false, c :: body)
  if signed.2.isEmpty || !signed.2.all Char.isDigit then (0, false)
  else
    let v : Int := if signed.1 then -(digitsValue signed.2 : Int) else (digitsValue signed.2 : Int)
    if -(2 : Int) ^ 63 ≤ v ∧ v < (2 : Int) ^ 63 then (v, true) else (0, false)

end QString

/-- What `cashunits.cpp` takes from `cashunits.h`: the code point `THIN_SP_CP` of
the thin space and the helper `removeSpaces`. -/
structure CashEnv where
  THIN_SP_CP : Char
  removeSpaces : QString → QString

/-- The header as the comment in `parse` describes it ("Ignore spaces and thin
spaces when parsing"): `removeSpaces` removes the spaces and the thin spaces,
and the thin space is no digit, sign or decimal point. -/
structure CashEnv.Lawful (env : CashEnv) : Prop where
  removeSpaces : ∀ s : QString,
    env.removeSpaces s = s.filter (fun c => c != ' ' && c != env.THIN_SP_CP)
  thin_not_digit : env.THIN_SP_CP.isDigit = false
  thin_not_point : env.THIN_SP_CP ≠ '.'
  thin_not_minus : env.THIN_SP_CP ≠ '-'

namespace CashUnits

/-- The enumeration `CashUnits::Unit`.  An `int unit` argument is `some` of an
enumerator, or `none` for a value that is no enumerator (the `default:` label of
every `switch`). -/
inductive Unit where
  | ODYNC
  | mODYNC
  | uODYNC
  | satoshis
  deriving DecidableEq, Repr

/-- The enumeration `CashUnits::SeparatorStyle`. -/
inductive SeparatorStyle where
  | separatorNever
  | separatorStandard
  | separatorAlways
  deriving DecidableEq, Repr

/-- Source: `bool CashUnits::valid(int unit)`. -/
def valid : Option Unit → Bool
  | some .ODYNC => true
  | some .mODYNC => true
  | some .uODYNC => true
  | some .satoshis => true
  | none => false

/-- Source: `qint64 CashUnits::factor(int unit)`. -/
def factor : Option Unit → Int
  | some .ODYNC => 100000000
  | some .mODYNC => 100000
  | some .uODYNC => 100
  | some .satoshis => 1
  | none => 100000000

/-- Source: `int CashUnits::decimals(int unit)`. -/
def decimals : Option Unit → Int
  | some .ODYNC => 8
  | some .mODYNC => 5
  | some .uODYNC => 2
  | some .satoshis => 0
  | none => 0

/-- Source: the loop `for (int i = 3; i < q_size; i += 3)
quotient_str.insert(q_size - i, thin_sp);` of `CashUnits::format`, from the value
`i` on; the first argument bounds the number of rounds. -/
def insertSeparators (thin_sp : Char) (q_size : Int) : Nat → Int → QString → QString
  | 0, _, quotient_str => quotient_str
  | rounds + 1, i, quotient_str =>
      if i < q_size then
        insertSeparators thin_sp q_size rounds (i + 3)
          (QString.insert quotient_str (q_size - i) thin_sp)
      else quotient_str

/-- Source: `QString CashUnits::format(int unit, const CAmount& nIn, bool fPlus,
SeparatorStyle separators)`.  The loop over the separator positions runs fewer
than `q_size` rounds. -/
def format (env : CashEnv) (unit : Option Unit) (nIn : Int) (fPlus : Bool)
    (separators : SeparatorStyle) : QString :=
  if !valid unit then []
  else
    let n := nIn
    let coin := factor unit
    let num_decimals := decimals unit
    let n_abs := if n > 0 then n else -n
    let quotient := Int.tdiv n_abs coin
    let remainder := Int.tmod n_abs coin
    let quotient_str := QString.number quotient
    let remainder_str := QString.rightJustified (QString.number remainder) num_decimals '0'
    let thin_sp := env.THIN_SP_CP
    let q_size : Int := quotient_str.length
    let quotient_str :=
      if separators = .separatorAlways ∨ (separators = .separatorStandard ∧ q_size > 4) then
        insertSeparators thin_sp q_size q_size.toNat 3 quotient_str
      else quotient_str
    let quotient_str :=
      if n < 0 then QString.insert quotient_str 0 '-'
      else if fPlus && decide (n > 0) then QString.insert quotient_str 0 '+'
      else quotient_str
    if num_decimals ≤ 0 then quotient_str
    else quotient_str ++ ['.'] ++ remainder_str

/-- Source: `bool CashUnits::parse(int unit, const QString& value, CAmount*
val_out)` with a `val_out` that is not null; the result is the returned flag and
what was written to `*val_out`, `none` when nothing was written. -/
def parse (env : CashEnv) (unit : Option Unit) (value : QString) : Bool × Option Int :=
  if !valid unit || value.isEmpty then (false, none)
  else
    let num_decimals := decimals unit
    let parts := QString.split '.' (env.removeSpaces value)
    if parts.length > 2 then (false, none)
    else
      let whole := parts.headD []
      let decimals : QString := if parts.length > 1 then parts.getD 1 [] else []
      if (decimals.length : Int) > num_decimals then (false, none)
      else
        let str := whole ++ QString.leftJustified decimals num_decimals '0'
        if str.length > 18 then (false, none)
        else
          let converted := QString.toLongLong str
          (converted.2, some converted.1)

end CashUnits

namespace CashScenario

/-- The header with the thin space U+2009 and a `removeSpaces` that removes
spaces and thin spaces. -/
def env : CashEnv :=
  { THIN_SP_CP := Char.ofNat 0x2009,
    removeSpaces := fun s => s.filter (fun c => c != ' ' && c != Char.ofNat 0x2009) }

end CashScenario

/-! ## Part 2 — theorems -/

/-! ### 64-bit signed arithmetic -/

theorem wrapInt64_of_range (x : Int) (hlo : -2 ^ 63 ≤ x) (hhi : x < 2 ^ 63) :
    wrapInt64 x = x := by
  unfold wrapInt64
  rw [Int.emod_eq_of_lt (by omega) (by omega)]
  omega

theorem wrapInt64_range (x : Int) : -2 ^ 63 ≤ wrapInt64 x ∧ wrapInt64 x < 2 ^ 63 := by
  unfold wrapInt64
  have h₁ := Int.emod_nonneg (x + 2 ^ 63) (show (2 : Int) ^ 64 ≠ 0 by norm_num)
  have h₂ := Int.emod_lt_of_pos (x + 2 ^ 63) (show (0 : Int) < 2 ^ 64 by norm_num)
  constructor <;> omega

theorem wrapInt64_emod (x : Int) : wrapInt64 x % 2 ^ 64 = x % 2 ^ 64 := by
  unfold wrapInt64
  omega

/-! ### Association lists -/

section MapLemmas

variable {K V : Type} [DecidableEq K]

theorem mapFind_append (m₁ m₂ : List (K × V)) (k : K) :
    mapFind (m₁ ++ m₂) k = (mapFind m₁ k).orElse (fun _ => mapFind m₂ k) := by
  induction m₁ with
  | nil => simp [mapFind]
  | cons p rest ih =>
    obtain ⟨k', v⟩ := p
    by_cases h : k' = k
    · simp [mapFind, h]
    · simp [mapFind, h, ih]

theorem mapFind_append_new (m : List (K × V)) (k : K) (v : V)
    (h : mapCount m k = false) : mapFind (m ++ [(k, v)]) k = some v := by
  have hn : mapFind m k = none := by
    unfold mapCount at h
    cases hf : mapFind m k <;> simp_all
  simp [mapFind_append, hn, mapFind]

theorem mapFind_append_other (m : List (K × V)) (k k' : K) (v : V) (h : k' ≠ k) :
    mapFind (m ++ [(k, v)]) k' = mapFind m k' := by
  have hk : ¬ k = k' := fun e => h e.symm
  rw [mapFind_append]
  cases hf : mapFind m k' <;> simp [mapFind, hk]

theorem mapFind_mapModify_same (m : List (K × V)) (k : K) (f : V → V) :
    mapFind (mapModify m k f) k = (mapFind m k).map f := by
  induction m with
  | nil => simp [mapModify, mapFind]
  | cons p rest ih =>
    obtain ⟨k', v⟩ := p
    by_cases h : k' = k
    · simp [mapModify, mapFind, h]
    · simp [mapModify, mapFind, h, ih]

theorem mapFind_mapModify_other (m : List (K × V)) (k k' : K) (f : V → V) (h : k' ≠ k) :
    mapFind (mapModify m k f) k' = mapFind m k' := by
  induction m with
  | nil => simp [mapModify, mapFind]
  | cons p rest ih =>
    obtain ⟨k₀, v⟩ := p
    by_cases h₀ : k₀ = k
    · have hne : ¬ k = k' := fun e => h e.symm
      subst h₀
      simp [mapModify, mapFind, hne]
    · by_cases h₁ : k₀ = k'
      · subst h₁
        simp [mapModify, mapFind, h₀]
      · simp [mapModify, mapFind, h₀, h₁, ih]

theorem mapModify_keys (m : List (K × V)) (k : K) (f : V → V) :
    (mapModify m k f).map Prod.fst = m.map Prod.fst := by
  induction m with
  | nil => simp [mapModify]
  | cons p rest ih =>
    obtain ⟨k', v⟩ := p
    by_cases h : k' = k
    · simp [mapModify, h]
    · simp [mapModify, h, ih]

theorem mapCount_eq_false_iff (m : List (K × V)) (k : K) :
    mapCount m k = false ↔ mapFind m k = none := by
  unfold mapCount
  cases mapFind m k <;> simp

theorem mapEmplace_present (m : List (K × V)) (k : K) (v : V)
    (h : mapCount m k = true) : mapEmplace m k v = (m, false) := by
  simp [mapEmplace, h]

theorem mapEmplace_absent (m : List (K × V)) (k : K) (v : V)
    (h : mapCount m k = false) : mapEmplace m k v = (m ++ [(k, v)], true) := by
  simp [mapEmplace, h]

theorem mapCount_mapEmplace (m : List (K × V)) (k : K) (v : V) :
    mapCount (mapEmplace m k v).1 k = true := by
  cases h : mapCount m k
  · rw [mapEmplace_absent m k v h]
    simp [mapCount, mapFind_append_new m k v h]
  · rw [mapEmplace_present m k v h]
    exact h

theorem mapFind_mapEmplace_other (m : List (K × V)) (k k' : K) (v : V) (h : k' ≠ k) :
    mapFind (mapEmplace m k v).1 k' = mapFind m k' := by
  cases hc : mapCount m k
  · rw [mapEmplace_absent m k v hc]
    exact mapFind_append_other m k k' v h
  · rw [mapEmplace_present m k v hc]

theorem mapFind_mapEmplace_of_some (m : List (K × V)) (k k' : K) (v w : V)
    (h : mapFind m k' = some w) : mapFind (mapEmplace m k v).1 k' = some w := by
  cases hc : mapCount m k
  · rw [mapEmplace_absent m k v hc]
    simp [mapFind_append, h]
  · rw [mapEmplace_present m k v hc]
    exact h

theorem mapFind_map_if (m : List (K × V)) (q : K → Prop) [DecidablePred q] (f : V → V)
    (k : K) :
    mapFind (m.map (fun p => if q p.1 then (p.1, f p.2) else p)) k
      = (mapFind m k).map (fun v => if q k then f v else v) := by
  induction m with
  | nil => simp [mapFind]
  | cons p rest ih =>
    obtain ⟨k', v⟩ := p
    by_cases hq : q k'
    · have hhead : (if q k' then (k', f v) else (k', v)) = (k', f v) := if_pos hq
      simp only [List.map_cons, hhead]
      by_cases h : k' = k
      · subst h
        simp [mapFind, hq]
      · simp [mapFind, h, ih]
    · have hhead : (if q k' then (k', f v) else (k', v)) = (k', v) := if_neg hq
      simp only [List.map_cons, hhead]
      by_cases h : k' = k
      · subst h
        simp [mapFind, hq]
      · simp [mapFind, h, ih]

theorem mapFind_filter_key (m : List (K × V)) (q : K → Bool) (k : K) :
    mapFind (m.filter (fun p => q p.1)) k = if q k = true then mapFind m k else none := by
  induction m with
  | nil => simp [mapFind]
  | cons p rest ih =>
    obtain ⟨k', v⟩ := p
    by_cases h : k' = k
    · subst h
      cases hq : q k' <;> simp [List.filter, mapFind, hq, ih]
    · cases hq : q k' <;> simp [List.filter, mapFind, hq, h, ih]

theorem mapFind_mem (m : List (K × V)) (k : K) (v : V) (h : mapFind m k = some v) :
    (k, v) ∈ m := by
  induction m with
  | nil => simp [mapFind] at h
  | cons p rest ih =>
    obtain ⟨k', w⟩ := p
    by_cases hk : k' = k
    · simp [mapFind, hk] at h
      simp [hk, h]
    · simp [mapFind, hk] at h
      simp [ih h]

theorem mapFind_eq_none_iff (m : List (K × V)) (k : K) :
    mapFind m k = none ↔ k ∉ m.map Prod.fst := by
  induction m with
  | nil => simp [mapFind]
  | cons p rest ih =>
    obtain ⟨k', w⟩ := p
    by_cases hk : k' = k
    · simp [mapFind, hk]
    · have hk' : ¬ k = k' := fun e => hk e.symm
      simp [mapFind, hk, hk', ih]

theorem mem_setInsert (s : List K) (k x : K) : x ∈ setInsert s k ↔ x ∈ s ∨ x = k := by
  unfold setInsert
  by_cases h : k ∈ s
  · simp [h]
    intro e
    exact e ▸ h
  · simp [h]

end MapLemmas

/-! ### `COutPointLock` -/

/-- C1. A lock is ready exactly when it is not marked attacked and its
masternode-vote map holds at least `SIGNATURES_REQUIRED = 10` entries; an
unattacked lock with exactly 9 votes is not ready and one with exactly 10 votes
is ready. -/
theorem C1_IsReady_iff (l : COutPointLock) :
    (l.IsReady = true ↔ l.fAttacked = false ∧ 10 ≤ l.mapMasternodeVotes.length) ∧
    (l.fAttacked = false ∧ l.mapMasternodeVotes.length = 9 → l.IsReady = false) ∧
    (l.fAttacked = false ∧ l.mapMasternodeVotes.length = 10 → l.IsReady = true) := by
  have key : l.IsReady = true ↔ l.fAttacked = false ∧ 10 ≤ l.mapMasternodeVotes.length := by
    unfold COutPointLock.IsReady COutPointLock.CountVotes COutPointLock.SIGNATURES_REQUIRED
    cases h : l.fAttacked <;> simp
  refine ⟨key, ?_, ?_⟩
  · rintro ⟨ha, hn⟩
    cases hr : l.IsReady
    · rfl
    · have := (key.mp hr).2
      omega
  · rintro ⟨ha, hn⟩
    exact key.mpr ⟨ha, by omega⟩

/-- C2. `CountVotes` is 0 for a lock marked attacked, whatever the vote map
contains, and otherwise the number of entries of the masternode-vote map. -/
theorem C2_CountVotes (l : COutPointLock) :
    l.CountVotes = if l.fAttacked = true then 0 else (l.mapMasternodeVotes.length : Int) := by
  unfold COutPointLock.CountVotes
  cases l.fAttacked <;> simp

/-- C3. Attack marking is one-way: after `MarkAsAttacked`, whatever finite
sequence of `AddVote` and `MarkAsAttacked` calls follows, the flag is still set,
`IsReady` is false and `CountVotes` is 0; no mutating call clears a set flag; and
`MarkAsAttacked` leaves the outpoint and the collected votes unchanged. -/
theorem C3_MarkAsAttacked_one_way (l : COutPointLock) (ops : List COutPointLock.Op) :
    (l.MarkAsAttacked.run ops).fAttacked = true ∧
    (l.MarkAsAttacked.run ops).IsReady = false ∧
    (l.MarkAsAttacked.run ops).CountVotes = 0 ∧
    (∀ (l' : COutPointLock) (op : COutPointLock.Op),
        l'.fAttacked = true → (l'.step op).fAttacked = true) ∧
    l.MarkAsAttacked.outpoint = l.outpoint ∧
    l.MarkAsAttacked.mapMasternodeVotes = l.mapMasternodeVotes := by
  have hstep : ∀ (l' : COutPointLock) (op : COutPointLock.Op),
      l'.fAttacked = true → (l'.step op).fAttacked = true := by
    intro l' op h
    cases op with
    | addVote vote => simpa [COutPointLock.step, COutPointLock.AddVote] using h
    | markAsAttacked => simp [COutPointLock.step, COutPointLock.MarkAsAttacked]
  have hrun : ∀ (ops : List COutPointLock.Op) (l' : COutPointLock),
      l'.fAttacked = true → (l'.run ops).fAttacked = true := by
    intro ops
    induction ops with
    | nil => intro l' h; simpa [COutPointLock.run] using h
    | cons op rest ih =>
      intro l' h
      have := ih (l'.step op) (hstep l' op h)
      simpa [COutPointLock.run] using this
  have hfin : (l.MarkAsAttacked.run ops).fAttacked = true :=
    hrun ops l.MarkAsAttacked (by simp [COutPointLock.MarkAsAttacked])
  refine ⟨hfin, ?_, ?_, hstep, rfl, rfl⟩
  · simp [COutPointLock.IsReady, hfin]
  · simp [COutPointLock.CountVotes, hfin]

/-- C4. `COutPointLock::AddVote` is first-vote-wins per masternode: when the
masternode of the vote has already voted, the call returns false and the lock is
unchanged (same stored vote for that masternode, same `CountVotes`); otherwise it
returns true, the map gains exactly one entry, stored under the masternode
outpoint of the vote, every other key keeps its entry, and `HasMasternodeVoted`
holds for that masternode afterwards. -/
theorem C4_AddVote_first_vote_wins (l : COutPointLock) (v : CTxLockVote) :
    (l.HasMasternodeVoted v.GetMasternodeOutpoint = true ∧
      l.AddVote v = (false, l) ∧
      mapFind (l.AddVote v).2.mapMasternodeVotes v.GetMasternodeOutpoint
        = mapFind l.mapMasternodeVotes v.GetMasternodeOutpoint ∧
      (l.AddVote v).2.CountVotes = l.CountVotes) ∨
    (l.HasMasternodeVoted v.GetMasternodeOutpoint = false ∧
      (l.AddVote v).1 = true ∧
      (l.AddVote v).2.mapMasternodeVotes.length = l.mapMasternodeVotes.length + 1 ∧
      mapFind (l.AddVote v).2.mapMasternodeVotes v.GetMasternodeOutpoint = some v ∧
      (∀ k, k ≠ v.GetMasternodeOutpoint →
        mapFind (l.AddVote v).2.mapMasternodeVotes k = mapFind l.mapMasternodeVotes k) ∧
      (l.AddVote v).2.HasMasternodeVoted v.GetMasternodeOutpoint = true ∧
      (l.AddVote v).2.outpoint = l.outpoint ∧
      (l.AddVote v).2.fAttacked = l.fAttacked) := by
  cases h : l.HasMasternodeVoted v.GetMasternodeOutpoint
  · right
    have hc : mapCount l.mapMasternodeVotes v.GetMasternodeOutpoint = false := h
    have hf := mapFind_append_new l.mapMasternodeVotes v.GetMasternodeOutpoint v hc
    refine ⟨rfl, ?_, ?_, ?_, ?_, ?_, ?_, ?_⟩
    · simp [COutPointLock.AddVote, mapEmplace, hc]
    · simp [COutPointLock.AddVote, mapEmplace, hc]
    · simpa [COutPointLock.AddVote, mapEmplace, hc] using hf
    · intro k hk
      simpa [COutPointLock.AddVote, mapEmplace, hc] using
        mapFind_append_other l.mapMasternodeVotes v.GetMasternodeOutpoint k v hk
    · have hc' : (mapFind l.mapMasternodeVotes v.GetMasternodeOutpoint).isSome = false := hc
      simp [COutPointLock.HasMasternodeVoted, COutPointLock.AddVote, mapEmplace, mapCount,
        hc', hf]
    · simp [COutPointLock.AddVote]
    · simp [COutPointLock.AddVote]
  · left
    have hc : mapCount l.mapMasternodeVotes v.GetMasternodeOutpoint = true := h
    have he : l.AddVote v = (false, l) := by
      simp [COutPointLock.AddVote, mapEmplace, hc]
    refine ⟨rfl, he, ?_, ?_⟩ <;> rw [he]

/-! ### `CTxLockCandidate` -/

/-- C5. `IsAllOutPointsReady` is the conjunction of `IsReady` over all entries
of `mapOutPointLocks`, except that it is false when `mapOutPointLocks` is empty:
a candidate with zero tracked inputs is never ready. -/
theorem C5_IsAllOutPointsReady (c : CTxLockCandidate) :
    (c.IsAllOutPointsReady = true ↔
      c.mapOutPointLocks ≠ [] ∧ ∀ p ∈ c.mapOutPointLocks, p.2.IsReady = true) ∧
    (c.mapOutPointLocks = [] → c.IsAllOutPointsReady = false) := by
  unfold CTxLockCandidate.IsAllOutPointsReady
  cases h : c.mapOutPointLocks with
  | nil => simp
  | cons p rest => simp

/-- C6. `CTxLockCandidate::AddVote` returns false and leaves the candidate
unchanged when `mapOutPointLocks` has no entry for the outpoint of the vote;
otherwise it returns what `COutPointLock::AddVote` returns on that entry, stores
the lock that call leaves, and leaves every other outpoint lock, the set of
tracked outpoints and the other fields of the candidate unchanged. -/
theorem C6_candidate_AddVote (c : CTxLockCandidate) (v : CTxLockVote) :
    (mapFind c.mapOutPointLocks v.GetOutpoint = none ∧ c.AddVote v = (false, c)) ∨
    (∃ l, mapFind c.mapOutPointLocks v.GetOutpoint = some l ∧
      (c.AddVote v).1 = (l.AddVote v).1 ∧
      mapFind (c.AddVote v).2.mapOutPointLocks v.GetOutpoint = some (l.AddVote v).2 ∧
      (∀ k, k ≠ v.GetOutpoint →
        mapFind (c.AddVote v).2.mapOutPointLocks k = mapFind c.mapOutPointLocks k) ∧
      (c.AddVote v).2.mapOutPointLocks.map Prod.fst = c.mapOutPointLocks.map Prod.fst ∧
      (c.AddVote v).2.txLockRequest = c.txLockRequest ∧
      (c.AddVote v).2.nTimeCreated = c.nTimeCreated ∧
      (c.AddVote v).2.nConfirmedHeight = c.nConfirmedHeight) := by
  cases h : mapFind c.mapOutPointLocks v.GetOutpoint with
  | none =>
    left
    exact ⟨rfl, by simp [CTxLockCandidate.AddVote, h]⟩
  | some l =>
    right
    refine ⟨l, rfl, ?_, ?_, ?_, ?_, ?_, ?_, ?_⟩
    · simp [CTxLockCandidate.AddVote, h]
    · simp [CTxLockCandidate.AddVote, h, mapFind_mapModify_same]
    · intro k hk
      simp [CTxLockCandidate.AddVote, h, mapFind_mapModify_other _ _ _ _ hk]
    · simp [CTxLockCandidate.AddVote, h, mapModify_keys]
    · simp [CTxLockCandidate.AddVote, h]
    · simp [CTxLockCandidate.AddVote, h]
    · simp [CTxLockCandidate.AddVote, h]

/-- C7. `CTxLockCandidate::AddOutPointLock` is idempotent: afterwards
`mapOutPointLocks` has an entry for the outpoint; calling it twice leaves the
same candidate as calling it once; for an outpoint that already has an entry the
candidate (that entry's votes and attacked flag, and every other entry) is
unchanged; and in every case the entries of the other outpoints are unchanged. -/
theorem C7_AddOutPointLock_idempotent (c : CTxLockCandidate) (o : COutPoint) :
    mapCount (c.AddOutPointLock o).mapOutPointLocks o = true ∧
    (c.AddOutPointLock o).AddOutPointLock o = c.AddOutPointLock o ∧
    (mapCount c.mapOutPointLocks o = true → c.AddOutPointLock o = c) ∧
    (∀ l, mapFind c.mapOutPointLocks o = some l →
      mapFind (c.AddOutPointLock o).mapOutPointLocks o = some l) ∧
    (∀ k, k ≠ o →
      mapFind (c.AddOutPointLock o).mapOutPointLocks k = mapFind c.mapOutPointLocks k) := by
  have hpresent : mapCount c.mapOutPointLocks o = true → c.AddOutPointLock o = c := by
    intro h
    simp [CTxLockCandidate.AddOutPointLock, mapEmplace_present _ _ _ h]
  have hafter : mapCount (c.AddOutPointLock o).mapOutPointLocks o = true :=
    mapCount_mapEmplace c.mapOutPointLocks o (COutPointLock.new o)
  refine ⟨hafter, ?_, hpresent, ?_, ?_⟩
  · have h2 : mapCount (mapEmplace c.mapOutPointLocks o (COutPointLock.new o)).1 o = true :=
      hafter
    simp [CTxLockCandidate.AddOutPointLock, mapEmplace_present _ _ _ h2]
  · intro l hl
    exact mapFind_mapEmplace_of_some c.mapOutPointLocks o o (COutPointLock.new o) l hl
  · intro k hk
    exact mapFind_mapEmplace_other c.mapOutPointLocks o k (COutPointLock.new o) hk

/-! ### Lookups after the operations of the orchestrator -/

theorem CTxLockCandidate.mapFind_AddVote (c : CTxLockCandidate) (v : CTxLockVote)
    (o : COutPoint) :
    mapFind (c.AddVote v).2.mapOutPointLocks o
      = if o = v.GetOutpoint then (mapFind c.mapOutPointLocks o).map (fun l => (l.AddVote v).2)
        else mapFind c.mapOutPointLocks o := by
  unfold CTxLockCandidate.AddVote
  by_cases ho : o = v.GetOutpoint
  · subst ho
    cases h : mapFind c.mapOutPointLocks v.GetOutpoint with
    | none => simp [h]
    | some l => simp [mapFind_mapModify_same, h]
  · cases h : mapFind c.mapOutPointLocks v.GetOutpoint with
    | none => simp [ho]
    | some l => simp [ho, mapFind_mapModify_other _ _ _ _ ho]

theorem CTxLockCandidate.mapFind_MarkOutpointAsAttacked (c : CTxLockCandidate)
    (u o : COutPoint) :
    mapFind (c.MarkOutpointAsAttacked u).mapOutPointLocks o
      = if o = u then (mapFind c.mapOutPointLocks o).map COutPointLock.MarkAsAttacked
        else mapFind c.mapOutPointLocks o := by
  unfold CTxLockCandidate.MarkOutpointAsAttacked
  by_cases ho : o = u
  · subst ho
    simp [mapFind_mapModify_same]
  · simp [ho, mapFind_mapModify_other _ _ _ _ ho]

theorem CTxLockCandidate.mapFind_foldl_AddOutPointLock (vin : List COutPoint)
    (c : CTxLockCandidate) (o : COutPoint) (l : COutPointLock)
    (h : mapFind (vin.foldl CTxLockCandidate.AddOutPointLock c).mapOutPointLocks o = some l) :
    mapFind c.mapOutPointLocks o = some l ∨ l = COutPointLock.new o := by
  induction vin generalizing c with
  | nil => exact Or.inl h
  | cons u rest ih =>
    rcases ih (c.AddOutPointLock u) h with h' | h'
    · by_cases hou : o = u
      · subst hou
        cases hc : mapCount c.mapOutPointLocks o
        · right
          have hf := mapFind_append_new c.mapOutPointLocks o (COutPointLock.new o) hc
          simp only [CTxLockCandidate.AddOutPointLock, mapEmplace_absent _ _ _ hc] at h'
          rw [hf] at h'
          exact (Option.some.inj h').symm
        · left
          simpa [CTxLockCandidate.AddOutPointLock, mapEmplace_present _ _ _ hc] using h'
      · left
        have := mapFind_mapEmplace_other c.mapOutPointLocks u o (COutPointLock.new u) hou
        simp only [CTxLockCandidate.AddOutPointLock] at h'
        rw [this] at h'
        exact h'
    · exact Or.inr h'

namespace CInstantSend

theorem votedFor_UpdateVotedOutpoints (s : CInstantSend) (v : CTxLockVote) (o : COutPoint) :
    votedFor (s.UpdateVotedOutpoints v).mapVotedOutpoints o
      = if o = v.GetOutpoint then setInsert (votedFor s.mapVotedOutpoints o) v.GetTxHash
        else votedFor s.mapVotedOutpoints o := by
  unfold UpdateVotedOutpoints votedFor
  cases h : mapFind s.mapVotedOutpoints v.GetOutpoint with
  | none =>
    have hc : mapCount s.mapVotedOutpoints v.GetOutpoint = false := by simp [mapCount, h]
    by_cases ho : o = v.GetOutpoint
    · subst ho
      simp [mapFind_append_new _ _ _ hc, h, setInsert]
    · simp [mapFind_append_other _ _ _ _ ho, ho]
  | some txs =>
    by_cases ho : o = v.GetOutpoint
    · subst ho
      simp [mapFind_mapModify_same, h]
    · simp [mapFind_mapModify_other _ _ _ _ ho, ho]

theorem lockOf_UpdateVotedOutpoints (s : CInstantSend) (v : CTxLockVote) (tx : uint256)
    (o : COutPoint) :
    lockOf (s.UpdateVotedOutpoints v).mapTxLockCandidates tx o
      = (lockOf s.mapTxLockCandidates tx o).map (fun l =>
          if o = v.GetOutpoint ∧
              hasConflict (votedFor (s.UpdateVotedOutpoints v).mapVotedOutpoints v.GetOutpoint)
                = true ∧
              tx ∈ votedFor (s.UpdateVotedOutpoints v).mapVotedOutpoints v.GetOutpoint
          then l.MarkAsAttacked else l) := by
  have hv : votedFor (s.UpdateVotedOutpoints v).mapVotedOutpoints v.GetOutpoint
      = (mapFind (s.UpdateVotedOutpoints v).mapVotedOutpoints v.GetOutpoint).getD [] := rfl
  generalize hT : votedFor (s.UpdateVotedOutpoints v).mapVotedOutpoints v.GetOutpoint = T
  have hc : (s.UpdateVotedOutpoints v).mapTxLockCandidates
      = if hasConflict T then
          s.mapTxLockCandidates.map (fun p =>
            if p.1 ∈ T then (p.1, p.2.MarkOutpointAsAttacked v.GetOutpoint) else p)
        else s.mapTxLockCandidates := by
    rw [← hT, hv]
    rfl
  rw [hc]
  unfold lockOf
  cases hcf : hasConflict T
  · simp only [Bool.false_eq_true, if_false]
    cases h₁ : mapFind s.mapTxLockCandidates tx with
    | none => simp
    | some c => cases h₂ : mapFind c.mapOutPointLocks o <;> simp
  · simp only [if_true]
    rw [mapFind_map_if s.mapTxLockCandidates (fun k => k ∈ T)
      (fun c => c.MarkOutpointAsAttacked v.GetOutpoint) tx]
    cases h₁ : mapFind s.mapTxLockCandidates tx with
    | none => simp
    | some c =>
      by_cases hmem : tx ∈ T
      · simp only [Option.map_some', hmem, if_true]
        rw [CTxLockCandidate.mapFind_MarkOutpointAsAttacked]
        by_cases ho : o = v.GetOutpoint
        · cases h₂ : mapFind c.mapOutPointLocks o <;> simp [ho]
        · cases h₂ : mapFind c.mapOutPointLocks o <;> simp [ho]
      · simp only [Option.map_some', hmem, if_false]
        cases h₂ : mapFind c.mapOutPointLocks o <;> simp

theorem lockOf_mapModify_AddVote (cands : List (uint256 × CTxLockCandidate))
    (v : CTxLockVote) (c : CTxLockCandidate) (h : mapFind cands v.GetTxHash = some c)
    (tx : uint256) (o : COutPoint) :
    lockOf (mapModify cands v.GetTxHash (fun _ => (c.AddVote v).2)) tx o
      = if tx = v.GetTxHash ∧ o = v.GetOutpoint
        then (lockOf cands tx o).map (fun l => (l.AddVote v).2)
        else lockOf cands tx o := by
  unfold lockOf
  by_cases ht : tx = v.GetTxHash
  · subst ht
    rw [mapFind_mapModify_same, h]
    simp only [Option.map_some']
    rw [CTxLockCandidate.mapFind_AddVote]
    by_cases ho : o = v.GetOutpoint <;> simp [ho]
  · rw [mapFind_mapModify_other _ _ _ _ ht]
    simp [ht]

theorem lockOf_mapEmplace_shell (cands : List (uint256 × CTxLockCandidate)) (k : uint256)
    (now : Int) (r : CTxLockRequest) (tx : uint256) (o : COutPoint) :
    lockOf (mapEmplace cands k (CTxLockCandidate.new now r)).1 tx o = lockOf cands tx o := by
  unfold lockOf
  cases hc : mapCount cands k
  · rw [mapEmplace_absent _ _ _ hc]
    by_cases ht : tx = k
    · subst ht
      have hn : mapFind cands tx = none := (mapCount_eq_false_iff _ _).mp hc
      rw [mapFind_append_new _ _ _ hc, hn]
      simp [CTxLockCandidate.new, mapFind]
    · rw [mapFind_append_other _ _ _ _ ht]
  · rw [mapEmplace_present _ _ _ hc]

theorem lockOf_CreateTxLockCandidate (now : Int) (s : CInstantSend) (r : CTxLockRequest)
    (tx : uint256) (o : COutPoint) (l : COutPointLock)
    (h : lockOf (CreateTxLockCandidate now s r).mapTxLockCandidates tx o = some l) :
    lockOf s.mapTxLockCandidates tx o = some l ∨ l = COutPointLock.new o := by
  unfold CreateTxLockCandidate at h
  cases hf : mapFind s.mapTxLockCandidates r.GetHash with
  | none =>
    have hc : mapCount s.mapTxLockCandidates r.GetHash = false := by simp [mapCount, hf]
    simp only [hf] at h
    unfold lockOf at h ⊢
    by_cases ht : tx = r.GetHash
    · subst ht
      rw [mapFind_append_new _ _ _ hc] at h
      simp only at h
      rcases CTxLockCandidate.mapFind_foldl_AddOutPointLock _ _ _ _ h with h' | h'
      · split_ifs at h' <;> simp [CTxLockCandidate.new, mapFind] at h'
      · exact Or.inr h'
    · rw [mapFind_append_other _ _ _ _ ht] at h
      exact Or.inl h
  | some c =>
    simp only [hf] at h
    unfold lockOf at h ⊢
    by_cases ht : tx = r.GetHash
    · subst ht
      rw [mapFind_mapModify_same, hf] at h
      simp only [Option.map_some'] at h
      rw [hf]
      rcases CTxLockCandidate.mapFind_foldl_AddOutPointLock _ _ _ _ h with h' | h'
      · left
        split_ifs at h' <;> simpa using h'
      · exact Or.inr h'
    · rw [mapFind_mapModify_other _ _ _ _ ht] at h
      exact Or.inl h

theorem lockOf_filter_key (cands : List (uint256 × CTxLockCandidate)) (q : uint256 → Bool)
    (tx : uint256) (o : COutPoint) (l : COutPointLock)
    (h : lockOf (cands.filter (fun p => q p.1)) tx o = some l) :
    lockOf cands tx o = some l := by
  unfold lockOf at h ⊢
  rw [mapFind_filter_key] at h
  cases hq : q tx
  · simp [hq] at h
  · simpa [hq] using h

/-! ### The conflict invariant -/

theorem ConflictInv_of_locks_sub (cands cands' : List (uint256 × CTxLockCandidate))
    (voted : List (COutPoint × List uint256))
    (h : ∀ tx o l, lockOf cands' tx o = some l →
      lockOf cands tx o = some l ∨ l.mapMasternodeVotes = [])
    (hi : ConflictInv cands voted) : ConflictInv cands' voted := by
  refine ⟨?_, ?_⟩
  · intro tx o l hl hv
    rcases h tx o l hl with h' | h'
    · exact hi.1 tx o l h' hv
    · exact absurd h' hv
  · intro tx o l hl hc hm
    rcases h tx o l hl with h' | h'
    · exact hi.2 tx o l h' hc hm
    · exact Or.inr h'

theorem ConflictInv_UpdateVotedOutpoints (s : CInstantSend) (v : CTxLockVote)
    (hi : ConflictInv s.mapTxLockCandidates s.mapVotedOutpoints) :
    ConflictInv (s.UpdateVotedOutpoints v).mapTxLockCandidates
        (s.UpdateVotedOutpoints v).mapVotedOutpoints ∧
    (∀ tx l, lockOf (s.UpdateVotedOutpoints v).mapTxLockCandidates tx v.GetOutpoint = some l →
      hasConflict (votedFor (s.UpdateVotedOutpoints v).mapVotedOutpoints v.GetOutpoint) = true →
      tx ∈ votedFor (s.UpdateVotedOutpoints v).mapVotedOutpoints v.GetOutpoint →
      l.fAttacked = true) ∧
    v.GetTxHash ∈ votedFor (s.UpdateVotedOutpoints v).mapVotedOutpoints v.GetOutpoint := by
  have hsub : ∀ o tx, tx ∈ votedFor s.mapVotedOutpoints o →
      tx ∈ votedFor (s.UpdateVotedOutpoints v).mapVotedOutpoints o := by
    intro o tx hm
    rw [votedFor_UpdateVotedOutpoints]
    by_cases ho : o = v.GetOutpoint
    · simp only [ho, if_true, mem_setInsert]
      exact Or.inl (ho ▸ hm)
    · simpa [ho] using hm
  have hstrong : ∀ tx l,
      lockOf (s.UpdateVotedOutpoints v).mapTxLockCandidates tx v.GetOutpoint = some l →
      hasConflict (votedFor (s.UpdateVotedOutpoints v).mapVotedOutpoints v.GetOutpoint) = true →
      tx ∈ votedFor (s.UpdateVotedOutpoints v).mapVotedOutpoints v.GetOutpoint →
      l.fAttacked = true := by
    intro tx l hl hc hm
    rw [lockOf_UpdateVotedOutpoints] at hl
    cases h0 : lockOf s.mapTxLockCandidates tx v.GetOutpoint with
    | none => simp [h0] at hl
    | some l0 =>
      simp only [h0, Option.map_some', hc, hm, and_self, if_true, Option.some.injEq] at hl
      rw [← hl]
      rfl
  refine ⟨⟨?_, ?_⟩, hstrong, ?_⟩
  · intro tx o l hl hv
    rw [lockOf_UpdateVotedOutpoints] at hl
    cases h0 : lockOf s.mapTxLockCandidates tx o with
    | none => simp [h0] at hl
    | some l0 =>
      simp only [h0, Option.map_some', Option.some.injEq] at hl
      have hv0 : l0.mapMasternodeVotes ≠ [] := by
        intro e
        apply hv
        rw [← hl]
        split_ifs <;> simpa [COutPointLock.MarkAsAttacked] using e
      exact hsub o tx (hi.1 tx o l0 h0 hv0)
  · intro tx o l hl hc hm
    by_cases ho : o = v.GetOutpoint
    · subst ho
      exact Or.inl (hstrong tx l hl hc hm)
    · rw [lockOf_UpdateVotedOutpoints] at hl
      rw [votedFor_UpdateVotedOutpoints] at hc hm
      simp only [ho, if_false, false_and] at hl hc hm
      cases h0 : lockOf s.mapTxLockCandidates tx o with
      | none => simp [h0] at hl
      | some l0 =>
        simp only [h0, Option.map_some', Option.some.injEq] at hl
        rw [← hl]
        exact hi.2 tx o l0 h0 hc hm
  · rw [votedFor_UpdateVotedOutpoints]
    simp [mem_setInsert]

theorem TryToFinalizeLockCandidate_cands (s : CInstantSend) (c : CTxLockCandidate) :
    (s.TryToFinalizeLockCandidate c).mapTxLockCandidates = s.mapTxLockCandidates := by
  unfold TryToFinalizeLockCandidate LockTransactionInputs RejectLockRequest
  split_ifs <;> rfl

theorem TryToFinalizeLockCandidate_voted (s : CInstantSend) (c : CTxLockCandidate) :
    (s.TryToFinalizeLockCandidate c).mapVotedOutpoints = s.mapVotedOutpoints := by
  unfold TryToFinalizeLockCandidate LockTransactionInputs RejectLockRequest
  split_ifs <;> rfl

theorem StoreVote_cands (env : Env) (s : CInstantSend) (v : CTxLockVote)
    (c : CTxLockCandidate) :
    (StoreVote env s v c).mapTxLockCandidates
      = mapModify s.mapTxLockCandidates v.GetTxHash (fun _ => c) := by
  unfold StoreVote
  rw [TryToFinalizeLockCandidate_cands]

theorem StoreVote_voted (env : Env) (s : CInstantSend) (v : CTxLockVote)
    (c : CTxLockCandidate) :
    (StoreVote env s v c).mapVotedOutpoints = s.mapVotedOutpoints := by
  unfold StoreVote
  rw [TryToFinalizeLockCandidate_voted]

theorem ParkOrphanVote_voted (env : Env) (now : Int) (s : CInstantSend) (v : CTxLockVote) :
    (ParkOrphanVote env now s v).2.mapVotedOutpoints = s.mapVotedOutpoints := by
  unfold ParkOrphanVote CreateEmptyTxLockCandidate
  split_ifs <;> rfl

theorem lockOf_ParkOrphanVote (env : Env) (now : Int) (s : CInstantSend) (v : CTxLockVote)
    (tx : uint256) (o : COutPoint) :
    lockOf (ParkOrphanVote env now s v).2.mapTxLockCandidates tx o
      = lockOf s.mapTxLockCandidates tx o := by
  unfold ParkOrphanVote CreateEmptyTxLockCandidate
  split_ifs
  · rfl
  · exact lockOf_mapEmplace_shell _ _ _ _ _ _

theorem ConflictInv_ParkOrphanVote (env : Env) (now : Int) (s : CInstantSend)
    (v : CTxLockVote) (hi : ConflictInv s.mapTxLockCandidates s.mapVotedOutpoints) :
    ConflictInv (ParkOrphanVote env now s v).2.mapTxLockCandidates
      (ParkOrphanVote env now s v).2.mapVotedOutpoints := by
  rw [ParkOrphanVote_voted]
  refine ConflictInv_of_locks_sub _ _ _ ?_ hi
  intro tx o l hl
  rw [lockOf_ParkOrphanVote] at hl
  exact Or.inl hl

/-- The index update followed by the insertion of the vote into its candidate
keeps the conflict invariant. -/
theorem ConflictInv_update_then_add (s : CInstantSend) (v : CTxLockVote)
    (c : CTxLockCandidate)
    (hc : mapFind (s.UpdateVotedOutpoints v).mapTxLockCandidates v.GetTxHash = some c)
    (hi : ConflictInv s.mapTxLockCandidates s.mapVotedOutpoints) :
    ConflictInv
      (mapModify (s.UpdateVotedOutpoints v).mapTxLockCandidates v.GetTxHash
        (fun _ => (c.AddVote v).2))
      (s.UpdateVotedOutpoints v).mapVotedOutpoints := by
  obtain ⟨hi₁, hstrong, hmem⟩ := ConflictInv_UpdateVotedOutpoints s v hi
  refine ⟨?_, ?_⟩
  · intro tx o l hl hv
    rw [lockOf_mapModify_AddVote _ _ _ hc] at hl
    by_cases hk : tx = v.GetTxHash ∧ o = v.GetOutpoint
    · rw [hk.1, hk.2]
      exact hmem
    · simp only [hk, if_false] at hl
      exact hi₁.1 tx o l hl hv
  · intro tx o l hl hcf hm
    rw [lockOf_mapModify_AddVote _ _ _ hc] at hl
    by_cases hk : tx = v.GetTxHash ∧ o = v.GetOutpoint
    · simp only [hk, and_self, if_true] at hl
      obtain ⟨ht, ho⟩ := hk
      subst ht
      subst ho
      cases h0 : lockOf (s.UpdateVotedOutpoints v).mapTxLockCandidates v.GetTxHash
          v.GetOutpoint with
      | none => simp [h0] at hl
      | some l0 =>
        simp only [h0, Option.map_some', Option.some.injEq] at hl
        left
        rw [← hl]
        have := hstrong v.GetTxHash l0 h0 hcf hm
        simpa [COutPointLock.AddVote] using this
    · simp only [hk, if_false] at hl
      exact hi₁.2 tx o l hl hcf hm

theorem ConflictInv_ProcessNewTxLockVote (env : Env) (now : Int) (s : CInstantSend)
    (v : CTxLockVote) (hi : ConflictInv s.mapTxLockCandidates s.mapVotedOutpoints) :
    ConflictInv (ProcessNewTxLockVote env now s v).2.mapTxLockCandidates
      (ProcessNewTxLockVote env now s v).2.mapVotedOutpoints := by
  have hu := (ConflictInv_UpdateVotedOutpoints s v hi).1
  unfold ProcessNewTxLockVote
  split_ifs with h₁ h₂
  · exact hi
  · exact hi
  · simp only
    split
    · exact ConflictInv_ParkOrphanVote env now _ v hu
    · rename_i c hc
      split_ifs with h₃ h₄ h₅
      · exact ConflictInv_ParkOrphanVote env now _ v hu
      · exact hu
      · simp only [StoreVote_cands, StoreVote_voted]
        exact ConflictInv_update_then_add s v c hc hi
      · exact ConflictInv_ParkOrphanVote env now _ v hu

theorem ConflictInv_ProcessOrphanTxLockVote (env : Env) (now : Int) (s : CInstantSend)
    (v : CTxLockVote) (hi : ConflictInv s.mapTxLockCandidates s.mapVotedOutpoints) :
    ConflictInv (ProcessOrphanTxLockVote env now s v).mapTxLockCandidates
      (ProcessOrphanTxLockVote env now s v).mapVotedOutpoints := by
  have hu := (ConflictInv_UpdateVotedOutpoints s v hi).1
  unfold ProcessOrphanTxLockVote
  split
  · exact hi
  · split_ifs with h₁ h₂
    · exact hi
    · exact hi
    · simp only
      split
      · exact hu
      · rename_i c hc
        split_ifs with h₃ h₄
        · exact hu
        · simp only [StoreVote_cands, StoreVote_voted]
          exact ConflictInv_update_then_add s v c hc hi
        · exact hu

theorem ConflictInv_foldl_ProcessOrphanTxLockVote (env : Env) (now : Int)
    (vs : List CTxLockVote) (s : CInstantSend)
    (hi : ConflictInv s.mapTxLockCandidates s.mapVotedOutpoints) :
    ConflictInv (vs.foldl (ProcessOrphanTxLockVote env now) s).mapTxLockCandidates
      (vs.foldl (ProcessOrphanTxLockVote env now) s).mapVotedOutpoints := by
  induction vs generalizing s with
  | nil => exact hi
  | cons v rest ih => exact ih _ (ConflictInv_ProcessOrphanTxLockVote env now s v hi)

theorem ConflictInv_ProcessTxLockRequest (env : Env) (now : Int) (s : CInstantSend)
    (r : CTxLockRequest) (hi : ConflictInv s.mapTxLockCandidates s.mapVotedOutpoints) :
    ConflictInv (ProcessTxLockRequest env now s r).2.mapTxLockCandidates
      (ProcessTxLockRequest env now s r).2.mapVotedOutpoints := by
  unfold ProcessTxLockRequest
  split_ifs with h₁ h₂
  · exact hi
  · exact hi
  · simp only [ProcessOrphanTxLockVotes]
    apply ConflictInv_foldl_ProcessOrphanTxLockVote
    have hv : (CreateTxLockCandidate now (s.AcceptLockRequest r) r).mapVotedOutpoints
        = s.mapVotedOutpoints := by
      unfold CreateTxLockCandidate AcceptLockRequest
      split <;> rfl
    rw [hv]
    refine ConflictInv_of_locks_sub s.mapTxLockCandidates _ _ ?_ hi
    intro tx o l hl
    rcases lockOf_CreateTxLockCandidate now _ r tx o l hl with h' | h'
    · exact Or.inl h'
    · right
      rw [h']
      rfl

theorem ConflictInv_CheckAndRemove (env : Env) (now : Int) (s : CInstantSend)
    (hi : ConflictInv s.mapTxLockCandidates s.mapVotedOutpoints) :
    ConflictInv (CheckAndRemove env now s).mapTxLockCandidates
      (CheckAndRemove env now s).mapVotedOutpoints := by
  unfold CheckAndRemove
  simp only
  refine ConflictInv_of_locks_sub s.mapTxLockCandidates _ _ ?_ hi
  intro tx o l hl
  exact Or.inl (lockOf_filter_key s.mapTxLockCandidates
    (fun k => decide (k ∉ List.map Prod.fst
      (List.filter (fun p => s.IsFailedCandidate now p.1 p.2) s.mapTxLockCandidates)))
    tx o l hl)

theorem ConflictInv_step (env : Env) (s : CInstantSend) (e : Event)
    (hi : ConflictInv s.mapTxLockCandidates s.mapVotedOutpoints) :
    ConflictInv (step env s e).mapTxLockCandidates (step env s e).mapVotedOutpoints := by
  cases e with
  | lockRequest now r => exact ConflictInv_ProcessTxLockRequest env now s r hi
  | lockVote now v =>
    simp only [step, ProcessTxLockVote]
    split_ifs
    · exact hi
    · exact ConflictInv_ProcessNewTxLockVote env now s _ hi
  | checkAndRemove now => exact ConflictInv_CheckAndRemove env now s hi

theorem ConflictInv_run (env : Env) (events : List Event) (s : CInstantSend)
    (hi : ConflictInv s.mapTxLockCandidates s.mapVotedOutpoints) :
    ConflictInv (run env s events).mapTxLockCandidates
      (run env s events).mapVotedOutpoints := by
  induction events generalizing s with
  | nil => exact hi
  | cons e rest ih => exact ih _ (ConflictInv_step env s e hi)

theorem ConflictInv_of_Reachable (env : Env) (s : CInstantSend) (h : Reachable env s) :
    ConflictInv s.mapTxLockCandidates s.mapVotedOutpoints := by
  obtain ⟨events, rfl⟩ := h
  apply ConflictInv_run
  refine ⟨?_, ?_⟩ <;> intro tx o l hl <;> simp [init, lockOf, mapFind] at hl

theorem hasConflict_of_mem (txs : List uint256) (a b : uint256) (ha : a ∈ txs) (hb : b ∈ txs)
    (hne : a ≠ b) : hasConflict txs = true := by
  unfold hasConflict
  simp only [List.any_eq_true, decide_eq_true_eq]
  exact ⟨a, ha, b, hb, hne⟩

/-- In every state the orchestrator can reach, when the locks of two different
transactions for one outpoint each hold a vote, both locks are marked attacked, so
`IsReady` is false and `CountVotes` is 0 for both. -/
theorem conflict_locks_with_votes_attacked (env : Env) (s : CInstantSend) (u : COutPoint)
    (tx₁ tx₂ : uint256) (c₁ c₂ : CTxLockCandidate) (l₁ l₂ : COutPointLock)
    (hs : CInstantSend.Reachable env s) (hne : tx₁ ≠ tx₂)
    (hc₁ : mapFind s.mapTxLockCandidates tx₁ = some c₁)
    (hl₁ : mapFind c₁.mapOutPointLocks u = some l₁)
    (hv₁ : l₁.mapMasternodeVotes ≠ [])
    (hc₂ : mapFind s.mapTxLockCandidates tx₂ = some c₂)
    (hl₂ : mapFind c₂.mapOutPointLocks u = some l₂)
    (hv₂ : l₂.mapMasternodeVotes ≠ []) :
    l₁.fAttacked = true ∧ l₂.fAttacked = true ∧
    l₁.IsReady = false ∧ l₂.IsReady = false ∧
    l₁.CountVotes = 0 ∧ l₂.CountVotes = 0 := by
  have hi := CInstantSend.ConflictInv_of_Reachable env s hs
  have ho₁ : lockOf s.mapTxLockCandidates tx₁ u = some l₁ := by simp [lockOf, hc₁, hl₁]
  have ho₂ : lockOf s.mapTxLockCandidates tx₂ u = some l₂ := by simp [lockOf, hc₂, hl₂]
  have hm₁ := hi.1 tx₁ u l₁ ho₁ hv₁
  have hm₂ := hi.1 tx₂ u l₂ ho₂ hv₂
  have hcf := CInstantSend.hasConflict_of_mem _ tx₁ tx₂ hm₁ hm₂ hne
  have ha₁ : l₁.fAttacked = true := by
    rcases hi.2 tx₁ u l₁ ho₁ hcf hm₁ with h | h
    · exact h
    · exact absurd h hv₁
  have ha₂ : l₂.fAttacked = true := by
    rcases hi.2 tx₂ u l₂ ho₂ hcf hm₂ with h | h
    · exact h
    · exact absurd h hv₂
  refine ⟨ha₁, ha₂, ?_, ?_, ?_, ?_⟩ <;>
    simp [COutPointLock.IsReady, COutPointLock.CountVotes, ha₁, ha₂]

/-! #### The reverse index keeps every transaction a processed vote named -/

end CInstantSend

theorem LockedExt.refl (m : List (COutPoint × uint256)) : LockedExt m m :=
  ⟨fun _ _ h => h, fun h => h⟩

theorem LockedExt.trans {m₁ m₂ m₃ : List (COutPoint × uint256)} (h₁ : LockedExt m₁ m₂)
    (h₂ : LockedExt m₂ m₃) : LockedExt m₁ m₃ :=
  ⟨fun o tx h => h₂.1 o tx (h₁.1 o tx h), fun h => h₂.2 (h₁.2 h)⟩

theorem LockedExt.emplace (m : List (COutPoint × uint256)) (o : COutPoint) (tx : uint256) :
    LockedExt m (mapEmplace m o tx).1 := by
  refine ⟨fun k w h => mapFind_mapEmplace_of_some m o k tx w h, ?_⟩
  intro hn
  cases hc : mapCount m o
  · rw [mapEmplace_absent _ _ _ hc]
    have hnot : o ∉ m.map Prod.fst :=
      (mapFind_eq_none_iff m o).mp ((mapCount_eq_false_iff m o).mp hc)
    simp only [List.map_append, List.map_cons, List.map_nil]
    rw [List.nodup_append]
    refine ⟨hn, List.nodup_singleton _, ?_⟩
    intro a ha hb
    simp only [List.mem_singleton] at hb
    exact hnot (hb ▸ ha)
  · rw [mapEmplace_present _ _ _ hc]
    exact hn

theorem LockedExt.foldl_emplace (locks : List (COutPoint × COutPointLock)) (tx : uint256)
    (m : List (COutPoint × uint256)) :
    LockedExt m (locks.foldl (fun m p => (mapEmplace m p.1 tx).1) m) := by
  induction locks generalizing m with
  | nil => exact LockedExt.refl m
  | cons p rest ih => exact (LockedExt.emplace m p.1 tx).trans (ih _)

namespace CInstantSend

theorem LockedExt_TryToFinalizeLockCandidate (s : CInstantSend) (c : CTxLockCandidate) :
    LockedExt s.mapLockedOutpoints (s.TryToFinalizeLockCandidate c).mapLockedOutpoints := by
  unfold TryToFinalizeLockCandidate LockTransactionInputs RejectLockRequest
  split_ifs
  · exact LockedExt.foldl_emplace _ _ _
  · exact LockedExt.refl _
  · exact LockedExt.refl _

theorem LockedExt_StoreVote (env : Env) (s : CInstantSend) (v : CTxLockVote)
    (c : CTxLockCandidate) :
    LockedExt s.mapLockedOutpoints (StoreVote env s v c).mapLockedOutpoints := by
  unfold StoreVote
  exact LockedExt_TryToFinalizeLockCandidate
    { s with
      mapTxLockCandidates := mapModify s.mapTxLockCandidates v.GetTxHash (fun _ => c),
      mapTxLockVotes := (mapEmplace s.mapTxLockVotes (v.GetHash env) v).1 } c

theorem UpdateVotedOutpoints_locked (s : CInstantSend) (v : CTxLockVote) :
    (s.UpdateVotedOutpoints v).mapLockedOutpoints = s.mapLockedOutpoints := rfl

theorem ParkOrphanVote_locked (env : Env) (now : Int) (s : CInstantSend) (v : CTxLockVote) :
    (ParkOrphanVote env now s v).2.mapLockedOutpoints = s.mapLockedOutpoints := by
  unfold ParkOrphanVote CreateEmptyTxLockCandidate
  split_ifs <;> rfl

theorem LockedExt_ProcessNewTxLockVote (env : Env) (now : Int) (s : CInstantSend)
    (v : CTxLockVote) :
    LockedExt s.mapLockedOutpoints (ProcessNewTxLockVote env now s v).2.mapLockedOutpoints := by
  unfold ProcessNewTxLockVote
  split_ifs with h₁ h₂
  · exact LockedExt.refl _
  · exact LockedExt.refl _
  · simp only
    split
    · rw [ParkOrphanVote_locked]; exact LockedExt.refl _
    · split_ifs with h₃ h₄ h₅
      · rw [ParkOrphanVote_locked]; exact LockedExt.refl _
      · exact LockedExt.refl _
      · exact LockedExt_StoreVote env (s.UpdateVotedOutpoints v) v _
      · rw [ParkOrphanVote_locked]; exact LockedExt.refl _

theorem LockedExt_ProcessOrphanTxLockVote (env : Env) (now : Int) (s : CInstantSend)
    (v : CTxLockVote) :
    LockedExt s.mapLockedOutpoints (ProcessOrphanTxLockVote env now s v).mapLockedOutpoints := by
  unfold ProcessOrphanTxLockVote
  split
  · exact LockedExt.refl _
  · split_ifs with h₁ h₂
    · exact LockedExt.refl _
    · exact LockedExt.refl _
    · simp only
      split
      · exact LockedExt.refl _
      · split_ifs with h₃ h₄
        · exact LockedExt.refl _
        · exact LockedExt_StoreVote env
            { s.UpdateVotedOutpoints v with
              mapTxLockVotesOrphan :=
                mapErase (s.UpdateVotedOutpoints v).mapTxLockVotesOrphan (v.GetHash env) }
            v _
        · exact LockedExt.refl _

theorem LockedExt_foldl_ProcessOrphanTxLockVote (env : Env) (now : Int)
    (vs : List CTxLockVote) (s : CInstantSend) :
    LockedExt s.mapLockedOutpoints
      (vs.foldl (ProcessOrphanTxLockVote env now) s).mapLockedOutpoints := by
  induction vs generalizing s with
  | nil => exact LockedExt.refl _
  | cons v rest ih => exact (LockedExt_ProcessOrphanTxLockVote env now s v).trans (ih _)

theorem LockedExt_ProcessTxLockRequest (env : Env) (now : Int) (s : CInstantSend)
    (r : CTxLockRequest) :
    LockedExt s.mapLockedOutpoints (ProcessTxLockRequest env now s r).2.mapLockedOutpoints := by
  unfold ProcessTxLockRequest
  split_ifs with h₁ h₂
  · exact LockedExt.refl _
  · exact LockedExt.refl _
  · simp only [ProcessOrphanTxLockVotes]
    have hl : (CreateTxLockCandidate now (s.AcceptLockRequest r) r).mapLockedOutpoints
        = s.mapLockedOutpoints := by
      unfold CreateTxLockCandidate AcceptLockRequest
      split <;> rfl
    have := LockedExt_foldl_ProcessOrphanTxLockVote env now
      ((List.filter (fun p => decide (p.2.GetTxHash = r.GetHash))
        (CreateTxLockCandidate now (s.AcceptLockRequest r) r).mapTxLockVotesOrphan).map Prod.snd)
      (CreateTxLockCandidate now (s.AcceptLockRequest r) r)
    rw [hl] at this
    exact this

theorem LockedExt_step (env : Env) (s : CInstantSend) (e : Event) :
    LockedExt s.mapLockedOutpoints (step env s e).mapLockedOutpoints := by
  cases e with
  | lockRequest now r => exact LockedExt_ProcessTxLockRequest env now s r
  | lockVote now v =>
    simp only [step, ProcessTxLockVote]
    split_ifs
    · exact LockedExt.refl _
    · exact LockedExt_ProcessNewTxLockVote env now s _
  | checkAndRemove now => exact LockedExt.refl _

theorem LockedExt_run (env : Env) (events : List Event) (s : CInstantSend) :
    LockedExt s.mapLockedOutpoints (run env s events).mapLockedOutpoints := by
  induction events generalizing s with
  | nil => exact LockedExt.refl _
  | cons e rest ih => exact (LockedExt_step env s e).trans (ih _)

theorem not_locked_of_other_winner (s : CInstantSend) (u : COutPoint) (tx₁ tx₂ : uint256)
    (c₂ : CTxLockCandidate) (l₂ : COutPointLock) (hne : tx₂ ≠ tx₁)
    (hw : s.GetLockedOutPointTxHash u = some tx₁)
    (hc : mapFind s.mapTxLockCandidates tx₂ = some c₂)
    (hl : mapFind c₂.mapOutPointLocks u = some l₂) :
    s.IsLockedInstantSendTransaction tx₂ = false := by
  unfold IsLockedInstantSendTransaction
  simp only [hc]
  have hmem := mapFind_mem _ _ _ hl
  have hall : c₂.mapOutPointLocks.all
      (fun p => decide (s.GetLockedOutPointTxHash p.1 = some tx₂)) = false := by
    rw [List.all_eq_false]
    refine ⟨(u, l₂), hmem, ?_⟩
    simp only [hw, Option.some.injEq, decide_eq_true_eq]
    exact fun e => hne e.symm
  rw [hall, Bool.and_false]

end CInstantSend

/-- C9. First finalized wins: in every state the orchestrator can reach each
outpoint has at most one entry in `mapLockedOutpoints`; and once
`GetLockedOutPointTxHash` returns a transaction for an outpoint, after every
further sequence of lock requests, lock votes and maintenance sweeps it still
returns that transaction, and no other transaction whose candidate tracks the
outpoint is locked, however many votes its lock for the outpoint holds. -/
theorem C9_first_finalized_wins (env : Env) (s : CInstantSend)
    (hs : CInstantSend.Reachable env s) :
    (s.mapLockedOutpoints.map Prod.fst).Nodup ∧
    ∀ (u : COutPoint) (tx₁ : uint256), s.GetLockedOutPointTxHash u = some tx₁ →
      ∀ events : List CInstantSend.Event,
        (CInstantSend.run env s events).GetLockedOutPointTxHash u = some tx₁ ∧
        ∀ (tx₂ : uint256) (c₂ : CTxLockCandidate) (l₂ : COutPointLock), tx₂ ≠ tx₁ →
          mapFind (CInstantSend.run env s events).mapTxLockCandidates tx₂ = some c₂ →
          mapFind c₂.mapOutPointLocks u = some l₂ →
          (CInstantSend.run env s events).IsLockedInstantSendTransaction tx₂ = false := by
  refine ⟨?_, ?_⟩
  · obtain ⟨events, rfl⟩ := hs
    exact (CInstantSend.LockedExt_run env events CInstantSend.init).2 (by simp [CInstantSend.init])
  · intro u tx₁ hw events
    have hw' : (CInstantSend.run env s events).GetLockedOutPointTxHash u = some tx₁ :=
      (CInstantSend.LockedExt_run env events s).1 u tx₁ hw
    refine ⟨hw', ?_⟩
    intro tx₂ c₂ l₂ hne hc hl
    exact CInstantSend.not_locked_of_other_winner _ u tx₁ tx₂ c₂ l₂ hne hw' hc hl

/-- Witness for C9: transaction 1 wins `U` with ten votes; transaction 2 then
collects ten votes on `U` as well, `U` stays with transaction 1 and transaction 2
is not locked. -/
theorem C9_first_finalized_wins_witness :
    ((CInstantSend.run Scenario.env CInstantSend.init
      Scenario.lockEvents).mapLockedOutpoints.map Prod.fst).Nodup ∧
    (CInstantSend.run Scenario.env
      (CInstantSend.run Scenario.env CInstantSend.init Scenario.lockEvents)
      Scenario.lateEvents).GetLockedOutPointTxHash Scenario.U = some 1 ∧
    (CInstantSend.run Scenario.env
      (CInstantSend.run Scenario.env CInstantSend.init Scenario.lockEvents)
      Scenario.lateEvents).IsLockedInstantSendTransaction 2 = false :=
  have h := C9_first_finalized_wins Scenario.env
    (CInstantSend.run Scenario.env CInstantSend.init Scenario.lockEvents)
    ⟨Scenario.lockEvents, rfl⟩
  ⟨h.1, (h.2 Scenario.U 1 (by rfl) Scenario.lateEvents).1,
    (h.2 Scenario.U 1 (by rfl) Scenario.lateEvents).2 2
      (Scenario.candidate 102 2 Scenario.lateLock) Scenario.lateLock (by decide) (by rfl)
      (by rfl)⟩

/-! ### A single-input request collecting votes -/

theorem mapCount_map_keyed {K V : Type} [DecidableEq K] (xs : List V) (key : V → K) (k : K) :
    mapCount (xs.map (fun x => (key x, x))) k = decide (k ∈ xs.map key) := by
  cases h : mapCount (xs.map (fun x => (key x, x))) k
  · have := (mapFind_eq_none_iff _ k).mp ((mapCount_eq_false_iff _ k).mp h)
    simp only [List.map_map] at this
    have hk : k ∉ xs.map key := by simpa [Function.comp] using this
    simp [hk]
  · have hne : mapFind (xs.map (fun x => (key x, x))) k ≠ none := by
      intro e
      rw [(mapCount_eq_false_iff _ k).mpr e] at h
      exact Bool.noConfusion h
    have := (not_iff_not.mpr (mapFind_eq_none_iff (xs.map (fun x => (key x, x))) k)).mp hne
    simp only [List.map_map, not_not] at this
    have hk : k ∈ xs.map key := by simpa [Function.comp] using this
    simp [hk]

theorem mapCount_mapEmplace_elim {K V : Type} [DecidableEq K] (m : List (K × V)) (k k' : K)
    (v : V) (h : mapCount (mapEmplace m k v).1 k' = true) : k' = k ∨ mapCount m k' = true := by
  by_cases hk : k' = k
  · exact Or.inl hk
  · right
    unfold mapCount at h ⊢
    rw [mapFind_mapEmplace_other m k k' v hk] at h
    exact h

namespace CInstantSend

theorem hasConflict_of_all_eq (txs : List uint256) (a : uint256) (h : ∀ x ∈ txs, x = a) :
    hasConflict txs = false := by
  unfold hasConflict
  rw [Bool.eq_false_iff]
  intro hc
  simp only [List.any_eq_true, decide_eq_true_eq] at hc
  obtain ⟨x, hx, y, hy, hne⟩ := hc
  exact hne ((h x hx).trans (h y hy).symm)

theorem UpdateVotedOutpoints_cands_of_all_eq (s : CInstantSend) (v : CTxLockVote)
    (h : ∀ x ∈ votedFor s.mapVotedOutpoints v.GetOutpoint, x = v.GetTxHash) :
    (s.UpdateVotedOutpoints v).mapTxLockCandidates = s.mapTxLockCandidates := by
  have hall : ∀ x ∈ votedFor (s.UpdateVotedOutpoints v).mapVotedOutpoints v.GetOutpoint,
      x = v.GetTxHash := by
    intro x hx
    rw [votedFor_UpdateVotedOutpoints] at hx
    simp only [if_true, mem_setInsert] at hx
    rcases hx with hx | hx
    · exact h x hx
    · exact hx
  have hcf := hasConflict_of_all_eq _ _ hall
  have hv : votedFor (s.UpdateVotedOutpoints v).mapVotedOutpoints v.GetOutpoint
      = (mapFind (s.UpdateVotedOutpoints v).mapVotedOutpoints v.GetOutpoint).getD [] := rfl
  rw [hv] at hcf
  show (if hasConflict ((mapFind (s.UpdateVotedOutpoints v).mapVotedOutpoints
      v.GetOutpoint).getD []) = true then _ else s.mapTxLockCandidates) = s.mapTxLockCandidates
  rw [hcf]
  rfl

theorem collectingCandidate_AddVote (r : CTxLockRequest) (u : COutPoint) (t₀ : Int)
    (done : List CTxLockVote) (v : CTxLockVote) (hu : v.GetOutpoint = u)
    (hmn : v.GetMasternodeOutpoint ∉ done.map CTxLockVote.GetMasternodeOutpoint) :
    (collectingCandidate r u t₀ done).AddVote v
      = (true, collectingCandidate r u t₀ (done ++ [v])) := by
  have hc : mapCount (done.map (fun x => (x.GetMasternodeOutpoint, x))) v.GetMasternodeOutpoint
      = false := by
    rw [mapCount_map_keyed]
    simp [hmn]
  subst hu
  simp [CTxLockCandidate.AddVote, collectingCandidate, mapFind, mapModify,
    COutPointLock.AddVote, mapEmplace_absent _ _ _ hc]

theorem ProcessNewTxLockVote_counted (env : Env) (now : Int) (s : CInstantSend)
    (v : CTxLockVote) (c : CTxLockCandidate)
    (hval : env.voteIsValid now v = true) (hnot : s.HasMasternodeVoted v = false)
    (hcand : mapFind (s.UpdateVotedOutpoints v).mapTxLockCandidates v.GetTxHash = some c)
    (hreq : c.txLockRequest.toBool = true) (hto : c.IsTimedOut now = false)
    (hadd : (c.AddVote v).1 = true) :
    ProcessNewTxLockVote env now s v
      = (true, StoreVote env (s.UpdateVotedOutpoints v) v (c.AddVote v).2) := by
  unfold ProcessNewTxLockVote
  simp [hval, hnot, hcand, hreq, hto, hadd]

theorem TryToFinalizeLockCandidate_orphans (s : CInstantSend) (c : CTxLockCandidate) :
    (s.TryToFinalizeLockCandidate c).mapTxLockVotesOrphan = s.mapTxLockVotesOrphan := by
  unfold TryToFinalizeLockCandidate LockTransactionInputs RejectLockRequest
  split_ifs <;> rfl

theorem TryToFinalizeLockCandidate_votes (s : CInstantSend) (c : CTxLockCandidate) :
    (s.TryToFinalizeLockCandidate c).mapTxLockVotes = s.mapTxLockVotes := by
  unfold TryToFinalizeLockCandidate LockTransactionInputs RejectLockRequest
  split_ifs <;> rfl

theorem TryToFinalizeLockCandidate_locked_congr (s s' : CInstantSend) (c : CTxLockCandidate)
    (h : s.mapLockedOutpoints = s'.mapLockedOutpoints) :
    (s.TryToFinalizeLockCandidate c).mapLockedOutpoints
      = (s'.TryToFinalizeLockCandidate c).mapLockedOutpoints := by
  have hr : s.ResolveConflicts c = s'.ResolveConflicts c := by
    unfold ResolveConflicts GetLockedOutPointTxHash
    rw [h]
  unfold TryToFinalizeLockCandidate LockTransactionInputs RejectLockRequest
  rw [hr]
  split_ifs
  · simp only [h]
  · exact h
  · exact h

theorem StoreVote_orphans (env : Env) (s : CInstantSend) (v : CTxLockVote)
    (c : CTxLockCandidate) :
    (StoreVote env s v c).mapTxLockVotesOrphan = s.mapTxLockVotesOrphan := by
  unfold StoreVote
  rw [TryToFinalizeLockCandidate_orphans]

theorem StoreVote_votes (env : Env) (s : CInstantSend) (v : CTxLockVote)
    (c : CTxLockCandidate) :
    (StoreVote env s v c).mapTxLockVotes = (mapEmplace s.mapTxLockVotes (v.GetHash env) v).1 := by
  unfold StoreVote
  rw [TryToFinalizeLockCandidate_votes]

theorem StoreVote_locked (env : Env) (s : CInstantSend) (v : CTxLockVote)
    (c : CTxLockCandidate) :
    (StoreVote env s v c).mapLockedOutpoints
      = (s.TryToFinalizeLockCandidate c).mapLockedOutpoints := by
  unfold StoreVote
  exact TryToFinalizeLockCandidate_locked_congr _ s c rfl

theorem collectingCandidate_IsAllOutPointsReady (r : CTxLockRequest) (u : COutPoint)
    (t₀ : Int) (done : List CTxLockVote) :
    (collectingCandidate r u t₀ done).IsAllOutPointsReady = decide (10 ≤ done.length) := by
  simp [CTxLockCandidate.IsAllOutPointsReady, collectingCandidate, COutPointLock.IsReady,
    COutPointLock.CountVotes, COutPointLock.SIGNATURES_REQUIRED]

theorem TryToFinalizeLockCandidate_collecting (s : CInstantSend) (r : CTxLockRequest)
    (u : COutPoint) (t₀ : Int) (done : List CTxLockVote)
    (hprev : mapFind s.mapLockedOutpoints u = none ∨
      mapFind s.mapLockedOutpoints u = some r.GetHash) :
    mapFind (s.TryToFinalizeLockCandidate (collectingCandidate r u t₀ done)).mapLockedOutpoints u
      = if 10 ≤ done.length then some r.GetHash else mapFind s.mapLockedOutpoints u := by
  unfold TryToFinalizeLockCandidate
  rw [collectingCandidate_IsAllOutPointsReady]
  by_cases hn : 10 ≤ done.length
  · have hres : s.ResolveConflicts (collectingCandidate r u t₀ done) = true := by
      unfold ResolveConflicts GetLockedOutPointTxHash
      rcases hprev with h | h <;>
        simp [collectingCandidate, h, CTxLockCandidate.GetHash]
    simp only [hn, decide_True, if_true, hres]
    unfold LockTransactionInputs
    simp only [collectingCandidate, List.foldl_cons, List.foldl_nil, CTxLockCandidate.GetHash]
    rcases hprev with h | h
    · have hc : mapCount s.mapLockedOutpoints u = false := (mapCount_eq_false_iff _ _).mpr h
      rw [mapEmplace_absent _ _ _ hc]
      exact mapFind_append_new _ _ _ hc
    · exact mapFind_mapEmplace_of_some _ _ _ _ _ h
  · simp [hn]

/-- Counting one more vote keeps the orchestrator in the collecting state. -/
theorem Collecting_vote (env : Env) (s₀ s : CInstantSend) (r : CTxLockRequest) (u : COutPoint)
    (t₀ : Int) (done : List CTxLockVote) (now : Int) (v : CTxLockVote)
    (hc : Collecting env s₀ s r u t₀ done) (hnz : r.toBool = true)
    (htx : v.GetTxHash = r.GetHash) (hu : v.GetOutpoint = u)
    (hval : env.voteIsValid now (CTxLockVote.received now v) = true)
    (htime : now - t₀ ≤ 15)
    (hmn : v.GetMasternodeOutpoint ∉ done.map CTxLockVote.GetMasternodeOutpoint)
    (hh : v.GetHash env ∉ done.map (CTxLockVote.GetHash env))
    (hf : mapCount s₀.mapTxLockVotes (v.GetHash env) = false)
    (hfo : mapCount s₀.mapTxLockVotesOrphan (v.GetHash env) = false) :
    Collecting env s₀ (ProcessTxLockVote env now s v).2 r u t₀
      (done ++ [CTxLockVote.received now v]) := by
  obtain ⟨hcand, hvoted, hlocked, horph, hvotes⟩ := hc
  generalize hv' : CTxLockVote.received now v = v' at *
  have htx' : v'.GetTxHash = r.GetHash := by rw [← hv']; exact htx
  have hu' : v'.GetOutpoint = u := by rw [← hv']; exact hu
  have hmn' : v'.GetMasternodeOutpoint = v.GetMasternodeOutpoint := by rw [← hv']; rfl
  have hhash : v'.GetHash env = v.GetHash env := by rw [← hv']; rfl
  -- the vote is not known yet
  have hk₁ : mapCount s.mapTxLockVotes (v'.GetHash env) = false := by
    rw [hhash]
    cases hm : mapCount s.mapTxLockVotes (v.GetHash env)
    · rfl
    · rcases hvotes _ hm with h | h
      · rw [hf] at h; exact Bool.noConfusion h
      · exact absurd h hh
  have hk₂ : mapCount s.mapTxLockVotesOrphan (v'.GetHash env) = false := by
    rw [hhash, horph]; exact hfo
  have hstep : ProcessTxLockVote env now s v = ProcessNewTxLockVote env now s v' := by
    unfold ProcessTxLockVote
    simp only [hv', hk₁, hk₂, Bool.or_self, Bool.false_eq_true, if_false]
  -- its masternode has not voted
  have hnot : s.HasMasternodeVoted v' = false := by
    unfold HasMasternodeVoted
    simp only [htx', hcand]
    have : (collectingCandidate r u t₀ done).txLockRequest.toBool = true := hnz
    simp only [this, if_true]
    simp only [CTxLockCandidate.HasMasternodeVoted, collectingCandidate, hu', mapFind, if_true,
      COutPointLock.HasMasternodeVoted]
    rw [mapCount_map_keyed, hmn']
    simp [hmn]
  -- no other transaction is voted for on `u`
  have hall : ∀ x ∈ votedFor s.mapVotedOutpoints v'.GetOutpoint, x = v'.GetTxHash := by
    rw [hu', htx']; exact hvoted
  have hcands := UpdateVotedOutpoints_cands_of_all_eq s v' hall
  have hcand₁ : mapFind (s.UpdateVotedOutpoints v').mapTxLockCandidates v'.GetTxHash
      = some (collectingCandidate r u t₀ done) := by
    rw [hcands, htx']; exact hcand
  have hto : (collectingCandidate r u t₀ done).IsTimedOut now = false := by
    simp only [CTxLockCandidate.IsTimedOut, collectingCandidate, INSTANTSEND_LOCK_TIMEOUT_SECONDS,
      decide_eq_false_iff_not]
    omega
  have hadd := collectingCandidate_AddVote r u t₀ done v' hu' (by rw [hmn']; exact hmn)
  have hres := ProcessNewTxLockVote_counted env now s v' _ hval hnot hcand₁ hnz hto
    (by rw [hadd])
  rw [hstep, hres, hadd]
  refine ⟨?_, ?_, ?_, ?_, ?_⟩
  · simp only [StoreVote_cands, htx']
    rw [mapFind_mapModify_same, hcands, hcand]
    rfl
  · intro x hx
    simp only [StoreVote_voted] at hx
    have := votedFor_UpdateVotedOutpoints s v' u
    rw [this] at hx
    simp only [hu', if_true, mem_setInsert] at hx
    rcases hx with hx | hx
    · exact hvoted x hx
    · rw [hx, htx']
  · simp only [StoreVote_locked]
    have hprev : mapFind (s.UpdateVotedOutpoints v').mapLockedOutpoints u = none ∨
        mapFind (s.UpdateVotedOutpoints v').mapLockedOutpoints u = some r.GetHash := by
      rw [UpdateVotedOutpoints_locked, hlocked]
      split_ifs
      · exact Or.inr rfl
      · exact Or.inl rfl
    rw [TryToFinalizeLockCandidate_collecting _ r u t₀ _ hprev, UpdateVotedOutpoints_locked,
      hlocked]
    simp only [List.length_append, List.length_singleton]
    split_ifs <;> first | rfl | omega
  · simp only [StoreVote_orphans]
    exact horph
  · intro h hm
    simp only [StoreVote_votes] at hm
    have hm' : mapCount (mapEmplace s.mapTxLockVotes (v'.GetHash env) v').1 h = true := hm
    rcases mapCount_mapEmplace_elim _ _ _ _ hm' with he | he
    · right
      simp [he]
    · rcases hvotes h he with h' | h'
      · exact Or.inl h'
      · right
        simp only [List.map_append, List.mem_append]
        exact Or.inl h'

/-- Accepting a fresh single-input request puts the orchestrator in the
collecting state with no vote counted. -/
theorem Collecting_request (env : Env) (s₀ : CInstantSend) (r : CTxLockRequest)
    (u : COutPoint) (t₀ : Int)
    (hvin : r.tx.vin = [u]) (hnz : r.toBool = true)
    (hvalid : env.requestIsValid r = true) (hthr : env.autoLockThrottled t₀ r = false)
    (hacc : mapCount s₀.mapLockRequestAccepted r.GetHash = false)
    (hrej : mapCount s₀.mapLockRequestRejected r.GetHash = false)
    (hcand : mapFind s₀.mapTxLockCandidates r.GetHash = none)
    (horph : ∀ p ∈ s₀.mapTxLockVotesOrphan, p.2.GetTxHash ≠ r.GetHash)
    (hvoted : mapFind s₀.mapVotedOutpoints u = none)
    (hlocked : mapFind s₀.mapLockedOutpoints u = none) :
    (ProcessTxLockRequest env t₀ s₀ r).1 = true ∧
    Collecting env s₀ (ProcessTxLockRequest env t₀ s₀ r).2 r u t₀ [] := by
  have hfilter : s₀.mapTxLockVotesOrphan.filter (fun p => decide (p.2.GetTxHash = r.GetHash))
      = [] := by
    rw [List.filter_eq_nil_iff]
    intro p hp
    simpa using horph p hp
  have hcreate : CreateTxLockCandidate t₀ (s₀.AcceptLockRequest r) r
      = { s₀.AcceptLockRequest r with
          mapTxLockCandidates :=
            s₀.mapTxLockCandidates ++ [(r.GetHash, collectingCandidate r u t₀ [])] } := by
    have hc' : mapFind (s₀.AcceptLockRequest r).mapTxLockCandidates r.GetHash = none := hcand
    unfold CreateTxLockCandidate
    simp only [hc', hvin, List.foldl_cons, List.foldl_nil]
    have hnew : (CTxLockCandidate.new t₀ r).txLockRequest.toBool = true := hnz
    simp only [hnew, if_true]
    rfl
  have hres : ProcessTxLockRequest env t₀ s₀ r
      = (true, { s₀.AcceptLockRequest r with
          mapTxLockCandidates :=
            s₀.mapTxLockCandidates ++ [(r.GetHash, collectingCandidate r u t₀ [])] }) := by
    unfold ProcessTxLockRequest
    simp only [hacc, hrej, hvalid, hthr, Bool.or_self, Bool.false_eq_true, if_false,
      Bool.not_true, hcreate, ProcessOrphanTxLockVotes]
    have : (s₀.AcceptLockRequest r).mapTxLockVotesOrphan = s₀.mapTxLockVotesOrphan := rfl
    simp only [this, hfilter, List.map_nil, List.foldl_nil]
  rw [hres]
  refine ⟨rfl, ?_, ?_, ?_, rfl, ?_⟩
  · exact mapFind_append_new _ _ _ ((mapCount_eq_false_iff _ _).mpr hcand)
  · intro x hx
    have : votedFor s₀.mapVotedOutpoints u = [] := by simp [votedFor, hvoted]
    have hx' : x ∈ votedFor s₀.mapVotedOutpoints u := hx
    rw [this] at hx'
    cases hx'
  · exact hlocked
  · intro h hm
    exact Or.inl hm

/-- Counting a list of votes, one after the other. -/
theorem Collecting_votes (env : Env) (s₀ : CInstantSend) (r : CTxLockRequest) (u : COutPoint)
    (t₀ : Int) (hnz : r.toBool = true) (votes : List (Int × CTxLockVote)) :
    ∀ (s : CInstantSend) (done : List CTxLockVote),
      Collecting env s₀ s r u t₀ done →
      (∀ p ∈ votes, p.2.GetTxHash = r.GetHash ∧ p.2.GetOutpoint = u ∧
        env.voteIsValid p.1 (CTxLockVote.received p.1 p.2) = true ∧ p.1 - t₀ ≤ 15 ∧
        mapCount s₀.mapTxLockVotes (p.2.GetHash env) = false ∧
        mapCount s₀.mapTxLockVotesOrphan (p.2.GetHash env) = false) →
      (done.map CTxLockVote.GetMasternodeOutpoint
        ++ votes.map (fun p => p.2.GetMasternodeOutpoint)).Nodup →
      (done.map (CTxLockVote.GetHash env) ++ votes.map (fun p => p.2.GetHash env)).Nodup →
      Collecting env s₀ (run env s (votes.map (fun p => Event.lockVote p.1 p.2))) r u t₀
        (done ++ votes.map (fun p => CTxLockVote.received p.1 p.2)) := by
  induction votes with
  | nil =>
    intro s done hc _ _ _
    simpa [run] using hc
  | cons p rest ih =>
    intro s done hc hv hmn hhash
    obtain ⟨htx, hu, hval, htime, hf, hfo⟩ := hv p (List.mem_cons_self _ _)
    have hmn₁ : p.2.GetMasternodeOutpoint ∉ done.map CTxLockVote.GetMasternodeOutpoint := by
      intro hmem
      rw [List.nodup_append] at hmn
      exact hmn.2.2 hmem (by simp)
    have hh₁ : p.2.GetHash env ∉ done.map (CTxLockVote.GetHash env) := by
      intro hmem
      rw [List.nodup_append] at hhash
      exact hhash.2.2 hmem (by simp)
    have hc₁ := Collecting_vote env s₀ s r u t₀ done p.1 p.2 hc hnz htx hu hval htime hmn₁ hh₁
      hf hfo
    have hmn₂ : ((done ++ [CTxLockVote.received p.1 p.2]).map CTxLockVote.GetMasternodeOutpoint
        ++ rest.map (fun p => p.2.GetMasternodeOutpoint)).Nodup := by
      have : (done ++ [CTxLockVote.received p.1 p.2]).map CTxLockVote.GetMasternodeOutpoint
          = done.map CTxLockVote.GetMasternodeOutpoint ++ [p.2.GetMasternodeOutpoint] := by
        simp [CTxLockVote.received, CTxLockVote.GetMasternodeOutpoint]
      rw [this, List.append_assoc]
      simpa using hmn
    have hhash₂ : ((done ++ [CTxLockVote.received p.1 p.2]).map (CTxLockVote.GetHash env)
        ++ rest.map (fun p => p.2.GetHash env)).Nodup := by
      have : (done ++ [CTxLockVote.received p.1 p.2]).map (CTxLockVote.GetHash env)
          = done.map (CTxLockVote.GetHash env) ++ [p.2.GetHash env] := by
        simp [CTxLockVote.received, CTxLockVote.GetHash]
      rw [this, List.append_assoc]
      simpa using hhash
    have := ih _ _ hc₁ (fun q hq => hv q (List.mem_cons_of_mem _ hq)) hmn₂ hhash₂
    simpa [run, step, List.append_assoc] using this

theorem Collecting_IsLocked (env : Env) (s₀ s : CInstantSend) (r : CTxLockRequest)
    (u : COutPoint) (t₀ : Int) (done : List CTxLockVote)
    (hc : Collecting env s₀ s r u t₀ done) :
    s.IsLockedInstantSendTransaction r.GetHash = decide (10 ≤ done.length) := by
  obtain ⟨hcand, _, hlocked, _, _⟩ := hc
  unfold IsLockedInstantSendTransaction
  simp only [hcand, collectingCandidate, GetLockedOutPointTxHash]
  by_cases hn : 10 ≤ done.length
  · simp only [hn, if_true] at hlocked
    simp [hn, hlocked]
  · simp only [hn, if_false] at hlocked
    simp [hn, hlocked]

/-- The sweep after the lock timeout discards a candidate that is still short of
ten votes. -/
theorem Collecting_CheckAndRemove (env : Env) (s₀ s : CInstantSend) (r : CTxLockRequest)
    (u : COutPoint) (t₀ t₁ : Int) (done : List CTxLockVote)
    (hc : Collecting env s₀ s r u t₀ done) (hn : done.length < 10) (ht : t₁ - t₀ > 15) :
    mapFind (CheckAndRemove env t₁ s).mapTxLockCandidates r.GetHash = none ∧
    (CheckAndRemove env t₁ s).IsLockedInstantSendTransaction r.GetHash = false := by
  have hlockedFalse : s.IsLockedInstantSendTransaction r.GetHash = false := by
    rw [Collecting_IsLocked env s₀ s r u t₀ done hc]
    simp
    omega
  have hfailed : s.IsFailedCandidate t₁ r.GetHash (collectingCandidate r u t₀ done) = true := by
    unfold IsFailedCandidate
    rw [hlockedFalse, collectingCandidate_IsAllOutPointsReady]
    have h₁ : (collectingCandidate r u t₀ done).IsTimedOut t₁ = true := by
      simp only [CTxLockCandidate.IsTimedOut, collectingCandidate,
        INSTANTSEND_LOCK_TIMEOUT_SECONDS, decide_eq_true_eq]
      omega
    have h₂ : decide (10 ≤ done.length) = false := by
      simp
      omega
    rw [h₁, h₂]
    rfl
  have hmem : r.GetHash ∈ (s.mapTxLockCandidates.filter
      (fun p => s.IsFailedCandidate t₁ p.1 p.2)).map Prod.fst := by
    rw [List.mem_map]
    refine ⟨(r.GetHash, collectingCandidate r u t₀ done), ?_, rfl⟩
    rw [List.mem_filter]
    exact ⟨mapFind_mem _ _ _ hc.1, hfailed⟩
  have hgone : mapFind (CheckAndRemove env t₁ s).mapTxLockCandidates r.GetHash = none := by
    unfold CheckAndRemove
    simp only
    rw [mapFind_filter_key s.mapTxLockCandidates
      (fun k => decide (k ∉ (s.mapTxLockCandidates.filter
        (fun p => s.IsFailedCandidate t₁ p.1 p.2)).map Prod.fst)) r.GetHash]
    simp only [hmem, not_true_eq_false, decide_False, Bool.false_eq_true, if_false]
  refine ⟨hgone, ?_⟩
  unfold IsLockedInstantSendTransaction
  rw [hgone]

end CInstantSend

/-- C10. Finalization threshold: a valid lock request with the single input `u`
is accepted by an orchestrator that does not know the transaction and has seen no
vote and no winner for `u`; valid votes on `u` from pairwise different
masternodes are then processed inside the lock window.  The transaction is locked
exactly when at least 10 votes were processed, and then
`GetLockedOutPointTxHash u` yields the transaction; with fewer than 10 votes (9,
say) it is not locked, and after a `CheckAndRemove` run later than the lock
timeout it is still not locked and its candidate has left the candidate table. -/
theorem C10_finalization_threshold (env : Env) (s₀ : CInstantSend) (r : CTxLockRequest)
    (u : COutPoint) (t₀ t₁ : Int) (votes : List (Int × CTxLockVote))
    (hvin : r.tx.vin = [u]) (hnz : r.toBool = true)
    (hvalid : env.requestIsValid r = true) (hthr : env.autoLockThrottled t₀ r = false)
    (hacc : mapCount s₀.mapLockRequestAccepted r.GetHash = false)
    (hrej : mapCount s₀.mapLockRequestRejected r.GetHash = false)
    (hcand : mapFind s₀.mapTxLockCandidates r.GetHash = none)
    (horph : ∀ p ∈ s₀.mapTxLockVotesOrphan, p.2.GetTxHash ≠ r.GetHash)
    (hvoted : mapFind s₀.mapVotedOutpoints u = none)
    (hlocked : mapFind s₀.mapLockedOutpoints u = none)
    (hv : ∀ p ∈ votes, p.2.GetTxHash = r.GetHash ∧ p.2.GetOutpoint = u ∧
      env.voteIsValid p.1 (CTxLockVote.received p.1 p.2) = true ∧
      p.1 - t₀ ≤ INSTANTSEND_LOCK_TIMEOUT_SECONDS ∧
      mapCount s₀.mapTxLockVotes (p.2.GetHash env) = false ∧
      mapCount s₀.mapTxLockVotesOrphan (p.2.GetHash env) = false)
    (hmn : (votes.map (fun p => p.2.GetMasternodeOutpoint)).Nodup)
    (hhash : (votes.map (fun p => p.2.GetHash env)).Nodup)
    (ht₁ : t₁ - t₀ > INSTANTSEND_LOCK_TIMEOUT_SECONDS) :
    (CInstantSend.ProcessTxLockRequest env t₀ s₀ r).1 = true ∧
    ((CInstantSend.run env (CInstantSend.ProcessTxLockRequest env t₀ s₀ r).2
        (votes.map (fun p => CInstantSend.Event.lockVote p.1 p.2))).IsLockedInstantSendTransaction
        r.GetHash = true ↔ 10 ≤ votes.length) ∧
    (10 ≤ votes.length →
      (CInstantSend.run env (CInstantSend.ProcessTxLockRequest env t₀ s₀ r).2
        (votes.map (fun p => CInstantSend.Event.lockVote p.1 p.2))).GetLockedOutPointTxHash u
        = some r.GetHash) ∧
    (votes.length < 10 →
      (CInstantSend.CheckAndRemove env t₁
        (CInstantSend.run env (CInstantSend.ProcessTxLockRequest env t₀ s₀ r).2
          (votes.map (fun p => CInstantSend.Event.lockVote p.1 p.2)))).IsLockedInstantSendTransaction
        r.GetHash = false ∧
      mapFind (CInstantSend.CheckAndRemove env t₁
        (CInstantSend.run env (CInstantSend.ProcessTxLockRequest env t₀ s₀ r).2
          (votes.map (fun p => CInstantSend.Event.lockVote p.1 p.2)))).mapTxLockCandidates
        r.GetHash = none) := by
  obtain ⟨hok, hc₀⟩ := CInstantSend.Collecting_request env s₀ r u t₀ hvin hnz hvalid hthr hacc
    hrej hcand horph hvoted hlocked
  have hc := CInstantSend.Collecting_votes env s₀ r u t₀ hnz votes _ [] hc₀
    (by simpa [INSTANTSEND_LOCK_TIMEOUT_SECONDS] using hv) (by simpa using hmn)
    (by simpa using hhash)
  simp only [List.nil_append] at hc
  have hlen : (votes.map (fun p => CTxLockVote.received p.1 p.2)).length = votes.length := by
    simp
  have hlk := CInstantSend.Collecting_IsLocked env s₀ _ r u t₀ _ hc
  rw [hlen] at hlk
  refine ⟨hok, ?_, ?_, ?_⟩
  · rw [hlk]
    simp
  · intro hn
    have h3 := hc.2.2.1
    rw [hlen] at h3
    simpa [CInstantSend.GetLockedOutPointTxHash, hn] using h3
  · intro hn
    have := CInstantSend.Collecting_CheckAndRemove env s₀ _ r u t₀ t₁ _ hc (by rw [hlen]; exact hn)
      (by simpa [INSTANTSEND_LOCK_TIMEOUT_SECONDS] using ht₁)
    exact ⟨this.2, this.1⟩

/-- Witness for C10: from the state at process start, transaction 1 with the
single input `U` is requested at time 100.  With the votes of masternodes 1 to 10
it is locked and owns `U`; with the votes of masternodes 1 to 9 only it is not
locked, and after the sweep at time 116 it is not locked and its candidate is
gone. -/
theorem C10_finalization_threshold_witness :
    ((CInstantSend.run Scenario.env
        (CInstantSend.ProcessTxLockRequest Scenario.env 100 CInstantSend.init
          (Scenario.request 1)).2
        ((Scenario.timedVotes 10).map
          (fun p => CInstantSend.Event.lockVote p.1 p.2))).IsLockedInstantSendTransaction 1
        = true) ∧
    ((CInstantSend.run Scenario.env
        (CInstantSend.ProcessTxLockRequest Scenario.env 100 CInstantSend.init
          (Scenario.request 1)).2
        ((Scenario.timedVotes 10).map
          (fun p => CInstantSend.Event.lockVote p.1 p.2))).GetLockedOutPointTxHash Scenario.U
        = some 1) ∧
    ¬ ((CInstantSend.run Scenario.env
        (CInstantSend.ProcessTxLockRequest Scenario.env 100 CInstantSend.init
          (Scenario.request 1)).2
        ((Scenario.timedVotes 9).map
          (fun p => CInstantSend.Event.lockVote p.1 p.2))).IsLockedInstantSendTransaction 1
        = true) ∧
    ((CInstantSend.CheckAndRemove Scenario.env 116
      (CInstantSend.run Scenario.env
        (CInstantSend.ProcessTxLockRequest Scenario.env 100 CInstantSend.init
          (Scenario.request 1)).2
        ((Scenario.timedVotes 9).map
          (fun p => CInstantSend.Event.lockVote p.1 p.2)))).IsLockedInstantSendTransaction 1
        = false ∧
      mapFind (CInstantSend.CheckAndRemove Scenario.env 116
        (CInstantSend.run Scenario.env
          (CInstantSend.ProcessTxLockRequest Scenario.env 100 CInstantSend.init
            (Scenario.request 1)).2
          ((Scenario.timedVotes 9).map
            (fun p => CInstantSend.Event.lockVote p.1 p.2)))).mapTxLockCandidates 1 = none) :=
  have ten := C10_finalization_threshold Scenario.env CInstantSend.init (Scenario.request 1)
    Scenario.U 100 116 (Scenario.timedVotes 10) rfl (by decide) rfl rfl rfl rfl rfl (by decide)
    rfl rfl (by decide) (by decide) (by decide) (by decide)
  have nine := C10_finalization_threshold Scenario.env CInstantSend.init (Scenario.request 1)
    Scenario.U 100 116 (Scenario.timedVotes 9) rfl (by decide) rfl rfl rfl rfl rfl (by decide)
    rfl rfl (by decide) (by decide) (by decide) (by decide)
  ⟨ten.2.1.mpr (by decide), ten.2.2.1 (by decide),
    fun h => absurd (nine.2.1.mp h) (by decide), nine.2.2.2 (by decide)⟩

/-! ### Stormnode payment votes -/

/-- C14. `Sign` and `CheckSignature` build the same message from the same three
fields, in the order outpoint (short form), decimal block height, payee (asm
form); for a stormnode found in the registry `CheckSignature` is true exactly
when the stored signature verifies under its public key over that message; it is
false for an unknown stormnode; `Sign` asks `SignMessage` for a signature over
that message with the key of the active node, stores what `SignMessage` leaves
in `vchSig` and changes no other field, so the signed vote has the same message;
and `Sign` returns true exactly when `SignMessage` succeeds and the signature it
produced verifies under the public key of the active node over the message. -/
theorem C14_sign_and_check_same_message (env : PayEnv) (vote : CStormnodePaymentVote) :
    vote.strMessage env
      = env.ToStringShort vote.vinStormnode.prevout ++ toString vote.nBlockHeight
          ++ env.ScriptToAsmStr vote.payee ∧
    (∀ other : CStormnodePaymentVote,
      other.vinStormnode.prevout = vote.vinStormnode.prevout →
      other.nBlockHeight = vote.nBlockHeight → other.payee = vote.payee →
      other.strMessage env = vote.strMessage env) ∧
    (∀ psn, env.Find vote.vinStormnode = some psn →
      (vote.CheckSignature env = true ↔
        env.VerifyMessage psn.pubKeyStormnode vote.vchSig (vote.strMessage env) = true)) ∧
    (env.Find vote.vinStormnode = none → vote.CheckSignature env = false) ∧
    (vote.Sign env).2.strMessage env = vote.strMessage env ∧
    ((vote.Sign env).1 = true →
      env.VerifyMessage env.pubKeyStormnode (vote.Sign env).2.vchSig (vote.strMessage env)
        = true) ∧
    (vote.Sign env).2
      = { vote with
          vchSig := (env.SignMessage (vote.strMessage env) env.keyStormnode).2 } ∧
    ((vote.Sign env).1 = true ↔
      (env.SignMessage (vote.strMessage env) env.keyStormnode).1 = true ∧
      env.VerifyMessage env.pubKeyStormnode
        (env.SignMessage (vote.strMessage env) env.keyStormnode).2 (vote.strMessage env)
          = true) := by
  refine ⟨rfl, ?_, ?_, ?_, ?_, ?_, ?_, ?_⟩
  · intro other h₁ h₂ h₃
    simp [CStormnodePaymentVote.strMessage, h₁, h₂, h₃]
  · intro psn hf
    simp [CStormnodePaymentVote.CheckSignature, hf]
  · intro hf
    simp [CStormnodePaymentVote.CheckSignature, hf]
  · unfold CStormnodePaymentVote.Sign
    simp only
    split_ifs <;> rfl
  · unfold CStormnodePaymentVote.Sign
    simp only
    split_ifs with h₁ h₂
    · intro h; exact absurd h (by simp)
    · intro h; exact absurd h (by simp)
    · intro _
      simpa using h₂
  · unfold CStormnodePaymentVote.Sign
    simp only
    split_ifs <;> rfl
  · unfold CStormnodePaymentVote.Sign
    simp only
    split_ifs with h₁ h₂
    · simp only [Bool.not_eq_true'] at h₁
      simp [h₁]
    · simp only [Bool.not_eq_true', Bool.not_eq_true, Bool.not_not] at h₁ h₂
      simp [h₂]
    · simp only [Bool.not_eq_true', Bool.not_eq_true, Bool.not_not,
        Bool.not_eq_false] at h₁ h₂
      simp [h₁, h₂]

/-- C15 (as stated) fails: the vote of stormnode 1 for block 10021, received by a
synced node whose tip is at height 10000, is above tip + 20; it is dropped and the
misbehavior score of the peer does not grow. -/
theorem C15_out_of_range_not_penalized_counterexample :
    (PaymentScenario.vote 50 1 10021).nBlockHeight > 10000 + 20 ∧
    ¬ (0 < misbehaviorScore PaymentScenario.peer.id
        (CStormnodePayments.ProcessMessage PaymentScenario.env PaymentScenario.state
          PaymentScenario.peer (.STORMNODEPAYMENTVOTE (PaymentScenario.vote 50 1 10021))).2) := by
  decide

/-- C15 (amended). A vote whose block height is below (tip height - storage
limit) or above (tip height + 20) is dropped without penalty: `ProcessMessage`
leaves every table unchanged and has no effect at all, so the misbehavior score
of the sending peer stays as it is. -/
theorem C15_out_of_range_dropped (env : PayEnv) (s : CStormnodePayments) (pfrom : CNode)
    (vote : CStormnodePaymentVote) (nHeight : Int)
    (htip : s.pCurrentBlockIndex = some nHeight)
    (hrange : vote.nBlockHeight < nHeight - CStormnodePayments.GetStorageLimit env ∨
      vote.nBlockHeight > nHeight + 20) :
    CStormnodePayments.ProcessMessage env s pfrom (.STORMNODEPAYMENTVOTE vote) = (s, []) ∧
    misbehaviorScore pfrom.id
      (CStormnodePayments.ProcessMessage env s pfrom (.STORMNODEPAYMENTVOTE vote)).2 = 0 := by
  have hcond : (decide (vote.nBlockHeight < nHeight - CStormnodePayments.GetStorageLimit env)
      || decide (vote.nBlockHeight > nHeight + 20)) = true := by
    rcases hrange with h | h <;> simp [h]
  have hres : CStormnodePayments.ProcessMessage env s pfrom (.STORMNODEPAYMENTVOTE vote)
      = (s, []) := by
    unfold CStormnodePayments.ProcessMessage
    simp only [htip]
    split_ifs <;> rfl
  rw [hres]
  exact ⟨rfl, rfl⟩

/-- Witness for C15 (amended): the vote for block 10021 at tip 10000. -/
theorem C15_out_of_range_dropped_witness :
    CStormnodePayments.ProcessMessage PaymentScenario.env PaymentScenario.state
        PaymentScenario.peer (.STORMNODEPAYMENTVOTE (PaymentScenario.vote 50 1 10021))
      = (PaymentScenario.state, []) ∧
    misbehaviorScore PaymentScenario.peer.id
      (CStormnodePayments.ProcessMessage PaymentScenario.env PaymentScenario.state
        PaymentScenario.peer (.STORMNODEPAYMENTVOTE (PaymentScenario.vote 50 1 10021))).2 = 0 :=
  C15_out_of_range_dropped PaymentScenario.env PaymentScenario.state PaymentScenario.peer
    (PaymentScenario.vote 50 1 10021) 10000 rfl (Or.inr (by decide))

/-- C16. For a vote of a stormnode that is in the registry with a sufficient
protocol version: when its rank exceeds `SNPAYMENTS_SIGNATURES_TOTAL`, `IsValid`
returns false, and the peer is penalized (`Misbehaving` with 20, the only effect)
exactly when the rank exceeds twice `SNPAYMENTS_SIGNATURES_TOTAL` and the block
height of the vote is greater than the validation height; ranks from TOTAL+1 to
2*TOTAL, and every rank of a vote at or below the validation height, are rejected
without any effect. -/
theorem C16_rank_out_of_window (env : PayEnv) (vote : CStormnodePaymentVote) (pnode : CNode)
    (nValidationHeight : Int) (psn : CStormnode)
    (hfind : env.Find vote.vinStormnode = some psn)
    (hproto : ¬ psn.nProtocolVersion <
      (if vote.nBlockHeight > nValidationHeight
        then CStormnodePayments.GetMinStormnodePaymentsProto env
        else env.MIN_STORMNODE_PAYMENT_PROTO_VERSION_1))
    (hrank : env.GetStormnodeRank vote.vinStormnode (vote.nBlockHeight - 101)
        (if vote.nBlockHeight > nValidationHeight
          then CStormnodePayments.GetMinStormnodePaymentsProto env
          else env.MIN_STORMNODE_PAYMENT_PROTO_VERSION_1)
      > env.SNPAYMENTS_SIGNATURES_TOTAL) :
    (vote.IsValid env pnode nValidationHeight).1 = false ∧
    (vote.IsValid env pnode nValidationHeight).2
      = (if env.GetStormnodeRank vote.vinStormnode (vote.nBlockHeight - 101)
              (if vote.nBlockHeight > nValidationHeight
                then CStormnodePayments.GetMinStormnodePaymentsProto env
                else env.MIN_STORMNODE_PAYMENT_PROTO_VERSION_1)
            > env.SNPAYMENTS_SIGNATURES_TOTAL * 2 ∧ vote.nBlockHeight > nValidationHeight
         then [Effect.Misbehaving pnode.id 20] else []) ∧
    (Effect.Misbehaving pnode.id 20 ∈ (vote.IsValid env pnode nValidationHeight).2 ↔
      env.GetStormnodeRank vote.vinStormnode (vote.nBlockHeight - 101)
          (if vote.nBlockHeight > nValidationHeight
            then CStormnodePayments.GetMinStormnodePaymentsProto env
            else env.MIN_STORMNODE_PAYMENT_PROTO_VERSION_1)
        > env.SNPAYMENTS_SIGNATURES_TOTAL * 2 ∧ vote.nBlockHeight > nValidationHeight) := by
  generalize hm : (if vote.nBlockHeight > nValidationHeight
      then CStormnodePayments.GetMinStormnodePaymentsProto env
      else env.MIN_STORMNODE_PAYMENT_PROTO_VERSION_1) = nMin at hproto hrank ⊢
  have hres : vote.IsValid env pnode nValidationHeight
      = (false,
          if env.GetStormnodeRank vote.vinStormnode (vote.nBlockHeight - 101) nMin
              > env.SNPAYMENTS_SIGNATURES_TOTAL * 2 ∧ vote.nBlockHeight > nValidationHeight
          then [Effect.Misbehaving pnode.id 20] else []) := by
    unfold CStormnodePaymentVote.IsValid
    simp only [hfind, hm, hproto, if_false, hrank, if_true]
    congr 1
    by_cases h₁ : env.GetStormnodeRank vote.vinStormnode (vote.nBlockHeight - 101) nMin
        > env.SNPAYMENTS_SIGNATURES_TOTAL * 2 <;>
      by_cases h₂ : vote.nBlockHeight > nValidationHeight <;> simp [h₁, h₂]
  rw [hres]
  refine ⟨rfl, rfl, ?_⟩
  simp only
  split_ifs with h
  · simp [h]
  · simp [h]

/-- Witness for C16: at validation height 10000 the vote for block 10010 of the
known stormnode with rank 21 (above 2 * 10) is rejected and penalized. -/
theorem C16_rank_out_of_window_witness :
    ((PaymentScenario.vote 50 21 10010).IsValid PaymentScenario.env PaymentScenario.peer
      10000).1 = false ∧
    Effect.Misbehaving PaymentScenario.peer.id 20 ∈
      ((PaymentScenario.vote 50 21 10010).IsValid PaymentScenario.env PaymentScenario.peer
        10000).2 :=
  have h := C16_rank_out_of_window PaymentScenario.env (PaymentScenario.vote 50 21 10010)
    PaymentScenario.peer 10000 { nProtocolVersion := 70200, pubKeyStormnode := 11 } rfl
    (by decide) (by decide)
  ⟨h.1, h.2.2.mpr (by decide)⟩

/-- C17. A vote of a stormnode that is not in the registry: `IsValid` returns
false, its only possible effect is the request for the record of the stormnode,
made exactly when the node is synced, so the misbehavior score of the peer is
unchanged; and `ProcessMessage` leaves the vote table, the block-payee table and
the rest of the state unchanged and does not penalize the peer. -/
theorem C17_unknown_stormnode_dropped (env : PayEnv) (s : CStormnodePayments)
    (vote : CStormnodePaymentVote) (pnode : CNode) (nValidationHeight : Int)
    (hfind : env.Find vote.vinStormnode = none) :
    (vote.IsValid env pnode nValidationHeight).1 = false ∧
    (vote.IsValid env pnode nValidationHeight).2
      = (if env.IsSynced = true then [Effect.AskForSN pnode.id vote.vinStormnode] else []) ∧
    misbehaviorScore pnode.id (vote.IsValid env pnode nValidationHeight).2 = 0 ∧
    (CStormnodePayments.ProcessMessage env s pnode (.STORMNODEPAYMENTVOTE vote)).1 = s ∧
    misbehaviorScore pnode.id
      (CStormnodePayments.ProcessMessage env s pnode (.STORMNODEPAYMENTVOTE vote)).2 = 0 := by
  have hv : ∀ n, vote.IsValid env pnode n
      = (false, if env.IsSynced = true then [Effect.AskForSN pnode.id vote.vinStormnode]
          else []) := by
    intro n
    unfold CStormnodePaymentVote.IsValid
    simp only [hfind]
  have hscore : misbehaviorScore pnode.id
      (if env.IsSynced = true then [Effect.AskForSN pnode.id vote.vinStormnode] else []) = 0 := by
    split_ifs <;> rfl
  have hpm : (CStormnodePayments.ProcessMessage env s pnode (.STORMNODEPAYMENTVOTE vote)).1 = s ∧
      ((CStormnodePayments.ProcessMessage env s pnode (.STORMNODEPAYMENTVOTE vote)).2 = [] ∨
        (CStormnodePayments.ProcessMessage env s pnode (.STORMNODEPAYMENTVOTE vote)).2
          = (if env.IsSynced = true then [Effect.AskForSN pnode.id vote.vinStormnode]
              else [])) := by
    unfold CStormnodePayments.ProcessMessage
    simp only [hv, Bool.not_false, if_true]
    by_cases h₁ : env.IsStormnodeListSynced = true
    · by_cases h₂ : env.fLiteMode = true
      · simp [h₁, h₂]
      · by_cases h₃ : pnode.nVersion < CStormnodePayments.GetMinStormnodePaymentsProto env
        · simp [h₁, h₂, h₃]
        · cases h₄ : s.pCurrentBlockIndex with
          | none => simp [h₁, h₂, h₃]
          | some nHeight =>
            by_cases h₅ : mapCount s.mapStormnodePaymentVotes (env.voteHash vote) = true
            · simp [h₁, h₂, h₃, h₅]
            · by_cases h₆ : (decide (vote.nBlockHeight <
                  nHeight - CStormnodePayments.GetStorageLimit env)
                  || decide (vote.nBlockHeight > nHeight + 20)) = true
              · simp [h₁, h₂, h₃, h₅, h₆]
              · simp [h₁, h₂, h₃, h₅, h₆]
    · simp [h₁]
  refine ⟨by rw [hv], by rw [hv], by rw [hv]; exact hscore, hpm.1, ?_⟩
  rcases hpm.2 with h | h
  · rw [h]; rfl
  · rw [h]; exact hscore

/-- Witness for C17: stormnode 1 of collateral transaction 99 is not in the
registry; the synced node asks the peer for its record and stores nothing. -/
theorem C17_unknown_stormnode_dropped_witness :
    ((PaymentScenario.vote 99 1 10010).IsValid PaymentScenario.env PaymentScenario.peer
      10000)
      = (false, [Effect.AskForSN 3 (PaymentScenario.vote 99 1 10010).vinStormnode]) ∧
    (CStormnodePayments.ProcessMessage PaymentScenario.env PaymentScenario.state
      PaymentScenario.peer (.STORMNODEPAYMENTVOTE (PaymentScenario.vote 99 1 10010))).1
      = PaymentScenario.state :=
  have h := C17_unknown_stormnode_dropped PaymentScenario.env PaymentScenario.state
    (PaymentScenario.vote 99 1 10010) PaymentScenario.peer 10000 rfl
  ⟨Prod.ext h.1 h.2.1, h.2.2.2.1⟩

/-! ### Block-tip notification -/

/-- C18. `UpdatedBlockTip` with `pindexNew` different from `pindexFork` sets the
flag `isAutoLockBip9Active` to (version-bits state of `DEPLOYMENT_ISAUTOLOCKS` at
`pindexNew->pprev` is `THRESHOLD_ACTIVE`), whatever `fInitialDownload` and lite
mode are, and it calls `instantsend.UpdatedBlockTip` exactly when
`fInitialDownload` is false and lite mode is off; with `pindexNew` equal to
`pindexFork` the flag is unchanged and no subsystem is notified. -/
theorem C18_UpdatedBlockTip_autolock_flag (env : TipEnv) (isAutoLockBip9Active : Bool)
    (p : Nat) (pindexFork : Option Nat) (fInitialDownload : Bool) :
    (some p ≠ pindexFork →
      ∃ notified,
        UpdatedBlockTip env isAutoLockBip9Active (some p) pindexFork fInitialDownload
          = some (decide (env.VersionBitsState (env.pprev p) = .THRESHOLD_ACTIVE), notified) ∧
        (Notified.instantsend p ∈ notified ↔
          fInitialDownload = false ∧ env.fLiteMode = false)) ∧
    UpdatedBlockTip env isAutoLockBip9Active pindexFork pindexFork fInitialDownload
      = some (isAutoLockBip9Active, []) := by
  refine ⟨?_, ?_⟩
  · intro hne
    unfold UpdatedBlockTip
    simp only [hne, if_false]
    cases fInitialDownload
    · cases hl : env.fLiteMode
      · refine ⟨_, rfl, ?_⟩
        cases env.ENABLE_WALLET <;> simp
      · exact ⟨_, rfl, by simp⟩
    · exact ⟨_, rfl, by simp⟩
  · simp [UpdatedBlockTip]

/-! ### Block value check -/

/-- C20, the claim as worded fails when the sum leaves the 64-bit range: on a
node that is not synced, at the valid superblock height 1100 past the superblock
start, with the largest `CAmount` as block reward and a payments limit of 500,
the coinbase value-out 3 is at most the block reward plus the limit (case a of
the claim), yet `IsBlockValueValid` returns false, the 64-bit sum being
negative. -/
theorem C20_sum_leaves_range_counterexample :
    BlockScenario.envUnsynced.consensus.nSuperblockStartBlock ≤ 1100 ∧
    BlockScenario.envUnsynced.IsSynced = false ∧
    BlockScenario.envUnsynced.IsValidBlockHeight 1100 = true ∧
    BlockScenario.envUnsynced.GetValueOut { hash := 1, vin := [Scenario.U, Scenario.U, Scenario.U] }
      ≤ BlockScenario.maxAmount + BlockScenario.envUnsynced.GetPaymentsLimit 1100 ∧
    IsBlockValueValid BlockScenario.envUnsynced (BlockScenario.block 1) 1100
      BlockScenario.maxAmount = some false := by
  decide

/-- C20, amended. For a block with a coinbase at a height at or after
`nSuperblockStartBlock`, `IsBlockValueValid` returns a result.  The result is
true exactly when (a) the client is not synced, the height is a valid superblock
height and the coinbase value-out is at most the 64-bit sum of the block reward
and the superblock payments limit; or (b) the client is not synced, the height is
not a valid superblock height and the value-out is at most the block reward; or
(c) the client is synced, the superblocks spork is active, a superblock is
triggered at the height and `CSuperblockManager::IsValid` accepts the coinbase;
or (d) the client is synced, no superblock is triggered or the spork is inactive,
and the value-out is at most the block reward.  When the block reward plus the
superblock payments limit fits in a signed 64-bit integer, the 64-bit sum is the
sum, and the result is true exactly when (a) with the value-out at most the
block reward plus the limit, or (b), or (c), or (d). -/
theorem C20_IsBlockValueValid (env : BlockEnv) (coinbase : CTransaction)
    (rest : List CTransaction) (nBlockHeight blockReward : Int)
    (hstart : env.consensus.nSuperblockStartBlock ≤ nBlockHeight) :
    ∃ result, IsBlockValueValid env { vtx := coinbase :: rest } nBlockHeight blockReward
        = some result ∧
      (result = true ↔
        (env.IsSynced = false ∧ env.IsValidBlockHeight nBlockHeight = true ∧
          env.GetValueOut coinbase
            ≤ wrapInt64 (blockReward + env.GetPaymentsLimit nBlockHeight)) ∨
        (env.IsSynced = false ∧ env.IsValidBlockHeight nBlockHeight = false ∧
          env.GetValueOut coinbase ≤ blockReward) ∨
        (env.IsSynced = true ∧ env.IsSporkActive .SPORK_9_SUPERBLOCKS_ENABLED = true ∧
          env.IsSuperblockTriggered nBlockHeight = true ∧
          env.SuperblockIsValid coinbase nBlockHeight blockReward = true) ∨
        (env.IsSynced = true ∧
          (env.IsSuperblockTriggered nBlockHeight = false ∨
            env.IsSporkActive .SPORK_9_SUPERBLOCKS_ENABLED = false) ∧
          env.GetValueOut coinbase ≤ blockReward)) ∧
      (-2 ^ 63 ≤ blockReward + env.GetPaymentsLimit nBlockHeight →
        blockReward + env.GetPaymentsLimit nBlockHeight < 2 ^ 63 →
        (wrapInt64 (blockReward + env.GetPaymentsLimit nBlockHeight)
            = blockReward + env.GetPaymentsLimit nBlockHeight ∧
         (result = true ↔
          (env.IsSynced = false ∧ env.IsValidBlockHeight nBlockHeight = true ∧
            env.GetValueOut coinbase ≤ blockReward + env.GetPaymentsLimit nBlockHeight) ∨
          (env.IsSynced = false ∧ env.IsValidBlockHeight nBlockHeight = false ∧
            env.GetValueOut coinbase ≤ blockReward) ∨
          (env.IsSynced = true ∧ env.IsSporkActive .SPORK_9_SUPERBLOCKS_ENABLED = true ∧
            env.IsSuperblockTriggered nBlockHeight = true ∧
            env.SuperblockIsValid coinbase nBlockHeight blockReward = true) ∨
          (env.IsSynced = true ∧
            (env.IsSuperblockTriggered nBlockHeight = false ∨
              env.IsSporkActive .SPORK_9_SUPERBLOCKS_ENABLED = false) ∧
            env.GetValueOut coinbase ≤ blockReward)))) := by
  have hnot : ¬ nBlockHeight < env.consensus.nSuperblockStartBlock := by omega
  have hcode : ∃ result, IsBlockValueValid env { vtx := coinbase :: rest } nBlockHeight
        blockReward = some result ∧
      (result = true ↔
        (env.IsSynced = false ∧ env.IsValidBlockHeight nBlockHeight = true ∧
          env.GetValueOut coinbase
            ≤ wrapInt64 (blockReward + env.GetPaymentsLimit nBlockHeight)) ∨
        (env.IsSynced = false ∧ env.IsValidBlockHeight nBlockHeight = false ∧
          env.GetValueOut coinbase ≤ blockReward) ∨
        (env.IsSynced = true ∧ env.IsSporkActive .SPORK_9_SUPERBLOCKS_ENABLED = true ∧
          env.IsSuperblockTriggered nBlockHeight = true ∧
          env.SuperblockIsValid coinbase nBlockHeight blockReward = true) ∨
        (env.IsSynced = true ∧
          (env.IsSuperblockTriggered nBlockHeight = false ∨
            env.IsSporkActive .SPORK_9_SUPERBLOCKS_ENABLED = false) ∧
          env.GetValueOut coinbase ≤ blockReward)) := by
    unfold IsBlockValueValid
    simp only [hnot, if_false]
    cases hs : env.IsSynced <;> cases hv : env.IsValidBlockHeight nBlockHeight <;>
      cases hp : env.IsSporkActive .SPORK_9_SUPERBLOCKS_ENABLED <;>
      cases ht : env.IsSuperblockTriggered nBlockHeight <;>
      cases hm : env.SuperblockIsValid coinbase nBlockHeight blockReward <;>
      simp
  obtain ⟨result, hres, hiff⟩ := hcode
  refine ⟨result, hres, hiff, ?_⟩
  intro hlo hhi
  have hw := wrapInt64_of_range _ hlo hhi
  refine ⟨hw, ?_⟩
  rw [hw] at hiff
  exact hiff

/-- Witness for C20: at height 1200, past the superblock start at 1000, the
synced node accepts the block whose coinbase the superblock manager accepts
(case c) and rejects the one whose coinbase it does not accept; and at the valid
superblock height 1100 the node that is not synced accepts the block of value-out
3 for a block reward of 2 and a payments limit of 500 (case a). -/
theorem C20_IsBlockValueValid_witness :
    IsBlockValueValid BlockScenario.env (BlockScenario.block 1) 1200 2 = some true ∧
    IsBlockValueValid BlockScenario.env (BlockScenario.block 2) 1200 2 = some false ∧
    IsBlockValueValid BlockScenario.envUnsynced (BlockScenario.block 1) 1100 2
      = some true := by
  obtain ⟨r₁, h₁, -, hiff₁⟩ := C20_IsBlockValueValid BlockScenario.env
    { hash := 1, vin := [Scenario.U, Scenario.U, Scenario.U] } [] 1200 2 (by decide)
  obtain ⟨r₂, h₂, -, hiff₂⟩ := C20_IsBlockValueValid BlockScenario.env
    { hash := 2, vin := [Scenario.U, Scenario.U, Scenario.U] } [] 1200 2 (by decide)
  obtain ⟨r₃, h₃, -, hiff₃⟩ := C20_IsBlockValueValid BlockScenario.envUnsynced
    { hash := 1, vin := [Scenario.U, Scenario.U, Scenario.U] } [] 1100 2 (by decide)
  have e₁ : r₁ = true :=
    (hiff₁ (by decide) (by decide)).2.mpr
      (Or.inr (Or.inr (Or.inl ⟨rfl, rfl, by decide, by decide⟩)))
  have e₂ : r₂ = false := by
    cases r₂
    · rfl
    · exact absurd ((hiff₂ (by decide) (by decide)).2.mp rfl) (by decide)
  have e₃ : r₃ = true :=
    (hiff₃ (by decide) (by decide)).2.mpr (Or.inl ⟨rfl, by decide, by decide⟩)
  rw [e₁] at h₁
  rw [e₂] at h₂
  rw [e₃] at h₃
  exact ⟨h₁, h₂, h₃⟩

/-! ### Fluid sovereign quorum -/

section FluidLemmas

variable {A : Type} [DecidableEq A]

theorem quorumSlot_quorumOutcome (env : FluidEnv A) (tok : String) (x : String)
    (rest : List String) (slot : Nat) (key : A × Bool) :
    quorumOutcome env tok rest slot (quorumSlot env tok (env.fromString x) slot key)
      = quorumOutcome env tok (x :: rest) slot key := by
  unfold quorumOutcome quorumSlot
  cases hv : env.GenericVerifyInstruction tok slot with
  | none => rfl
  | some a =>
    simp only [List.map_cons, List.mem_cons]
    by_cases hr : a ∈ rest.map env.fromString
    · simp [hr]
    · by_cases hx : env.fromString x = a
      · subst hx
        simp only [if_true, true_or, hr, if_false]
      · have hx' : ¬ a = env.fromString x := fun e => hx e.symm
        simp only [hx, if_false, hx', hr, or_self]

theorem quorumLoop_of_valid (env : FluidEnv A) (tok : String) (sovereigns : List String)
    (hvalid : ∀ x ∈ sovereigns, env.IsValid (env.fromString x) = true)
    (k₁ k₂ k₃ : A × Bool) :
    quorumLoop env tok sovereigns (k₁, k₂, k₃)
      = some (quorumOutcome env tok sovereigns 1 k₁, quorumOutcome env tok sovereigns 2 k₂,
          quorumOutcome env tok sovereigns 3 k₃) := by
  induction sovereigns generalizing k₁ k₂ k₃ with
  | nil =>
    simp only [quorumLoop, quorumOutcome, List.map_nil, List.not_mem_nil, if_false]
    cases env.GenericVerifyInstruction tok 1 <;> cases env.GenericVerifyInstruction tok 2 <;>
      cases env.GenericVerifyInstruction tok 3 <;> rfl
  | cons x rest ih =>
    have hx : env.IsValid (env.fromString x) = true := hvalid x (List.mem_cons_self _ _)
    have hrest : ∀ y ∈ rest, env.IsValid (env.fromString y) = true :=
      fun y hy => hvalid y (List.mem_cons_of_mem _ hy)
    simp only [quorumLoop, hx, Bool.not_true, Bool.false_eq_true, if_false]
    rw [ih hrest, quorumSlot_quorumOutcome, quorumSlot_quorumOutcome, quorumSlot_quorumOutcome]

theorem quorumLoop_of_invalid (env : FluidEnv A) (tok : String) (sovereigns : List String)
    (hinvalid : ∃ x ∈ sovereigns, env.IsValid (env.fromString x) = false)
    (keys : (A × Bool) × (A × Bool) × (A × Bool)) :
    quorumLoop env tok sovereigns keys = none := by
  induction sovereigns generalizing keys with
  | nil =>
    obtain ⟨x, hx, _⟩ := hinvalid
    cases hx
  | cons y rest ih =>
    obtain ⟨k₁, k₂, k₃⟩ := keys
    cases hy : env.IsValid (env.fromString y)
    · simp [quorumLoop, hy]
    · simp only [quorumLoop, hy, Bool.not_true, Bool.false_eq_true, if_false]
      apply ih
      obtain ⟨x, hx, hxv⟩ := hinvalid
      rcases List.mem_cons.mp hx with e | hmem
      · rw [e, hy] at hxv
        exact Bool.noConfusion hxv
      · exact ⟨x, hmem, hxv⟩

theorem quorumOutcome_snd (env : FluidEnv A) (tok : String) (sovereigns : List String)
    (slot : Nat) (a₀ : A) :
    (quorumOutcome env tok sovereigns slot (a₀, false)).2 = true ↔
      ∃ a, env.GenericVerifyInstruction tok slot = some a ∧ a ∈ sovereigns.map env.fromString := by
  unfold quorumOutcome
  cases hv : env.GenericVerifyInstruction tok slot with
  | none => simp
  | some a =>
    by_cases hm : a ∈ sovereigns.map env.fromString
    · simp only [hm, if_true, true_iff]
      exact ⟨a, rfl, hm⟩
    · simp only [hm, if_false, Bool.false_eq_true, false_iff]
      rintro ⟨b, hb, hbm⟩
      exact hm ((Option.some.inj hb) ▸ hbm)

theorem quorumOutcome_fst (env : FluidEnv A) (tok : String) (sovereigns : List String)
    (slot : Nat) (key : A × Bool) (a : A)
    (hv : env.GenericVerifyInstruction tok slot = some a)
    (hm : a ∈ sovereigns.map env.fromString) :
    (quorumOutcome env tok sovereigns slot key).1 = env.fromString (env.toString a) := by
  unfold quorumOutcome
  simp [hv, hm]

end FluidLemmas

/-- C19. With `individual = false`, `CheckSignatureQuorum` returns true exactly
when the sovereign list can be read, every listed sovereign address is valid, each
of the three signature slots of the consent token verifies to the address of a
listed sovereign, and the three addresses are pairwise different.  Hence it
returns false when the list cannot be read, when a listed address is invalid,
when a slot does not verify, and when one address accounts for two slots.  The
two hypotheses are the laws of the address encoding: a valid address is read back
from its string, and different valid addresses have different strings. -/
theorem C19_signature_quorum {A : Type} [DecidableEq A] (env : FluidEnv A)
    (vchFluidScript : List Nat)
    (hround : ∀ a, env.IsValid a = true → env.fromString (env.toString a) = a)
    (hinj : ∀ a b, env.IsValid a = true → env.IsValid b = true →
      env.toString a = env.toString b → a = b) :
    (CheckSignatureQuorum env vchFluidScript false = true ↔
      ∃ sovereigns a₁ a₂ a₃,
        GetLastFluidSovereignAddressStrings env = some sovereigns ∧
        (∀ x ∈ sovereigns, env.IsValid (env.fromString x) = true) ∧
        env.GenericVerifyInstruction (env.StringFromCharVector vchFluidScript) 1 = some a₁ ∧
        env.GenericVerifyInstruction (env.StringFromCharVector vchFluidScript) 2 = some a₂ ∧
        env.GenericVerifyInstruction (env.StringFromCharVector vchFluidScript) 3 = some a₃ ∧
        a₁ ∈ sovereigns.map env.fromString ∧ a₂ ∈ sovereigns.map env.fromString ∧
        a₃ ∈ sovereigns.map env.fromString ∧ a₁ ≠ a₂ ∧ a₂ ≠ a₃ ∧ a₁ ≠ a₃) ∧
    (GetLastFluidSovereignAddressStrings env = none →
      CheckSignatureQuorum env vchFluidScript false = false) ∧
    (∀ sovereigns, GetLastFluidSovereignAddressStrings env = some sovereigns →
      (∃ x ∈ sovereigns, env.IsValid (env.fromString x) = false) →
      CheckSignatureQuorum env vchFluidScript false = false) ∧
    ((∃ slot ∈ [1, 2, 3],
        env.GenericVerifyInstruction (env.StringFromCharVector vchFluidScript) slot = none) →
      CheckSignatureQuorum env vchFluidScript false = false) ∧
    ((∃ i ∈ [1, 2, 3], ∃ j ∈ [1, 2, 3], i ≠ j ∧
        env.GenericVerifyInstruction (env.StringFromCharVector vchFluidScript) i
          = env.GenericVerifyInstruction (env.StringFromCharVector vchFluidScript) j) →
      CheckSignatureQuorum env vchFluidScript false = false) := by
  generalize htok : env.StringFromCharVector vchFluidScript = tok
  have hmemValid : ∀ (L : List String) (a : A),
      (∀ x ∈ L, env.IsValid (env.fromString x) = true) → a ∈ L.map env.fromString →
      env.IsValid a = true := by
    intro L a hL ha
    obtain ⟨x, hx, rfl⟩ := List.mem_map.mp ha
    exact hL x hx
  have hnone : GetLastFluidSovereignAddressStrings env = none →
      CheckSignatureQuorum env vchFluidScript false = false := by
    intro h
    simp [CheckSignatureQuorum, h]
  have hinvalid : ∀ sovereigns, GetLastFluidSovereignAddressStrings env = some sovereigns →
      (∃ x ∈ sovereigns, env.IsValid (env.fromString x) = false) →
      CheckSignatureQuorum env vchFluidScript false = false := by
    intro L hL hx
    simp [CheckSignatureQuorum, hL, quorumLoop_of_invalid env _ L hx]
  have hiff : CheckSignatureQuorum env vchFluidScript false = true ↔
      ∃ sovereigns a₁ a₂ a₃,
        GetLastFluidSovereignAddressStrings env = some sovereigns ∧
        (∀ x ∈ sovereigns, env.IsValid (env.fromString x) = true) ∧
        env.GenericVerifyInstruction tok 1 = some a₁ ∧
        env.GenericVerifyInstruction tok 2 = some a₂ ∧
        env.GenericVerifyInstruction tok 3 = some a₃ ∧
        a₁ ∈ sovereigns.map env.fromString ∧ a₂ ∈ sovereigns.map env.fromString ∧
        a₃ ∈ sovereigns.map env.fromString ∧ a₁ ≠ a₂ ∧ a₂ ≠ a₃ ∧ a₁ ≠ a₃ := by
    cases hL : GetLastFluidSovereignAddressStrings env with
    | none =>
      rw [hnone hL]
      constructor
      · intro h; exact Bool.noConfusion h
      · rintro ⟨_, _, _, _, h, _⟩; exact Option.noConfusion h
    | some L =>
      by_cases hv : ∀ x ∈ L, env.IsValid (env.fromString x) = true
      · have hloop := quorumLoop_of_valid env tok L hv (env.default, false)
          (env.default, false) (env.default, false)
        have hval : CheckSignatureQuorum env vchFluidScript false
            = (if (decide (env.toString (quorumOutcome env tok L 1 (env.default, false)).1
                      ≠ env.toString (quorumOutcome env tok L 2 (env.default, false)).1) &&
                  decide (env.toString (quorumOutcome env tok L 2 (env.default, false)).1
                      ≠ env.toString (quorumOutcome env tok L 3 (env.default, false)).1) &&
                  decide (env.toString (quorumOutcome env tok L 1 (env.default, false)).1
                      ≠ env.toString (quorumOutcome env tok L 3 (env.default, false)).1)) = true
                then (quorumOutcome env tok L 1 (env.default, false)).2 &&
                  (quorumOutcome env tok L 2 (env.default, false)).2 &&
                  (quorumOutcome env tok L 3 (env.default, false)).2
                else false) := by
          simp only [CheckSignatureQuorum, hL, htok, hloop, Bool.false_eq_true, if_false]
        rw [hval]
        constructor
        · intro h
          split_ifs at h with hf
          · simp only [Bool.and_eq_true] at h hf
            obtain ⟨⟨h₁, h₂⟩, h₃⟩ := h
            obtain ⟨a₁, hv₁, hm₁⟩ := (quorumOutcome_snd env tok L 1 env.default).mp h₁
            obtain ⟨a₂, hv₂, hm₂⟩ := (quorumOutcome_snd env tok L 2 env.default).mp h₂
            obtain ⟨a₃, hv₃, hm₃⟩ := (quorumOutcome_snd env tok L 3 env.default).mp h₃
            rw [quorumOutcome_fst env tok L 1 _ a₁ hv₁ hm₁,
              quorumOutcome_fst env tok L 2 _ a₂ hv₂ hm₂,
              quorumOutcome_fst env tok L 3 _ a₃ hv₃ hm₃,
              hround a₁ (hmemValid L a₁ hv hm₁), hround a₂ (hmemValid L a₂ hv hm₂),
              hround a₃ (hmemValid L a₃ hv hm₃)] at hf
            simp only [decide_eq_true_eq] at hf
            obtain ⟨⟨d₁₂, d₂₃⟩, d₁₃⟩ := hf
            exact ⟨L, a₁, a₂, a₃, rfl, hv, hv₁, hv₂, hv₃, hm₁, hm₂, hm₃,
              fun e => d₁₂ (by rw [e]), fun e => d₂₃ (by rw [e]), fun e => d₁₃ (by rw [e])⟩
        · rintro ⟨L', a₁, a₂, a₃, hL', _, hv₁, hv₂, hv₃, hm₁, hm₂, hm₃, d₁₂, d₂₃, d₁₃⟩
          have hLL : L' = L := (Option.some.inj hL').symm
          subst hLL
          have va₁ := hmemValid L' a₁ hv hm₁
          have va₂ := hmemValid L' a₂ hv hm₂
          have va₃ := hmemValid L' a₃ hv hm₃
          have s₁ := (quorumOutcome_snd env tok L' 1 env.default).mpr ⟨a₁, hv₁, hm₁⟩
          have s₂ := (quorumOutcome_snd env tok L' 2 env.default).mpr ⟨a₂, hv₂, hm₂⟩
          have s₃ := (quorumOutcome_snd env tok L' 3 env.default).mpr ⟨a₃, hv₃, hm₃⟩
          rw [quorumOutcome_fst env tok L' 1 _ a₁ hv₁ hm₁,
            quorumOutcome_fst env tok L' 2 _ a₂ hv₂ hm₂,
            quorumOutcome_fst env tok L' 3 _ a₃ hv₃ hm₃,
            hround a₁ va₁, hround a₂ va₂, hround a₃ va₃, s₁, s₂, s₃]
          have e₁₂ : env.toString a₁ ≠ env.toString a₂ := fun e => d₁₂ (hinj a₁ a₂ va₁ va₂ e)
          have e₂₃ : env.toString a₂ ≠ env.toString a₃ := fun e => d₂₃ (hinj a₂ a₃ va₂ va₃ e)
          have e₁₃ : env.toString a₁ ≠ env.toString a₃ := fun e => d₁₃ (hinj a₁ a₃ va₁ va₃ e)
          simp [e₁₂, e₂₃, e₁₃]
      · have hx : ∃ x ∈ L, env.IsValid (env.fromString x) = false := by
          by_contra hcon
          apply hv
          intro x hx
          cases hxv : env.IsValid (env.fromString x)
          · exact absurd ⟨x, hx, hxv⟩ hcon
          · rfl
        rw [hinvalid L hL hx]
        constructor
        · intro h; exact Bool.noConfusion h
        · rintro ⟨L', _, _, _, hL', hv', _⟩
          have hLL : L' = L := (Option.some.inj hL').symm
          subst hLL
          exact absurd hv' hv
  refine ⟨hiff, hnone, hinvalid, ?_, ?_⟩
  · rintro ⟨slot, hslot, hvn⟩
    cases hc : CheckSignatureQuorum env vchFluidScript false
    · rfl
    · obtain ⟨_, a₁, a₂, a₃, _, _, hv₁, hv₂, hv₃, _⟩ := hiff.mp hc
      simp only [List.mem_cons, List.mem_singleton, List.not_mem_nil, or_false] at hslot
      rcases hslot with rfl | rfl | rfl
      · rw [hv₁] at hvn; exact Option.noConfusion hvn
      · rw [hv₂] at hvn; exact Option.noConfusion hvn
      · rw [hv₃] at hvn; exact Option.noConfusion hvn
  · rintro ⟨i, hi, j, hj, hij, heq⟩
    cases hc : CheckSignatureQuorum env vchFluidScript false
    · rfl
    · obtain ⟨_, a₁, a₂, a₃, _, _, hv₁, hv₂, hv₃, _, _, _, d₁₂, d₂₃, d₁₃⟩ := hiff.mp hc
      simp only [List.mem_cons, List.mem_singleton, List.not_mem_nil, or_false] at hi hj
      rcases hi with rfl | rfl | rfl <;> rcases hj with rfl | rfl | rfl <;>
        first
          | exact absurd rfl hij
          | (rw [hv₁, hv₂] at heq; exact absurd (Option.some.inj heq) d₁₂)
          | (rw [hv₂, hv₁] at heq; exact absurd (Option.some.inj heq).symm d₁₂)
          | (rw [hv₂, hv₃] at heq; exact absurd (Option.some.inj heq) d₂₃)
          | (rw [hv₃, hv₂] at heq; exact absurd (Option.some.inj heq).symm d₂₃)
          | (rw [hv₁, hv₃] at heq; exact absurd (Option.some.inj heq) d₁₃)
          | (rw [hv₃, hv₁] at heq; exact absurd (Option.some.inj heq).symm d₁₃)

/-- Witness for C19: five sovereigns, the slots verify to the three different
sovereigns `S1`, `S2`, `S4`: the quorum check succeeds. -/
theorem C19_signature_quorum_witness :
    CheckSignatureQuorum FluidScenario.env [] false = true :=
  (C19_signature_quorum FluidScenario.env [] (fun _ _ => rfl)
    (fun _ _ _ _ e => e)).1.mpr
    ⟨["S1", "S2", "S3", "S4", "S5"], "S1", "S2", "S4", rfl, by decide, rfl, rfl, rfl,
      by decide, by decide, by decide, by decide, by decide, by decide⟩

/-! ### Serialization: round-trip lemmas -/

namespace SerLemmas

theorem Reads_eq {α : Type} {c : Codec α} {f : α → α} (h : c.Reads f) (x : α)
    (rest : List Nat) : c.des (c.ser x ++ rest) = some (f x, rest) := h x rest

theorem map_snd_id {K V : Type} (m : List (K × V)) :
    m.map (fun p => (p.1, id p.2)) = m := by
  induction m with
  | nil => rfl
  | cons p m ih => simp

theorem desMap_serMap {L : SerLib} (hL : L.Lawful) {K V : Type}
    (wk : StreamWriter K) (rk : StreamReader K) (wv : StreamWriter V) (rv : StreamReader V)
    (f : V → V) (hk : ({ ser := wk, des := rk } : Codec K).Reads id)
    (hv : ({ ser := wv, des := rv } : Codec V).Reads f) (m : List (K × V))
    (rest : List Nat) :
    L.desMap rk rv (L.serMap wk wv m ++ rest) = some (m.map (fun p => (p.1, f p.2)), rest) :=
  hL.map { ser := wk, des := rk } { ser := wv, des := rv } f hk hv m rest

theorem desMap_serMap_id {L : SerLib} (hL : L.Lawful) {K V : Type}
    (wk : StreamWriter K) (rk : StreamReader K) (wv : StreamWriter V) (rv : StreamReader V)
    (hk : ({ ser := wk, des := rk } : Codec K).Reads id)
    (hv : ({ ser := wv, des := rv } : Codec V).Reads id) (m : List (K × V))
    (rest : List Nat) :
    L.desMap rk rv (L.serMap wk wv m ++ rest) = some (m, rest) := by
  rw [desMap_serMap hL wk rk wv rv id hk hv, map_snd_id]

theorem vote_reads {L : SerLib} (hL : L.Lawful) (nType : Nat) (now : Int)
    (h : nType &&& L.SER_GETHASH = 0) :
    (CTxLockVote.codec L nType now).Reads (CTxLockVote.received now) := by
  intro v rest
  simp only [CTxLockVote.codec, CTxLockVote.Serialize, CTxLockVote.Unserialize, h, if_true,
    List.append_assoc, Reads_eq hL.hash256, Reads_eq hL.outpoint, Reads_eq hL.bytes, id,
    CTxLockVote.received]

theorem request_reads {L : SerLib} (hL : L.Lawful) : (CTxLockRequest.codec L).Reads id := by
  intro r rest
  simp only [CTxLockRequest.codec, Reads_eq hL.tx, id]

theorem lock_reads {L : SerLib} (hL : L.Lawful) (nType : Nat) (now : Int)
    (h : nType &&& L.SER_GETHASH = 0) :
    (COutPointLock.codec L nType now).Reads (COutPointLock.reloaded now) := by
  intro l rest
  simp only [COutPointLock.codec, COutPointLock.Serialize, COutPointLock.Unserialize,
    List.append_assoc, Reads_eq hL.outpoint, id]
  rw [desMap_serMap hL L.outpoint.ser L.outpoint.des (CTxLockVote.Serialize L nType)
    (CTxLockVote.Unserialize L nType now) (CTxLockVote.received now) hL.outpoint
    (vote_reads hL nType now h)]
  simp only [Reads_eq hL.bool, id, COutPointLock.reloaded]

theorem candidate_reads {L : SerLib} (hL : L.Lawful) (nType : Nat) (now : Int)
    (h : nType &&& L.SER_GETHASH = 0) :
    (CTxLockCandidate.codec L nType now).Reads (CTxLockCandidate.reloaded now) := by
  intro c rest
  simp only [CTxLockCandidate.codec, CTxLockCandidate.Serialize, CTxLockCandidate.Unserialize,
    List.append_assoc, Reads_eq (request_reads hL), id]
  rw [desMap_serMap hL L.outpoint.ser L.outpoint.des (COutPointLock.Serialize L nType)
    (COutPointLock.Unserialize L nType now) (COutPointLock.reloaded now) hL.outpoint
    (lock_reads hL nType now h)]
  simp only [Reads_eq hL.int64, Reads_eq hL.int32, id, CTxLockCandidate.reloaded]

theorem readMembers_writeMembers {L : SerLib} (hL : L.Lawful) (nType : Nat) (now : Int)
    (h : nType &&& L.SER_GETHASH = 0) (strVersion : String) (s : CInstantSend)
    (rest : List Nat) :
    CInstantSend.readMembers L nType now
        (L.stdString.ser strVersion ++ (CInstantSend.writeMembers L nType s ++ rest))
      = some ((strVersion, CInstantSend.reloaded now s), rest) := by
  simp only [CInstantSend.readMembers, CInstantSend.writeMembers, List.append_assoc,
    Reads_eq hL.stdString, id]
  rw [desMap_serMap_id hL L.hash256.ser L.hash256.des (CTxLockRequest.codec L).ser
    (CTxLockRequest.codec L).des hL.hash256 (request_reads hL)]
  simp only []
  rw [desMap_serMap_id hL L.hash256.ser L.hash256.des (CTxLockRequest.codec L).ser
    (CTxLockRequest.codec L).des hL.hash256 (request_reads hL)]
  simp only []
  rw [desMap_serMap hL L.hash256.ser L.hash256.des (CTxLockVote.Serialize L nType)
    (CTxLockVote.Unserialize L nType now) (CTxLockVote.received now) hL.hash256
    (vote_reads hL nType now h)]
  simp only []
  rw [desMap_serMap hL L.hash256.ser L.hash256.des (CTxLockVote.Serialize L nType)
    (CTxLockVote.Unserialize L nType now) (CTxLockVote.received now) hL.hash256
    (vote_reads hL nType now h)]
  simp only []
  rw [desMap_serMap hL L.hash256.ser L.hash256.des (CTxLockCandidate.Serialize L nType)
    (CTxLockCandidate.Unserialize L nType now) (CTxLockCandidate.reloaded now) hL.hash256
    (candidate_reads hL nType now h)]
  simp only []
  rw [desMap_serMap_id hL L.outpoint.ser L.outpoint.des (L.serSet L.hash256.ser)
    (L.desSet L.hash256.des) hL.outpoint (hL.set L.hash256 hL.hash256)]
  simp only []
  rw [desMap_serMap_id hL L.outpoint.ser L.outpoint.des L.hash256.ser L.hash256.des
    hL.outpoint hL.hash256]
  simp only []
  rw [desMap_serMap_id hL L.outpoint.ser L.outpoint.des L.int64.ser L.int64.des
    hL.outpoint hL.int64]
  simp only [Reads_eq hL.int32, id, CInstantSend.reloaded]

theorem Unserialize_Serialize {L : SerLib} (hL : L.Lawful) (version : String) (nType : Nat)
    (now : Int) (h : nType &&& L.SER_GETHASH = 0) (s : CInstantSend) (rest : List Nat) :
    CInstantSend.Unserialize L version nType now
        (CInstantSend.Serialize L version nType s ++ rest)
      = some (CInstantSend.reloaded now s, rest) := by
  simp only [CInstantSend.Unserialize, CInstantSend.Serialize, List.append_assoc,
    readMembers_writeMembers hL nType now h, ne_eq, not_true_eq_false, if_false]

end SerLemmas

/-! ### The library of `SerScenario` obeys the round-trip laws -/

namespace SerLemmas

open SerScenario

theorem desList_serList {α : Type} (w : StreamWriter α) (r : StreamReader α) (f : α → α)
    (h : ({ ser := w, des := r } : Codec α).Reads f) (xs : List α) (rest : List Nat) :
    desList r xs.length (serList w xs ++ rest) = some (xs.map f, rest) := by
  induction xs with
  | nil => rfl
  | cons x xs ih =>
    have hx : r (w x ++ (serList w xs ++ rest)) = some (f x, serList w xs ++ rest) :=
      h x (serList w xs ++ rest)
    simp only [List.length_cons, serList, desList, List.append_assoc, hx, ih, List.map_cons]

theorem vector_reads {α : Type} (w : StreamWriter α) (r : StreamReader α) (f : α → α)
    (h : ({ ser := w, des := r } : Codec α).Reads f) :
    ({ ser := serVector w, des := desVector r } : Codec (List α)).Reads (List.map f) := by
  intro xs rest
  simp only [serVector, desVector, List.cons_append, desList_serList w r f h]

theorem desVector_serVector {α : Type} (w : StreamWriter α) (r : StreamReader α)
    (h : ({ ser := w, des := r } : Codec α).Reads id) (xs : List α) (rest : List Nat) :
    desVector r (serVector w xs ++ rest) = some (xs, rest) := by
  have h' := vector_reads w r id h xs rest
  rw [List.map_id] at h'
  exact h'

theorem pair_reads {K V : Type} (ck : Codec K) (cv : Codec V) (f : V → V)
    (hk : ck.Reads id) (hv : cv.Reads f) :
    ({ ser := serPair ck.ser cv.ser, des := desPair ck.des cv.des } : Codec (K × V)).Reads
      (fun p => (p.1, f p.2)) := by
  intro p rest
  simp only [serPair, desPair, List.append_assoc, Reads_eq hk, Reads_eq hv, id]

theorem token_reads : token.Reads id := fun _ _ => rfl

theorem outpoint_reads : SerScenario.outpoint.Reads id := fun _ _ => rfl

theorem int_reads : SerScenario.int.Reads id := by
  intro i rest
  by_cases hi : i < 0
  · simp only [SerScenario.int, hi, if_true, List.cons_append, List.nil_append, id]
    rw [Int.ofNat_natAbs_of_nonpos (le_of_lt hi), neg_neg]
  · have hne : ¬ ((0 : Nat) = 1) := by decide
    simp only [SerScenario.int, hi, if_false, List.cons_append, List.nil_append, id, hne]
    rw [Int.natAbs_of_nonneg (not_lt.mp hi)]

theorem lib_lawful : SerScenario.lib.Lawful where
  hash256 := token_reads
  outpoint := outpoint_reads
  bytes := by
    intro xs rest
    exact desVector_serVector token.ser token.des token_reads xs rest
  bool := by
    intro b rest
    cases b <;> rfl
  int32 := int_reads
  int64 := int_reads
  stdString := by
    intro str rest
    have h := desVector_serVector token.ser token.des token_reads
      (str.toList.map Char.toNat) rest
    have hc : (str.toList.map Char.toNat).map Char.ofNat = str.toList := by
      rw [List.map_map]
      have : (Char.ofNat ∘ Char.toNat) = id := by
        funext c
        exact Char.ofNat_toNat c
      rw [this, List.map_id]
    show (match desVector token.des
        (serVector token.ser (str.toList.map Char.toNat) ++ rest) with
      | none => none
      | some (xs, s) => some (String.mk (xs.map Char.ofNat), s)) = some (id str, rest)
    rw [h]
    simp only [hc, id]
    rfl
  tx := by
    intro t rest
    have h := desVector_serVector SerScenario.outpoint.ser SerScenario.outpoint.des
      outpoint_reads t.vin rest
    show (match desVector SerScenario.outpoint.des
        (serVector SerScenario.outpoint.ser t.vin ++ rest) with
      | none => none
      | some (vin, s) => some (({ hash := t.hash, vin := vin } : CTransaction), s))
      = some (id t, rest)
    rw [h]
    rfl
  map := by
    intro K V ck cv f hk hv
    exact vector_reads (serPair ck.ser cv.ser) (desPair ck.des cv.des) _
      (pair_reads ck cv f hk hv)
  set := by
    intro K ck hk xs rest
    exact desVector_serVector ck.ser ck.des hk xs rest

end SerLemmas

/-! ### C11 – C13: serialization -/

/-- C11: the identity of a lock vote excludes its signature.  For two lock votes
with the same transaction hash, locked outpoint and masternode outpoint, the
serialization to a stream whose type has `SER_GETHASH` is the same list of
bytes, whatever the signatures, confirmation heights and creation times are;
and the serialization of a vote to a stream whose type lacks `SER_GETHASH`
(network, disk) is its hash-mode serialization followed by the serialized
signature. -/
theorem C11_vote_identity_excludes_signature (L : SerLib) (nTypeHash nTypeNet : Nat)
    (v w : CTxLockVote)
    (hhash : nTypeHash &&& L.SER_GETHASH ≠ 0) (hnet : nTypeNet &&& L.SER_GETHASH = 0)
    (htx : v.txHash = w.txHash) (hout : v.outpoint = w.outpoint)
    (hmn : v.outpointMasternode = w.outpointMasternode) :
    CTxLockVote.Serialize L nTypeHash v = CTxLockVote.Serialize L nTypeHash w ∧
    CTxLockVote.Serialize L nTypeNet v
      = CTxLockVote.Serialize L nTypeHash v ++ L.bytes.ser v.vchMasternodeSignature ∧
    CTxLockVote.Serialize L nTypeNet w
      = CTxLockVote.Serialize L nTypeHash w ++ L.bytes.ser w.vchMasternodeSignature := by
  simp only [CTxLockVote.Serialize, hhash, hnet, if_true, if_false, htx, hout, hmn,
    List.append_nil, List.append_assoc, and_self]

/-- C11, at the votes `vote` and `voteResigned` of `SerScenario`, which differ
in signature, confirmation height and creation time: the hash-mode bytes agree,
the network-mode bytes are the hash-mode bytes and the signature, and differ. -/
theorem C11_vote_identity_excludes_signature_witness :
    (SerScenario.SER_GETHASH &&& SerScenario.lib.SER_GETHASH ≠ 0 ∧
      1 &&& SerScenario.lib.SER_GETHASH = 0 ∧
      SerScenario.vote.vchMasternodeSignature ≠ SerScenario.voteResigned.vchMasternodeSignature ∧
      SerScenario.vote.nConfirmedHeight ≠ SerScenario.voteResigned.nConfirmedHeight ∧
      SerScenario.vote.nTimeCreated ≠ SerScenario.voteResigned.nTimeCreated) ∧
    (CTxLockVote.Serialize SerScenario.lib SerScenario.SER_GETHASH SerScenario.vote
        = CTxLockVote.Serialize SerScenario.lib SerScenario.SER_GETHASH SerScenario.voteResigned ∧
      CTxLockVote.Serialize SerScenario.lib 1 SerScenario.vote
        = CTxLockVote.Serialize SerScenario.lib SerScenario.SER_GETHASH SerScenario.vote
            ++ SerScenario.lib.bytes.ser SerScenario.vote.vchMasternodeSignature ∧
      CTxLockVote.Serialize SerScenario.lib 1 SerScenario.voteResigned
        = CTxLockVote.Serialize SerScenario.lib SerScenario.SER_GETHASH SerScenario.voteResigned
            ++ SerScenario.lib.bytes.ser SerScenario.voteResigned.vchMasternodeSignature) ∧
    CTxLockVote.Serialize SerScenario.lib SerScenario.SER_GETHASH SerScenario.vote
      = [7, 1, 0, 50, 1] ∧
    CTxLockVote.Serialize SerScenario.lib 1 SerScenario.vote = [7, 1, 0, 50, 1, 2, 9, 9] ∧
    CTxLockVote.Serialize SerScenario.lib 1 SerScenario.voteResigned
      = [7, 1, 0, 50, 1, 3, 4, 5, 6] :=
  ⟨by decide,
   C11_vote_identity_excludes_signature SerScenario.lib SerScenario.SER_GETHASH 1
     SerScenario.vote SerScenario.voteResigned (by decide) (by decide) rfl rfl rfl,
   by decide, by decide, by decide⟩

/-- C12: when the members of a `CInstantSend` are read from a stream, the
version string read first is compared with `SERIALIZATION_VERSION_STRING` after
all members have been read.  If it differs, the result is the cleared state,
all eight tables of which are empty; if it is equal, `Clear` is not applied and
the result is exactly the state read from the stream. -/
theorem C12_version_mismatch_clears (L : SerLib) (version : String) (nType : Nat) (now : Int)
    (bytes : List Nat) (strVersion : String) (st : CInstantSend) (rest : List Nat)
    (hread : CInstantSend.readMembers L nType now bytes = some ((strVersion, st), rest)) :
    (∃ r, L.stdString.des bytes = some (strVersion, r)) ∧
    (strVersion ≠ version →
      CInstantSend.Unserialize L version nType now bytes
        = some (CInstantSend.Clear st, rest) ∧
      (CInstantSend.Clear st).mapLockRequestAccepted = [] ∧
      (CInstantSend.Clear st).mapLockRequestRejected = [] ∧
      (CInstantSend.Clear st).mapTxLockVotes = [] ∧
      (CInstantSend.Clear st).mapTxLockVotesOrphan = [] ∧
      (CInstantSend.Clear st).mapTxLockCandidates = [] ∧
      (CInstantSend.Clear st).mapVotedOutpoints = [] ∧
      (CInstantSend.Clear st).mapLockedOutpoints = [] ∧
      (CInstantSend.Clear st).mapMasternodeOrphanVotes = []) ∧
    (strVersion = version →
      CInstantSend.Unserialize L version nType now bytes = some (st, rest)) := by
  refine ⟨?_, ?_, ?_⟩
  · unfold CInstantSend.readMembers at hread
    cases hv : L.stdString.des bytes with
    | none => simp only [hv] at hread; exact Option.noConfusion hread
    | some p =>
      obtain ⟨ver, r⟩ := p
      refine ⟨r, ?_⟩
      simp only [hv] at hread
      have : ver = strVersion := by
        revert hread
        repeat' split
        all_goals intro hread
        all_goals first
          | exact Option.noConfusion hread
          | (simp only [Option.some.injEq, Prod.mk.injEq] at hread; exact hread.1.1)
      rw [this]
  · intro hne
    refine ⟨?_, rfl, rfl, rfl, rfl, rfl, rfl, rfl, rfl⟩
    simp only [CInstantSend.Unserialize, hread, hne, ne_eq, not_false_eq_true, if_true]
  · intro heq
    simp only [CInstantSend.Unserialize, hread, heq, ne_eq, not_true_eq_false, if_false]

/-- C12, for the state file of `SerScenario.state` written under the version
string "Old" and read by a node whose version string is `SerScenario.version`:
the tables are read, and the result is the empty state. -/
theorem C12_version_mismatch_clears_witness :
    CInstantSend.readMembers SerScenario.lib SerScenario.SER_DISK 200
        (CInstantSend.Serialize SerScenario.lib "Old" SerScenario.SER_DISK SerScenario.state)
      = some (("Old", CInstantSend.reloaded 200 SerScenario.state), []) ∧
    "Old" ≠ SerScenario.version ∧
    CInstantSend.Unserialize SerScenario.lib SerScenario.version SerScenario.SER_DISK 200
        (CInstantSend.Serialize SerScenario.lib "Old" SerScenario.SER_DISK SerScenario.state)
      = some (CInstantSend.init, []) :=
  ⟨by rfl, by decide,
   ((C12_version_mismatch_clears SerScenario.lib SerScenario.version SerScenario.SER_DISK 200
      (CInstantSend.Serialize SerScenario.lib "Old" SerScenario.SER_DISK SerScenario.state)
      "Old" (CInstantSend.reloaded 200 SerScenario.state) [] (by rfl)).2.1 (by decide)).1⟩

/-- C13 as stated fails: the state `SerScenario.state` holds a vote whose
transaction was confirmed at height 118; written to the state file and read
back in the same second, the votes table holds the vote with confirmation
height -1, so it is not the table that was written. -/
theorem C13_round_trip_same_tables_counterexample :
    Option.map (fun r => r.1.mapTxLockVotes)
        (CInstantSend.Unserialize SerScenario.lib SerScenario.version SerScenario.SER_DISK 100
          (CInstantSend.Serialize SerScenario.lib SerScenario.version SerScenario.SER_DISK
            SerScenario.state))
      = some [(70, { SerScenario.vote with nConfirmedHeight := -1 })] ∧
    Option.map (fun r => r.1.mapTxLockVotes)
        (CInstantSend.Unserialize SerScenario.lib SerScenario.version SerScenario.SER_DISK 100
          (CInstantSend.Serialize SerScenario.lib SerScenario.version SerScenario.SER_DISK
            SerScenario.state))
      ≠ some SerScenario.state.mapTxLockVotes := by
  constructor
  · rfl
  · decide

/-- C13, amended: for a serialization library that obeys the round-trip laws
and a stream type without `SER_GETHASH`, serializing a `CInstantSend` state and
deserializing the result succeeds and yields the state with the same accepted
requests, rejected requests, voted outpoints, locked outpoints, masternode
orphan-vote times and cached block height; the votes, the orphan votes and the
lock candidates are the same except that in every lock vote (in the two vote
tables and inside the outpoint locks of the candidates) the two local-only
fields are reset: `nConfirmedHeight` to -1 and `nTimeCreated` to the time of
deserialization.  The candidates keep their own creation time and confirmation
height, every outpoint lock keeps its outpoint and attacked flag, every vote
its transaction hash, outpoints and signature.  The serialized form begins with
`SERIALIZATION_VERSION_STRING`. -/
theorem C13_round_trip_up_to_vote_local_fields (L : SerLib) (hL : L.Lawful)
    (version : String) (nType : Nat) (now : Int) (s : CInstantSend) (rest : List Nat)
    (hdisk : nType &&& L.SER_GETHASH = 0) :
    (∃ st, CInstantSend.Unserialize L version nType now
          (CInstantSend.Serialize L version nType s ++ rest) = some (st, rest) ∧
      st.mapLockRequestAccepted = s.mapLockRequestAccepted ∧
      st.mapLockRequestRejected = s.mapLockRequestRejected ∧
      st.mapVotedOutpoints = s.mapVotedOutpoints ∧
      st.mapLockedOutpoints = s.mapLockedOutpoints ∧
      st.mapMasternodeOrphanVotes = s.mapMasternodeOrphanVotes ∧
      st.nCachedBlockHeight = s.nCachedBlockHeight ∧
      st.mapTxLockVotes = s.mapTxLockVotes.map
        (fun p => (p.1, { p.2 with nConfirmedHeight := -1, nTimeCreated := now })) ∧
      st.mapTxLockVotesOrphan = s.mapTxLockVotesOrphan.map
        (fun p => (p.1, { p.2 with nConfirmedHeight := -1, nTimeCreated := now })) ∧
      st.mapTxLockCandidates = s.mapTxLockCandidates.map
        (fun c => (c.1, { c.2 with
          mapOutPointLocks := c.2.mapOutPointLocks.map
            (fun l => (l.1, { l.2 with
              mapMasternodeVotes := l.2.mapMasternodeVotes.map
                (fun p => (p.1,
                  { p.2 with nConfirmedHeight := -1, nTimeCreated := now })) })) }))) ∧
    (∃ tail, CInstantSend.Serialize L version nType s = L.stdString.ser version ++ tail ∧
      L.stdString.des (CInstantSend.Serialize L version nType s ++ rest)
        = some (version, tail ++ rest)) := by
  refine ⟨⟨CInstantSend.reloaded now s,
    SerLemmas.Unserialize_Serialize hL version nType now hdisk s rest,
    rfl, rfl, rfl, rfl, rfl, rfl, rfl, rfl, rfl⟩, ?_⟩
  refine ⟨CInstantSend.writeMembers L nType s, rfl, ?_⟩
  simp only [CInstantSend.Serialize, List.append_assoc, SerLemmas.Reads_eq hL.stdString, id]

/-- C13, amended, at `SerScenario.state`, written to the state file and read
back at time 250 with the library of `SerScenario`, which obeys the laws. -/
theorem C13_round_trip_up_to_vote_local_fields_witness :
    (SerScenario.lib.Lawful ∧ SerScenario.SER_DISK &&& SerScenario.lib.SER_GETHASH = 0) ∧
    (∃ st, CInstantSend.Unserialize SerScenario.lib SerScenario.version SerScenario.SER_DISK 250
          (CInstantSend.Serialize SerScenario.lib SerScenario.version SerScenario.SER_DISK
            SerScenario.state ++ []) = some (st, []) ∧
      st.mapLockRequestAccepted = SerScenario.state.mapLockRequestAccepted ∧
      st.mapLockRequestRejected = SerScenario.state.mapLockRequestRejected ∧
      st.mapVotedOutpoints = SerScenario.state.mapVotedOutpoints ∧
      st.mapLockedOutpoints = SerScenario.state.mapLockedOutpoints ∧
      st.mapMasternodeOrphanVotes = SerScenario.state.mapMasternodeOrphanVotes ∧
      st.nCachedBlockHeight = SerScenario.state.nCachedBlockHeight ∧
      st.mapTxLockVotes = SerScenario.state.mapTxLockVotes.map
        (fun p => (p.1, { p.2 with nConfirmedHeight := -1, nTimeCreated := 250 })) ∧
      st.mapTxLockVotesOrphan = SerScenario.state.mapTxLockVotesOrphan.map
        (fun p => (p.1, { p.2 with nConfirmedHeight := -1, nTimeCreated := 250 })) ∧
      st.mapTxLockCandidates = SerScenario.state.mapTxLockCandidates.map
        (fun c => (c.1, { c.2 with
          mapOutPointLocks := c.2.mapOutPointLocks.map
            (fun l => (l.1, { l.2 with
              mapMasternodeVotes := l.2.mapMasternodeVotes.map
                (fun p => (p.1,
                  { p.2 with nConfirmedHeight := -1, nTimeCreated := 250 })) })) }))) ∧
    (∃ tail, CInstantSend.Serialize SerScenario.lib SerScenario.version SerScenario.SER_DISK
          SerScenario.state = SerScenario.lib.stdString.ser SerScenario.version ++ tail ∧
      SerScenario.lib.stdString.des
          (CInstantSend.Serialize SerScenario.lib SerScenario.version SerScenario.SER_DISK
            SerScenario.state ++ [])
        = some (SerScenario.version, tail ++ [])) :=
  ⟨⟨SerLemmas.lib_lawful, by decide⟩,
   C13_round_trip_up_to_vote_local_fields SerScenario.lib SerLemmas.lib_lawful
     SerScenario.version SerScenario.SER_DISK 250 SerScenario.state [] (by decide)⟩

/-! ### C21, C26, C30: payee selection and payee output -/

section PayeeLemmas

theorem foldl_max_lt (l : List CStormnodePayee) (n R : Int) :
    l.foldl (fun (n : Int) payee => if payee.GetVoteCount ≥ n then payee.GetVoteCount else n) n < R
      ↔ n < R ∧ ∀ p ∈ l, p.GetVoteCount < R := by
  induction l generalizing n with
  | nil => simp
  | cons p rest ih =>
    rw [List.foldl_cons, ih]
    by_cases h : p.GetVoteCount ≥ n
    · simp only [h, if_true, List.mem_cons, forall_eq_or_imp]
      constructor
      · rintro ⟨h₁, h₂⟩
        exact ⟨lt_of_le_of_lt h h₁, h₁, h₂⟩
      · rintro ⟨_, h₁, h₂⟩
        exact ⟨h₁, h₂⟩
    · simp only [h, if_false, List.mem_cons, forall_eq_or_imp]
      constructor
      · rintro ⟨h₁, h₂⟩
        exact ⟨h₁, lt_trans (lt_of_not_ge h) h₁, h₂⟩
      · rintro ⟨h₁, _, h₂⟩
        exact ⟨h₁, h₂⟩

/-- What the loop of `GetBestPayee` has found after a list of payees, started
with `acc`: either nothing above the start, or the earliest payee with the
highest vote count. -/
theorem bestPayee_loop (l : List CStormnodePayee) (acc : CScript × Int) :
    let r := l.foldl
      (fun (acc : CScript × Int) payee =>
        if payee.GetVoteCount > acc.2 then (payee.GetPayee, payee.GetVoteCount) else acc) acc
    (r = acc ∧ ∀ p ∈ l, p.GetVoteCount ≤ acc.2) ∨
    (∃ (i : Nat) (best : CStormnodePayee), l[i]? = some best ∧
      r = (best.GetPayee, best.GetVoteCount) ∧ acc.2 < best.GetVoteCount ∧
      (∀ p ∈ l, p.GetVoteCount ≤ best.GetVoteCount) ∧
      (∀ (j : Nat) (q : CStormnodePayee), j < i → l[j]? = some q →
        q.GetVoteCount < best.GetVoteCount)) := by
  induction l using List.reverseRecOn with
  | nil => left; simp
  | append_singleton l x ih =>
    simp only [List.foldl_append, List.foldl_cons, List.foldl_nil]
    simp only at ih
    rcases ih with ⟨hr, hall⟩ | ⟨i, best, hi, hr, hlt, hall, hbefore⟩
    · rw [hr]
      by_cases hx : x.GetVoteCount > acc.2
      · right
        refine ⟨l.length, x, by simp, by simp [hx], hx, ?_, ?_⟩
        · intro p hp
          rcases List.mem_append.mp hp with hp | hp
          · exact le_trans (hall p hp) (le_of_lt hx)
          · simp only [List.mem_singleton] at hp
            rw [hp]
        · intro j q hj hq
          rw [List.getElem?_append_left hj] at hq
          exact lt_of_le_of_lt (hall q (List.getElem?_mem hq)) hx
      · left
        refine ⟨by simp [hx], ?_⟩
        intro p hp
        rcases List.mem_append.mp hp with hp | hp
        · exact hall p hp
        · simp only [List.mem_singleton] at hp
          rw [hp]
          exact not_lt.mp hx
    · rw [hr]
      have hil : i < l.length := by
        by_contra hcon
        rw [List.getElem?_eq_none (not_lt.mp hcon)] at hi
        exact Option.noConfusion hi
      by_cases hx : x.GetVoteCount > best.GetVoteCount
      · right
        refine ⟨l.length, x, by simp, by simp [hx], lt_trans hlt hx, ?_, ?_⟩
        · intro p hp
          rcases List.mem_append.mp hp with hp | hp
          · exact le_trans (hall p hp) (le_of_lt hx)
          · simp only [List.mem_singleton] at hp
            rw [hp]
        · intro j q hj hq
          rw [List.getElem?_append_left hj] at hq
          exact lt_of_le_of_lt (hall q (List.getElem?_mem hq)) hx
      · right
        refine ⟨i, best, ?_, by simp [hx], hlt, ?_, ?_⟩
        · rw [List.getElem?_append_left hil]
          exact hi
        · intro p hp
          rcases List.mem_append.mp hp with hp | hp
          · exact hall p hp
          · simp only [List.mem_singleton] at hp
            rw [hp]
            exact not_lt.mp hx
        · intro j q hj hq
          rw [List.getElem?_append_left (lt_trans hj hil)] at hq
          exact hbefore j q hj hq

end PayeeLemmas

/-- C30. `GetBestPayee` returns false exactly when the payee list is empty, and
then leaves `payeeRet` as it was; otherwise it returns true and `payeeRet` is the
script of a payee whose vote count is the highest of the list, and every payee
before it in the list (added earlier) has strictly fewer votes.  `GetBlockPayee`
hands the answer on for a height with a payee record and returns false, leaving
the payee untouched, for a height without one. -/
theorem C30_GetBestPayee (b : CStormnodeBlockPayees) (payeeRet : CScript)
    (s : CStormnodePayments) (nBlockHeight : Int) :
    ((b.GetBestPayee payeeRet).1 = false ↔ b.vecPayees = []) ∧
    (b.vecPayees = [] → b.GetBestPayee payeeRet = (false, payeeRet)) ∧
    (b.vecPayees ≠ [] →
      ∃ (i : Nat) (best : CStormnodePayee), b.vecPayees[i]? = some best ∧
        b.GetBestPayee payeeRet = (true, best.GetPayee) ∧
        (∀ p ∈ b.vecPayees, p.GetVoteCount ≤ best.GetVoteCount) ∧
        (∀ (j : Nat) (q : CStormnodePayee), j < i → b.vecPayees[j]? = some q →
          q.GetVoteCount < best.GetVoteCount)) ∧
    (mapFind s.mapStormnodeBlocks nBlockHeight = some b →
      s.GetBlockPayee nBlockHeight payeeRet = b.GetBestPayee payeeRet) ∧
    (mapFind s.mapStormnodeBlocks nBlockHeight = none →
      s.GetBlockPayee nBlockHeight payeeRet = (false, payeeRet)) := by
  have hne : b.vecPayees ≠ [] →
      ∃ (i : Nat) (best : CStormnodePayee), b.vecPayees[i]? = some best ∧
        b.GetBestPayee payeeRet = (true, best.GetPayee) ∧
        (∀ p ∈ b.vecPayees, p.GetVoteCount ≤ best.GetVoteCount) ∧
        (∀ (j : Nat) (q : CStormnodePayee), j < i → b.vecPayees[j]? = some q →
          q.GetVoteCount < best.GetVoteCount) := by
    intro hne
    have hlen : ¬ b.vecPayees.length = 0 := fun h => hne (List.length_eq_zero.mp h)
    have hloop := bestPayee_loop b.vecPayees (payeeRet, -1)
    simp only at hloop
    rcases hloop with ⟨_, hall⟩ | ⟨i, best, hi, hr, hlt, hall, hbefore⟩
    · exfalso
      cases hv : b.vecPayees with
      | nil => exact hne hv
      | cons p rest =>
        have := hall p (by rw [hv]; exact List.mem_cons_self p rest)
        have hnonneg : (0 : Int) ≤ p.GetVoteCount := by
          unfold CStormnodePayee.GetVoteCount
          exact Int.natCast_nonneg _
        omega
    · refine ⟨i, best, hi, ?_, hall, hbefore⟩
      unfold CStormnodeBlockPayees.GetBestPayee
      simp only [hlen, if_false, hr]
      simp [hlt]
  refine ⟨?_, ?_, hne, ?_, ?_⟩
  · constructor
    · intro hfalse
      by_contra hcon
      obtain ⟨i, best, _, hr, _⟩ := hne hcon
      rw [hr] at hfalse
      exact Bool.noConfusion hfalse
    · intro hnil
      simp [CStormnodeBlockPayees.GetBestPayee, hnil]
  · intro hnil
    simp [CStormnodeBlockPayees.GetBestPayee, hnil]
  · intro hf
    simp [CStormnodePayments.GetBlockPayee, hf]
  · intro hf
    simp [CStormnodePayments.GetBlockPayee, hf]

/-- C21. With a positive `SNPAYMENTS_SIGNATURES_REQUIRED`,
`CStormnodeBlockPayees::IsTransactionValid` returns true when no payee of the
block has that many votes; when some payee has, it returns true exactly when some
output of `txNew` carries the script of a payee with at least that many votes
and the value `GetStormnodePayment(nBlockHeight, txNew.GetValueOut())`.
`CStormnodePayments::IsTransactionValid` returns true for every transaction at a
height without payee record and asks the record otherwise. -/
theorem C21_IsTransactionValid (env : PayEnv) (penv : PayoutEnv)
    (b : CStormnodeBlockPayees) (txNew : CTransaction) (s : CStormnodePayments)
    (nBlockHeight : Int) (hreq : 0 < env.SNPAYMENTS_SIGNATURES_REQUIRED) :
    ((∀ p ∈ b.vecPayees, p.GetVoteCount < env.SNPAYMENTS_SIGNATURES_REQUIRED) →
      b.IsTransactionValid env penv txNew = true) ∧
    ((∃ p ∈ b.vecPayees, p.GetVoteCount ≥ env.SNPAYMENTS_SIGNATURES_REQUIRED) →
      (b.IsTransactionValid env penv txNew = true ↔
        ∃ p ∈ b.vecPayees, ∃ txout ∈ penv.vout txNew,
          p.GetVoteCount ≥ env.SNPAYMENTS_SIGNATURES_REQUIRED ∧
          txout.scriptPubKey = p.GetPayee ∧
          txout.nValue = penv.GetStormnodePayment b.nBlockHeight (penv.GetValueOut txNew))) ∧
    (mapFind s.mapStormnodeBlocks nBlockHeight = none →
      s.IsTransactionValid env penv txNew nBlockHeight = true) ∧
    (mapFind s.mapStormnodeBlocks nBlockHeight = some b →
      s.IsTransactionValid env penv txNew nBlockHeight
        = b.IsTransactionValid env penv txNew) := by
  refine ⟨?_, ?_, ?_, ?_⟩
  · intro hall
    have hlt := (foldl_max_lt b.vecPayees 0 env.SNPAYMENTS_SIGNATURES_REQUIRED).mpr ⟨hreq, hall⟩
    simp only [CStormnodeBlockPayees.IsTransactionValid, hlt, if_true]
  · rintro ⟨p, hp, hcount⟩
    have hnlt : ¬ b.vecPayees.foldl
        (fun (n : Int) payee => if payee.GetVoteCount ≥ n then payee.GetVoteCount else n) 0
          < env.SNPAYMENTS_SIGNATURES_REQUIRED := by
      intro hlt
      have := ((foldl_max_lt b.vecPayees 0 env.SNPAYMENTS_SIGNATURES_REQUIRED).mp hlt).2 p hp
      omega
    simp only [CStormnodeBlockPayees.IsTransactionValid, hnlt, if_false, List.any_eq_true,
      Bool.and_eq_true, decide_eq_true_eq]
    constructor
    · rintro ⟨q, hq, hqc, txout, ht, hscript, hval⟩
      exact ⟨q, hq, txout, ht, hqc, hscript.symm, hval.symm⟩
    · rintro ⟨q, hq, txout, ht, hqc, hscript, hval⟩
      exact ⟨q, hq, hqc, txout, ht, hscript.symm, hval.symm⟩
  · intro hf
    simp only [CStormnodePayments.IsTransactionValid, hf]
  · intro hf
    simp only [CStormnodePayments.IsTransactionValid, hf]

/-- C21 at the payees of block 10005 of `PaymentScenario` with 6 required votes:
the transaction with hash 1 pays 100, the payment for its value-out 200, to the
script `[1, 2, 3]`, which has 6 votes, and is valid. -/
theorem C21_IsTransactionValid_witness :
    (0 : Int) < PaymentScenario.env.SNPAYMENTS_SIGNATURES_REQUIRED ∧
    PaymentScenario.payees.IsTransactionValid PaymentScenario.env PaymentScenario.payout
      { hash := 1, vin := [] } = true ∧
    PaymentScenario.stateWithPayees.IsTransactionValid PaymentScenario.env
      PaymentScenario.payout { hash := 1, vin := [] } 10006 = true :=
  have h := C21_IsTransactionValid PaymentScenario.env PaymentScenario.payout
    PaymentScenario.payees { hash := 1, vin := [] } PaymentScenario.stateWithPayees 10006
    (by decide)
  ⟨by decide,
   (h.2.1 ⟨_, List.mem_cons_of_mem _ (List.mem_cons_self _ _), by decide⟩).mpr
     ⟨_, List.mem_cons_of_mem _ (List.mem_cons_self _ _), _, List.mem_cons_self _ _,
       by decide, rfl, by decide⟩,
   h.2.2.1 rfl⟩

/-- C26, the claim as worded fails when the subtraction leaves the 64-bit range:
for the transaction whose one output has the value `INT64_MIN + 5`, at block
10005 (payee `[1, 2, 3]` by the votes) with a payment of 100, `FillBlockPayee`
leaves 9223372036854775713 in the first output, which is not 100 less than
before, and the sum of the output values has changed. -/
theorem C26_subtraction_leaves_range_counterexample :
    PaymentScenario.coinbaseLow.vout
      = [{ nValue := -9223372036854775803, scriptPubKey := [8] }] ∧
    PaymentScenario.stateWithPayees.GetBlockPayee 10005 [] = (true, [1, 2, 3]) ∧
    PaymentScenario.payout.GetStormnodePayment 10005 200 = 100 ∧
    PaymentScenario.stateWithPayees.FillBlockPayee PaymentScenario.payout
        PaymentScenario.coinbaseLow 10005 200
      = some ({ vout := [{ nValue := 9223372036854775713, scriptPubKey := [8] },
                         { nValue := 100, scriptPubKey := [1, 2, 3] }] },
              { nValue := 100, scriptPubKey := [1, 2, 3] }) ∧
    (9223372036854775713 : Int) ≠ -9223372036854775803 - 100 ∧
    totalValue [{ nValue := 9223372036854775713, scriptPubKey := [8] },
                { nValue := 100, scriptPubKey := [1, 2, 3] }]
      ≠ totalValue PaymentScenario.coinbaseLow.vout := by
  decide

/-- C26, amended. For a transaction with at least one output: when a payee is
determined, by the recorded votes or else by the locally computed next
stormnode, `FillBlockPayee` replaces the value of the first output by the 64-bit
difference of that value and `GetStormnodePayment(nBlockHeight, blockReward)`,
leaves the other outputs as they are, appends exactly one output with the value
of the payment and the script of the payee, and returns that output in
`txoutStormnodeRet`; when the value of the first output minus the payment fits in
a signed 64-bit integer, the first output is lowered by exactly the payment and
the sum of the output values is unchanged.  When no payee is determined it leaves
the transaction unchanged and `txoutStormnodeRet` is `CTxOut()`. -/
theorem C26_FillBlockPayee (penv : PayoutEnv) (s : CStormnodePayments)
    (txNew : CMutableTransaction) (nBlockHeight blockReward : Int) (first : CTxOut)
    (rest : List CTxOut) (hvout : txNew.vout = first :: rest) :
    (∀ payee : CScript,
      (s.GetBlockPayee nBlockHeight [] = (true, payee) ∨
        ((s.GetBlockPayee nBlockHeight []).1 = false ∧
          penv.GetNextStormnodeInQueueForPayment nBlockHeight = some payee)) →
      ∃ txAfter txoutStormnodeRet,
        s.FillBlockPayee penv txNew nBlockHeight blockReward
          = some (txAfter, txoutStormnodeRet) ∧
        txoutStormnodeRet =
          { nValue := penv.GetStormnodePayment nBlockHeight blockReward,
            scriptPubKey := payee } ∧
        txAfter.vout =
          ({ first with
              nValue := wrapInt64
                (first.nValue - penv.GetStormnodePayment nBlockHeight blockReward) }
            :: rest) ++ [txoutStormnodeRet] ∧
        txAfter.vout.length = txNew.vout.length + 1 ∧
        (-2 ^ 63 ≤ first.nValue - penv.GetStormnodePayment nBlockHeight blockReward →
          first.nValue - penv.GetStormnodePayment nBlockHeight blockReward < 2 ^ 63 →
          txAfter.vout =
            ({ first with
                nValue := first.nValue - penv.GetStormnodePayment nBlockHeight blockReward }
              :: rest) ++ [txoutStormnodeRet] ∧
          totalValue txAfter.vout = totalValue txNew.vout)) ∧
    ((s.GetBlockPayee nBlockHeight []).1 = false →
      penv.GetNextStormnodeInQueueForPayment nBlockHeight = none →
      s.FillBlockPayee penv txNew nBlockHeight blockReward = some (txNew, penv.emptyTxOut)) := by
  constructor
  · intro payee hpayee
    have hfill : s.FillBlockPayee penv txNew nBlockHeight blockReward
        = some ({ vout := ({ first with
                    nValue := wrapInt64
                      (first.nValue - penv.GetStormnodePayment nBlockHeight blockReward) }
                    :: rest)
                  ++ [{ nValue := penv.GetStormnodePayment nBlockHeight blockReward,
                        scriptPubKey := payee }] },
                { nValue := penv.GetStormnodePayment nBlockHeight blockReward,
                  scriptPubKey := payee }) := by
      rcases hpayee with h | ⟨h₁, h₂⟩
      · simp [CStormnodePayments.FillBlockPayee, h, hvout]
      · simp [CStormnodePayments.FillBlockPayee, h₁, h₂, hvout]
    refine ⟨_, _, hfill, rfl, rfl, ?_, ?_⟩
    · simp [hvout]
    · intro hlo hhi
      rw [wrapInt64_of_range _ hlo hhi]
      refine ⟨rfl, ?_⟩
      simp only [totalValue, hvout, List.map_append, List.map_cons, List.map_nil,
        List.sum_append, List.sum_cons, List.sum_nil, List.cons_append]
      ring
  · intro h₁ h₂
    simp [CStormnodePayments.FillBlockPayee, h₁, h₂]

/-- C26 at the coinbase of `PaymentScenario` (one output of 500) for block 10005
and a block reward of 200: the votes name script `[1, 2, 3]`, the first output
falls to 400 and an output of 100 to `[1, 2, 3]` is appended. -/
theorem C26_FillBlockPayee_witness :
    PaymentScenario.coinbase.vout = [{ nValue := 500, scriptPubKey := [8] }] ∧
    PaymentScenario.stateWithPayees.FillBlockPayee PaymentScenario.payout
        PaymentScenario.coinbase 10005 200
      = some ({ vout := [{ nValue := 400, scriptPubKey := [8] },
                         { nValue := 100, scriptPubKey := [1, 2, 3] }] },
              { nValue := 100, scriptPubKey := [1, 2, 3] }) ∧
    PaymentScenario.stateWithPayees.FillBlockPayee PaymentScenario.payout
        PaymentScenario.coinbase 10007 200
      = some (PaymentScenario.coinbase, { nValue := -1, scriptPubKey := [] }) :=
  have h := C26_FillBlockPayee PaymentScenario.payout PaymentScenario.stateWithPayees
    PaymentScenario.coinbase
  ⟨rfl,
   by
     obtain ⟨txAfter, out, hfill, hout, -, -, hrange⟩ :=
       (h 10005 200 _ _ rfl).1 [1, 2, 3] (Or.inl (by decide))
     have hv := (hrange (by decide) (by decide)).1
     rw [hfill, hout] at *
     cases txAfter
     simp only at hv
     rw [hv, hout]
     rfl,
   (h 10007 200 _ _ rfl).2 (by decide) (by decide)⟩

section AddPayeeLemmas

theorem AddPayee_go_scripts (payee : CScript) (hash : uint256) (l : List CStormnodePayee) :
    (CStormnodeBlockPayees.AddPayee.go payee hash l).map CStormnodePayee.GetPayee
      = if payee ∈ l.map CStormnodePayee.GetPayee then l.map CStormnodePayee.GetPayee
        else l.map CStormnodePayee.GetPayee ++ [payee] := by
  induction l with
  | nil => simp [CStormnodeBlockPayees.AddPayee.go, CStormnodePayee.GetPayee]
  | cons p rest ih =>
    by_cases hp : p.scriptPubKey = payee
    · simp [CStormnodeBlockPayees.AddPayee.go, hp, CStormnodePayee.GetPayee]
    · have hp' : ¬ payee = p.scriptPubKey := fun e => hp e.symm
      simp only [CStormnodeBlockPayees.AddPayee.go, hp, if_false, List.map_cons, ih,
        List.mem_cons, CStormnodePayee.GetPayee, hp', false_or]
      split_ifs <;> simp

theorem AddPayee_go_votes (payee : CScript) (hash : uint256) (l : List CStormnodePayee)
    (script : CScript) :
    (((CStormnodeBlockPayees.AddPayee.go payee hash l).filter
        (fun p => decide (p.GetPayee = script))).map CStormnodePayee.GetVoteCount).sum
      = ((l.filter (fun p => decide (p.GetPayee = script))).map
          CStormnodePayee.GetVoteCount).sum + (if script = payee then 1 else 0) := by
  induction l with
  | nil =>
    by_cases hs : script = payee
    · subst hs
      simp [CStormnodeBlockPayees.AddPayee.go, CStormnodePayee.GetPayee,
        CStormnodePayee.GetVoteCount]
    · have hs' : ¬ payee = script := fun e => hs e.symm
      simp [CStormnodeBlockPayees.AddPayee.go, CStormnodePayee.GetPayee, hs, hs']
  | cons p rest ih =>
    by_cases hp : p.scriptPubKey = payee
    · by_cases hs : script = payee
      · subst hs
        simp [CStormnodeBlockPayees.AddPayee.go, hp, CStormnodePayee.GetPayee,
          CStormnodePayee.GetVoteCount]
        ring
      · have hs' : ¬ payee = script := fun e => hs e.symm
        simp [CStormnodeBlockPayees.AddPayee.go, hp, CStormnodePayee.GetPayee, hs, hs']
    · simp only [CStormnodeBlockPayees.AddPayee.go, hp, if_false]
      by_cases hps : p.GetPayee = script
      · simp only [List.filter_cons, hps, decide_True, if_true, List.map_cons, List.sum_cons, ih]
        ring
      · simp only [List.filter_cons, hps, decide_False, Bool.false_eq_true, if_false, ih]

theorem AddPayee_votesFor (b : CStormnodeBlockPayees) (payee : CScript) (hash : uint256)
    (script : CScript) :
    (b.AddPayee payee hash).votesFor script
      = b.votesFor script + (if script = payee then 1 else 0) := by
  simp only [CStormnodeBlockPayees.votesFor, CStormnodeBlockPayees.AddPayee]
  exact AddPayee_go_votes payee hash b.vecPayees script

/-- The payee record of a height after a successful `AddPaymentVote`. -/
theorem AddPaymentVote_blocks (env : PayEnv) (s : CStormnodePayments)
    (vote : CStormnodePaymentVote) (hblock : env.GetBlockHash (vote.nBlockHeight - 101) ≠ none)
    (hnew : mapCount s.mapStormnodePaymentVotes (env.voteHash vote) = false) (h : Int) :
    mapFind (CStormnodePayments.AddPaymentVote env s vote).2.mapStormnodeBlocks h
      = if h = vote.nBlockHeight then
          some (((mapFind s.mapStormnodeBlocks h).getD
            { nBlockHeight := vote.nBlockHeight, vecPayees := [] }).AddPayee vote.payee
              (env.voteHash vote))
        else mapFind s.mapStormnodeBlocks h := by
  cases hb : env.GetBlockHash (vote.nBlockHeight - 101) with
  | none => exact absurd hb hblock
  | some bh =>
    simp only [CStormnodePayments.AddPaymentVote, hb, hnew, Bool.false_eq_true, if_false]
    by_cases hh : h = vote.nBlockHeight
    · subst hh
      simp only [if_true]
      rw [mapFind_mapModify_same]
      cases hc : mapCount s.mapStormnodeBlocks vote.nBlockHeight
      · simp only [Bool.false_eq_true, if_false]
        rw [mapFind_append_new _ _ _ hc, (mapCount_eq_false_iff _ _).mp hc]
        rfl
      · simp only [if_true]
        unfold mapCount at hc
        cases hf : mapFind s.mapStormnodeBlocks vote.nBlockHeight with
        | none => rw [hf] at hc; exact Bool.noConfusion hc
        | some b => rfl
    · simp only [hh, if_false]
      rw [mapFind_mapModify_other _ _ _ _ hh]
      split_ifs
      · rfl
      · exact mapFind_append_other _ _ _ _ hh

theorem AddPaymentVote_false (env : PayEnv) (s : CStormnodePayments)
    (vote : CStormnodePaymentVote)
    (h : mapCount s.mapStormnodePaymentVotes (env.voteHash vote) = true ∨
        env.GetBlockHash (vote.nBlockHeight - 101) = none) :
    CStormnodePayments.AddPaymentVote env s vote = (false, s) := by
  rcases h with h | h
  · cases hb : env.GetBlockHash (vote.nBlockHeight - 101) <;>
      simp [CStormnodePayments.AddPaymentVote, hb, h]
  · simp [CStormnodePayments.AddPaymentVote, h]

end AddPayeeLemmas

/-- C24. `AddPaymentVote` returns false and changes nothing when a vote with the
same hash is stored or when the block hash at height `vote.nBlockHeight - 101`
is not available.  Otherwise it returns true, stores the vote under its hash,
the votes recorded for the payee script of the vote at the height of the vote
grow by exactly one, the votes for every other script or height stay as they
are, and payee entries of that height with pairwise different scripts stay so.
Adding the same vote again returns false and leaves the state as it is, and
`ProcessMessage` drops a vote whose hash is stored without any effect. -/
theorem C24_AddPaymentVote_replay (env : PayEnv) (s : CStormnodePayments)
    (vote : CStormnodePaymentVote) (pfrom : CNode) :
    ((mapCount s.mapStormnodePaymentVotes (env.voteHash vote) = true ∨
        env.GetBlockHash (vote.nBlockHeight - 101) = none) →
      CStormnodePayments.AddPaymentVote env s vote = (false, s)) ∧
    (mapCount s.mapStormnodePaymentVotes (env.voteHash vote) = false →
      env.GetBlockHash (vote.nBlockHeight - 101) ≠ none →
      (CStormnodePayments.AddPaymentVote env s vote).1 = true ∧
      (CStormnodePayments.AddPaymentVote env s vote).2.mapStormnodePaymentVotes
        = s.mapStormnodePaymentVotes ++ [(env.voteHash vote, vote)] ∧
      mapFind (CStormnodePayments.AddPaymentVote env s vote).2.mapStormnodePaymentVotes
        (env.voteHash vote) = some vote ∧
      (CStormnodePayments.AddPaymentVote env s vote).2.votesFor vote.nBlockHeight vote.payee
        = s.votesFor vote.nBlockHeight vote.payee + 1 ∧
      (∀ (h : Int) (script : CScript), ¬ (h = vote.nBlockHeight ∧ script = vote.payee) →
        (CStormnodePayments.AddPaymentVote env s vote).2.votesFor h script
          = s.votesFor h script) ∧
      ((s.payeeScripts vote.nBlockHeight).Nodup →
        ((CStormnodePayments.AddPaymentVote env s vote).2.payeeScripts
          vote.nBlockHeight).Nodup)) ∧
    CStormnodePayments.AddPaymentVote env (CStormnodePayments.AddPaymentVote env s vote).2 vote
      = (false, (CStormnodePayments.AddPaymentVote env s vote).2) ∧
    (mapCount s.mapStormnodePaymentVotes (env.voteHash vote) = true →
      CStormnodePayments.ProcessMessage env s pfrom (.STORMNODEPAYMENTVOTE vote) = (s, [])) := by
  have hfalse := AddPaymentVote_false env s vote
  have hvotes : mapCount s.mapStormnodePaymentVotes (env.voteHash vote) = false →
      env.GetBlockHash (vote.nBlockHeight - 101) ≠ none →
      (CStormnodePayments.AddPaymentVote env s vote).1 = true ∧
      (CStormnodePayments.AddPaymentVote env s vote).2.mapStormnodePaymentVotes
        = s.mapStormnodePaymentVotes ++ [(env.voteHash vote, vote)] := by
    intro hnew hblock
    cases hb : env.GetBlockHash (vote.nBlockHeight - 101) with
    | none => exact absurd hb hblock
    | some bh => simp [CStormnodePayments.AddPaymentVote, hb, hnew]
  refine ⟨hfalse, ?_, ?_, ?_⟩
  · intro hnew hblock
    obtain ⟨h₁, h₂⟩ := hvotes hnew hblock
    have hblocks := AddPaymentVote_blocks env s vote hblock hnew
    refine ⟨h₁, h₂, ?_, ?_, ?_, ?_⟩
    · rw [h₂]
      exact mapFind_append_new _ _ _ hnew
    · simp only [CStormnodePayments.votesFor, hblocks, if_true, AddPayee_votesFor]
      cases hf : mapFind s.mapStormnodeBlocks vote.nBlockHeight <;>
        simp [CStormnodeBlockPayees.votesFor]
    · intro h script hne
      simp only [CStormnodePayments.votesFor, hblocks]
      by_cases hh : h = vote.nBlockHeight
      · have hs : ¬ script = vote.payee := fun e => hne ⟨hh, e⟩
        simp only [hh, if_true, AddPayee_votesFor, hs, if_false, add_zero]
        cases hf : mapFind s.mapStormnodeBlocks vote.nBlockHeight <;>
          simp [CStormnodeBlockPayees.votesFor]
      · simp only [hh, if_false]
    · intro hnodup
      simp only [CStormnodePayments.payeeScripts, hblocks, if_true,
        CStormnodeBlockPayees.AddPayee, AddPayee_go_scripts]
      simp only [CStormnodePayments.payeeScripts] at hnodup
      cases hf : mapFind s.mapStormnodeBlocks vote.nBlockHeight with
      | none => simp
      | some b =>
        rw [hf] at hnodup
        simp only [Option.getD_some]
        simp only at hnodup
        split_ifs with hmem
        · exact hnodup
        · exact List.Nodup.append hnodup (List.nodup_singleton _)
            (by
              intro x hx hx'
              rw [List.mem_singleton] at hx'
              exact hmem (hx' ▸ hx))
  · by_cases hnew : mapCount s.mapStormnodePaymentVotes (env.voteHash vote) = true
    · rw [hfalse (Or.inl hnew)]
      exact hfalse (Or.inl hnew)
    · cases hb : env.GetBlockHash (vote.nBlockHeight - 101) with
      | none =>
        rw [hfalse (Or.inr hb)]
        exact hfalse (Or.inr hb)
      | some bh =>
        have hnew' : mapCount s.mapStormnodePaymentVotes (env.voteHash vote) = false := by
          simpa using hnew
        have hblock : env.GetBlockHash (vote.nBlockHeight - 101) ≠ none := by
          rw [hb]; exact fun e => Option.noConfusion e
        obtain ⟨_, h₂⟩ := hvotes hnew' hblock
        have hstored : mapCount (CStormnodePayments.AddPaymentVote env s vote).2.mapStormnodePaymentVotes
            (env.voteHash vote) = true := by
          rw [h₂]
          unfold mapCount
          rw [mapFind_append_new _ _ _ hnew']
          rfl
        exact AddPaymentVote_false env _ vote (Or.inl hstored)
  · intro hseen
    unfold CStormnodePayments.ProcessMessage
    by_cases h₁ : env.IsStormnodeListSynced = true
    · by_cases h₂ : env.fLiteMode = true
      · simp [h₁, h₂]
      · by_cases h₃ : pfrom.nVersion < CStormnodePayments.GetMinStormnodePaymentsProto env
        · simp [h₁, h₂, h₃]
        · cases h₄ : s.pCurrentBlockIndex <;> simp [h₁, h₂, h₃, h₄, hseen]
    · simp [h₁]

section IsValidLemmas

/-- When `IsValid` returns true: the stormnode is in the registry, its protocol
version is not below the required minimum, its rank is not above
`SNPAYMENTS_SIGNATURES_TOTAL`, and nothing was done to the peer. -/
theorem IsValid_eq_true_iff (env : PayEnv) (vote : CStormnodePaymentVote) (pnode : CNode)
    (nValidationHeight : Int) :
    (vote.IsValid env pnode nValidationHeight).1 = true ↔
      ∃ psn, env.Find vote.vinStormnode = some psn ∧
        ¬ psn.nProtocolVersion <
          (if vote.nBlockHeight > nValidationHeight
            then CStormnodePayments.GetMinStormnodePaymentsProto env
            else env.MIN_STORMNODE_PAYMENT_PROTO_VERSION_1) ∧
        ¬ env.GetStormnodeRank vote.vinStormnode (vote.nBlockHeight - 101)
            (if vote.nBlockHeight > nValidationHeight
              then CStormnodePayments.GetMinStormnodePaymentsProto env
              else env.MIN_STORMNODE_PAYMENT_PROTO_VERSION_1)
          > env.SNPAYMENTS_SIGNATURES_TOTAL := by
  unfold CStormnodePaymentVote.IsValid
  cases hf : env.Find vote.vinStormnode with
  | none => simp
  | some psn =>
    simp only [Option.some.injEq, exists_eq_left']
    by_cases h₁ : psn.nProtocolVersion <
        (if vote.nBlockHeight > nValidationHeight
          then CStormnodePayments.GetMinStormnodePaymentsProto env
          else env.MIN_STORMNODE_PAYMENT_PROTO_VERSION_1)
    · simp [h₁]
    · by_cases h₂ : env.GetStormnodeRank vote.vinStormnode (vote.nBlockHeight - 101)
          (if vote.nBlockHeight > nValidationHeight
            then CStormnodePayments.GetMinStormnodePaymentsProto env
            else env.MIN_STORMNODE_PAYMENT_PROTO_VERSION_1)
          > env.SNPAYMENTS_SIGNATURES_TOTAL
      · simp only [h₁, if_false, h₂, if_true, not_true_eq_false, and_false,
          not_false_eq_true, Bool.false_eq_true]
      · simp only [h₁, if_false, h₂, not_false_eq_true, and_self]

theorem IsValid_effects_of_true (env : PayEnv) (vote : CStormnodePaymentVote) (pnode : CNode)
    (nValidationHeight : Int) (h : (vote.IsValid env pnode nValidationHeight).1 = true) :
    (vote.IsValid env pnode nValidationHeight).2 = [] := by
  obtain ⟨psn, hf, h₁, h₂⟩ := (IsValid_eq_true_iff env vote pnode nValidationHeight).mp h
  unfold CStormnodePaymentVote.IsValid
  simp only [hf, h₁, if_false, h₂]

end IsValidLemmas

/-- C22. A vote that reaches the signature check of `ProcessMessage` (the node
has the stormnode list, is not in lite mode, the peer is recent enough, the tip
is known, the hash is new, the height is in range, `IsValid` and `CanVote`
return true) and whose signature does not verify: the vote table and the
block-payee table stay as they are, nothing is relayed, the record of the
stormnode is requested from the peer, and the peer is penalized (`Misbehaving`
with 20) exactly when the node is synced and the block height of the vote is
greater than the tip height.  The stormnode of such a vote is in the registry,
with a sufficient protocol version and a rank not above
`SNPAYMENTS_SIGNATURES_TOTAL`. -/
theorem C22_bad_signature (env : PayEnv) (s : CStormnodePayments) (pfrom : CNode)
    (vote : CStormnodePaymentVote) (nHeight : Int)
    (hlist : env.IsStormnodeListSynced = true) (hlite : env.fLiteMode = false)
    (hver : ¬ pfrom.nVersion < CStormnodePayments.GetMinStormnodePaymentsProto env)
    (htip : s.pCurrentBlockIndex = some nHeight)
    (hnew : mapCount s.mapStormnodePaymentVotes (env.voteHash vote) = false)
    (hlow : ¬ vote.nBlockHeight < nHeight - CStormnodePayments.GetStorageLimit env)
    (hhigh : ¬ vote.nBlockHeight > nHeight + 20)
    (hvalid : (vote.IsValid env pfrom nHeight).1 = true)
    (hcan : (s.CanVote vote.vinStormnode.prevout vote.nBlockHeight).1 = true)
    (hsig : vote.CheckSignature env = false) :
    CStormnodePayments.ProcessMessage env s pfrom (.STORMNODEPAYMENTVOTE vote)
      = ((s.CanVote vote.vinStormnode.prevout vote.nBlockHeight).2,
          (if env.IsSynced = true ∧ vote.nBlockHeight > nHeight
            then [Effect.Misbehaving pfrom.id 20] else [])
          ++ [Effect.AskForSN pfrom.id vote.vinStormnode]) ∧
    (CStormnodePayments.ProcessMessage env s pfrom
        (.STORMNODEPAYMENTVOTE vote)).1.mapStormnodePaymentVotes
      = s.mapStormnodePaymentVotes ∧
    (CStormnodePayments.ProcessMessage env s pfrom
        (.STORMNODEPAYMENTVOTE vote)).1.mapStormnodeBlocks
      = s.mapStormnodeBlocks ∧
    (∀ hash, Effect.Relay hash ∉
      (CStormnodePayments.ProcessMessage env s pfrom (.STORMNODEPAYMENTVOTE vote)).2) ∧
    Effect.AddedPaymentVote ∉
      (CStormnodePayments.ProcessMessage env s pfrom (.STORMNODEPAYMENTVOTE vote)).2 ∧
    Effect.AskForSN pfrom.id vote.vinStormnode ∈
      (CStormnodePayments.ProcessMessage env s pfrom (.STORMNODEPAYMENTVOTE vote)).2 ∧
    (Effect.Misbehaving pfrom.id 20 ∈
        (CStormnodePayments.ProcessMessage env s pfrom (.STORMNODEPAYMENTVOTE vote)).2 ↔
      env.IsSynced = true ∧ vote.nBlockHeight > nHeight) ∧
    misbehaviorScore pfrom.id
        (CStormnodePayments.ProcessMessage env s pfrom (.STORMNODEPAYMENTVOTE vote)).2
      = (if env.IsSynced = true ∧ vote.nBlockHeight > nHeight then 20 else 0) ∧
    (∃ psn, env.Find vote.vinStormnode = some psn ∧
      ¬ psn.nProtocolVersion <
        (if vote.nBlockHeight > nHeight
          then CStormnodePayments.GetMinStormnodePaymentsProto env
          else env.MIN_STORMNODE_PAYMENT_PROTO_VERSION_1) ∧
      ¬ env.GetStormnodeRank vote.vinStormnode (vote.nBlockHeight - 101)
          (if vote.nBlockHeight > nHeight
            then CStormnodePayments.GetMinStormnodePaymentsProto env
            else env.MIN_STORMNODE_PAYMENT_PROTO_VERSION_1)
        > env.SNPAYMENTS_SIGNATURES_TOTAL) := by
  have heff := IsValid_effects_of_true env vote pfrom nHeight hvalid
  have hres : CStormnodePayments.ProcessMessage env s pfrom (.STORMNODEPAYMENTVOTE vote)
      = ((s.CanVote vote.vinStormnode.prevout vote.nBlockHeight).2,
          (if env.IsSynced = true ∧ vote.nBlockHeight > nHeight
            then [Effect.Misbehaving pfrom.id 20] else [])
          ++ [Effect.AskForSN pfrom.id vote.vinStormnode]) := by
    unfold CStormnodePayments.ProcessMessage
    simp only [hlist, hlite, hver, htip, hnew, hlow, hhigh, hvalid, hcan, hsig, heff,
      Bool.not_true, Bool.not_false, Bool.false_eq_true, if_false, if_true, decide_False,
      Bool.or_false, List.nil_append]
    congr 2
    by_cases h₁ : env.IsSynced = true <;> by_cases h₂ : vote.nBlockHeight > nHeight <;>
      simp [h₁, h₂]
  have hstate : (s.CanVote vote.vinStormnode.prevout vote.nBlockHeight).2.mapStormnodePaymentVotes
        = s.mapStormnodePaymentVotes ∧
      (s.CanVote vote.vinStormnode.prevout vote.nBlockHeight).2.mapStormnodeBlocks
        = s.mapStormnodeBlocks := by
    unfold CStormnodePayments.CanVote
    split_ifs <;> exact ⟨rfl, rfl⟩
  rw [hres]
  refine ⟨rfl, hstate.1, hstate.2, ?_, ?_, ?_, ?_, ?_,
    (IsValid_eq_true_iff env vote pfrom nHeight).mp hvalid⟩
  · intro hash
    split_ifs <;> simp
  · split_ifs <;> simp
  · simp
  · split_ifs with h
    · simp [h]
    · simp [h]
  · split_ifs <;> simp [misbehaviorScore]

/-- C22 at the vote of stormnode 1 for block 10010 with a bad signature,
received by the synced node of `PaymentScenario` at tip 10000: the stormnode is
asked for and the peer is penalized; nothing is stored. -/
theorem C22_bad_signature_witness :
    (PaymentScenario.voteBadSig.IsValid PaymentScenario.env PaymentScenario.peer 10000).1
      = true ∧
    PaymentScenario.voteBadSig.CheckSignature PaymentScenario.env = false ∧
    CStormnodePayments.ProcessMessage PaymentScenario.env PaymentScenario.state
        PaymentScenario.peer (.STORMNODEPAYMENTVOTE PaymentScenario.voteBadSig)
      = ({ PaymentScenario.state with
            mapStormnodesLastVote := [({ hash := 50, n := 1 }, 10010)] },
          [Effect.Misbehaving 3 20,
           Effect.AskForSN 3 { prevout := { hash := 50, n := 1 } }]) :=
  ⟨by decide, by decide,
   (C22_bad_signature PaymentScenario.env PaymentScenario.state PaymentScenario.peer
      PaymentScenario.voteBadSig 10000 rfl rfl (by decide) rfl (by decide) (by decide)
      (by decide) (by decide) (by decide) (by decide)).1⟩

/-- C23: what `IsValid` checks.  It returns true exactly when the stormnode is in
the registry, its protocol version is not below the required minimum and its
rank for height `nBlockHeight - 101` is not above
`SNPAYMENTS_SIGNATURES_TOTAL`; no lower bound on the rank is checked, so a vote
of a registered stormnode for which `GetStormnodeRank` answers -1 is accepted. -/
theorem C23_IsValid_accepts_iff (env : PayEnv) (vote : CStormnodePaymentVote) (pnode : CNode)
    (nValidationHeight : Int) :
    ((vote.IsValid env pnode nValidationHeight).1 = true ↔
      ∃ psn, env.Find vote.vinStormnode = some psn ∧
        psn.nProtocolVersion ≥
          (if vote.nBlockHeight > nValidationHeight
            then CStormnodePayments.GetMinStormnodePaymentsProto env
            else env.MIN_STORMNODE_PAYMENT_PROTO_VERSION_1) ∧
        env.GetStormnodeRank vote.vinStormnode (vote.nBlockHeight - 101)
            (if vote.nBlockHeight > nValidationHeight
              then CStormnodePayments.GetMinStormnodePaymentsProto env
              else env.MIN_STORMNODE_PAYMENT_PROTO_VERSION_1)
          ≤ env.SNPAYMENTS_SIGNATURES_TOTAL) ∧
    (∀ psn, env.Find vote.vinStormnode = some psn →
      psn.nProtocolVersion ≥
          (if vote.nBlockHeight > nValidationHeight
            then CStormnodePayments.GetMinStormnodePaymentsProto env
            else env.MIN_STORMNODE_PAYMENT_PROTO_VERSION_1) →
      0 ≤ env.SNPAYMENTS_SIGNATURES_TOTAL →
      env.GetStormnodeRank vote.vinStormnode (vote.nBlockHeight - 101)
            (if vote.nBlockHeight > nValidationHeight
              then CStormnodePayments.GetMinStormnodePaymentsProto env
              else env.MIN_STORMNODE_PAYMENT_PROTO_VERSION_1) = -1 →
      vote.IsValid env pnode nValidationHeight = (true, [])) := by
  have hiff := IsValid_eq_true_iff env vote pnode nValidationHeight
  simp only [not_lt] at hiff
  refine ⟨hiff, ?_⟩
  intro psn hf hproto htotal hrank
  have h₁ : (vote.IsValid env pnode nValidationHeight).1 = true :=
    hiff.mpr ⟨psn, hf, hproto, by rw [hrank]; omega⟩
  have h₂ := IsValid_effects_of_true env vote pnode nValidationHeight h₁
  exact Prod.ext h₁ h₂

/-- C23 as stated fails: the registry of `PaymentScenario.envUnranked` knows
stormnode 1 of collateral 50 with protocol version 70200 and ranks it -1; its
vote for block 10010 is accepted by `IsValid` at validation height 10000, and
`ProcessMessage` stores the vote and relays it. -/
theorem C23_rank_minus_one_accepted_counterexample :
    PaymentScenario.envUnranked.Find (PaymentScenario.vote 50 1 10010).vinStormnode
      = some { nProtocolVersion := 70200, pubKeyStormnode := 11 } ∧
    PaymentScenario.envUnranked.GetStormnodeRank
      (PaymentScenario.vote 50 1 10010).vinStormnode (10010 - 101) 70200 = -1 ∧
    (PaymentScenario.vote 50 1 10010).IsValid PaymentScenario.envUnranked
      PaymentScenario.peer 10000 = (true, []) ∧
    (CStormnodePayments.ProcessMessage PaymentScenario.envUnranked PaymentScenario.state
        PaymentScenario.peer
        (.STORMNODEPAYMENTVOTE (PaymentScenario.vote 50 1 10010))).1.mapStormnodePaymentVotes
      = [(PaymentScenario.envUnranked.voteHash (PaymentScenario.vote 50 1 10010),
          PaymentScenario.vote 50 1 10010)] := by
  decide

section CanVoteLemmas

theorem CanVote_false_iff (s : CStormnodePayments) (o : COutPoint) (h : Int) :
    (s.CanVote o h).1 = false ↔ mapFind s.mapStormnodesLastVote o = some h := by
  unfold CStormnodePayments.CanVote
  split_ifs with hc
  · simp [hc]
  · simp [hc]

theorem CanVote_record_same (s : CStormnodePayments) (o : COutPoint) (h : Int) :
    mapFind (s.CanVote o h).2.mapStormnodesLastVote o = some h := by
  unfold CStormnodePayments.CanVote
  split_ifs with hc
  · exact hc
  · cases hf : mapFind s.mapStormnodesLastVote o with
    | none =>
      simp only
      exact mapFind_append_new _ _ _ ((mapCount_eq_false_iff _ _).mpr hf)
    | some old =>
      simp only
      rw [mapFind_mapModify_same, hf]
      rfl

theorem CanVote_record_other (s : CStormnodePayments) (o o' : COutPoint) (h : Int)
    (hne : o' ≠ o) :
    mapFind (s.CanVote o h).2.mapStormnodesLastVote o' = mapFind s.mapStormnodesLastVote o' := by
  unfold CStormnodePayments.CanVote
  split_ifs with hc
  · rfl
  · cases hf : mapFind s.mapStormnodesLastVote o with
    | none =>
      simp only
      exact mapFind_append_other _ _ _ _ hne
    | some old =>
      simp only
      exact mapFind_mapModify_other _ _ _ _ hne

theorem CanVoteCalls_record (s : CStormnodePayments) (calls : List (COutPoint × Int))
    (o : COutPoint) :
    mapFind (s.CanVoteCalls calls).2.mapStormnodesLastVote o
      = (mapFind calls.reverse o).orElse (fun _ => mapFind s.mapStormnodesLastVote o) := by
  induction calls generalizing s with
  | nil => simp [CStormnodePayments.CanVoteCalls, mapFind]
  | cons c rest ih =>
    obtain ⟨oc, hc⟩ := c
    simp only [CStormnodePayments.CanVoteCalls, List.reverse_cons]
    rw [ih, mapFind_append]
    cases hr : mapFind rest.reverse o with
    | some x => simp
    | none =>
      simp only [Option.orElse, mapFind]
      by_cases ho : oc = o
      · subst ho
        simp only [if_true]
        exact CanVote_record_same s oc hc
      · simp only [ho, if_false]
        exact CanVote_record_other s oc o hc (fun e => ho e.symm)

theorem CanVoteCalls_append (s : CStormnodePayments) (calls : List (COutPoint × Int))
    (o : COutPoint) (h : Int) :
    (s.CanVoteCalls (calls ++ [(o, h)])).1
      = (s.CanVoteCalls calls).1 ++ [((s.CanVoteCalls calls).2.CanVote o h).1] := by
  induction calls generalizing s with
  | nil => simp [CStormnodePayments.CanVoteCalls]
  | cons c rest ih =>
    obtain ⟨oc, hc⟩ := c
    have hstep := ih (s.CanVote oc hc).2
    simp only [CStormnodePayments.CanVoteCalls, List.cons_append]
    exact congrArg (List.cons _) hstep

end CanVoteLemmas

/-- C28 as stated fails: from the state without any vote record, the calls
`CanVote(o, 5)`, `CanVote(o, 6)`, `CanVote(o, 5)` for one stormnode outpoint `o`
all return true, so the pair of `o` and height 5 is allowed twice. -/
theorem C28_CanVote_twice_for_one_height_counterexample :
    (PaymentScenario.state.CanVoteCalls
      [({ hash := 50, n := 1 }, 5), ({ hash := 50, n := 1 }, 6),
       ({ hash := 50, n := 1 }, 5)]).1 = [true, true, true] := by
  decide

/-- C28 (amended).  `CanVote` remembers one height per stormnode, the last one it
was asked about: a call for a stormnode outpoint and a height returns false
exactly when the record of the outpoint is that height, and afterwards the
record of the outpoint is that height while the records of the other outpoints
are unchanged.  Hence in every sequence of calls a call returns false exactly
when the most recent earlier call for the same outpoint (or, when there is none,
the record at the start) was for the same height. -/
theorem C28_CanVote_refuses_immediate_repeat (s : CStormnodePayments)
    (calls : List (COutPoint × Int)) (o : COutPoint) (h : Int) :
    ((s.CanVote o h).1 = false ↔ mapFind s.mapStormnodesLastVote o = some h) ∧
    mapFind (s.CanVote o h).2.mapStormnodesLastVote o = some h ∧
    (∀ o', o' ≠ o →
      mapFind (s.CanVote o h).2.mapStormnodesLastVote o'
        = mapFind s.mapStormnodesLastVote o') ∧
    (((s.CanVote o h).2.CanVote o h).1 = false) ∧
    (∃ last : Bool,
      (s.CanVoteCalls (calls ++ [(o, h)])).1 = (s.CanVoteCalls calls).1 ++ [last] ∧
      (last = false ↔
        (mapFind calls.reverse o).orElse (fun _ => mapFind s.mapStormnodesLastVote o)
          = some h)) := by
  refine ⟨CanVote_false_iff s o h, CanVote_record_same s o h,
    fun o' hne => CanVote_record_other s o o' h hne, ?_, ?_⟩
  · exact (CanVote_false_iff _ o h).mpr (CanVote_record_same s o h)
  · refine ⟨_, CanVoteCalls_append s calls o h, ?_⟩
    rw [CanVote_false_iff, CanVoteCalls_record]

/-! ### Amount units: digits, strings and the Qt functions -/

namespace CashLemmas

open QString

theorem isDigit_iff (c : Char) : c.isDigit = true ↔ 48 ≤ c.toNat ∧ c.toNat ≤ 57 := by
  unfold Char.isDigit Char.toNat
  simp only [Bool.and_eq_true, decide_eq_true_eq, ge_iff_le]
  rw [UInt32.le_def, UInt32.le_def]
  simp only [UInt32.toNat]
  constructor
  · rintro ⟨h₁, h₂⟩
    exact ⟨h₁, h₂⟩
  · rintro ⟨h₁, h₂⟩
    exact ⟨h₁, h₂⟩

theorem not_whitespace_of_isDigit (c : Char) (h : c.isDigit = true) :
    c.isWhitespace = false := by
  have hd := (isDigit_iff c).mp h
  unfold Char.isWhitespace
  have h1 : c ≠ ' ' := by rintro rfl; revert hd; decide
  have h2 : c ≠ '\t' := by rintro rfl; revert hd; decide
  have h3 : c ≠ '\r' := by rintro rfl; revert hd; decide
  have h4 : c ≠ '\n' := by rintro rfl; revert hd; decide
  simp [h1, h2, h3, h4]

theorem digitChar_isDigit (k : Nat) (h : k < 10) : (Nat.digitChar k).isDigit = true := by
  interval_cases k <;> rfl

theorem digitChar_value (k : Nat) (h : k < 10) : (Nat.digitChar k).toNat - 48 = k := by
  interval_cases k <;> rfl

theorem isDigits_append {a b : QString} (ha : IsDigits a) (hb : IsDigits b) :
    IsDigits (a ++ b) := by
  intro c hc
  rcases List.mem_append.mp hc with h | h
  · exact ha c h
  · exact hb c h

theorem isDigits_replicate_zero (k : Nat) : IsDigits (List.replicate k '0') := by
  intro c hc
  rw [List.eq_of_mem_replicate hc]
  rfl

theorem isDigits_all {s : QString} (h : IsDigits s) : s.all Char.isDigit = true := by
  rw [List.all_eq_true]
  exact h

theorem isDigits_not_mem {s : QString} (h : IsDigits s) (c : Char) (hc : c.isDigit = false) :
    c ∉ s := by
  intro hmem
  rw [h c hmem] at hc
  exact Bool.noConfusion hc

/-! #### `digitsValue` -/

theorem foldl_digits (s : QString) (a : Nat) :
    s.foldl (fun acc c => acc * 10 + (c.toNat - 48)) a
      = a * 10 ^ s.length + digitsValue s := by
  induction s generalizing a with
  | nil => simp [digitsValue]
  | cons c cs ih =>
    simp only [List.foldl_cons, List.length_cons, digitsValue]
    rw [ih, ih (0 * 10 + (c.toNat - 48))]
    ring

theorem digitsValue_nil : digitsValue [] = 0 := rfl

theorem digitsValue_append (a b : QString) :
    digitsValue (a ++ b) = digitsValue a * 10 ^ b.length + digitsValue b := by
  unfold digitsValue
  rw [List.foldl_append, foldl_digits]
  rfl

theorem digitsValue_singleton (c : Char) : digitsValue [c] = c.toNat - 48 := by
  simp [digitsValue]

theorem digitsValue_replicate_zero (k : Nat) : digitsValue (List.replicate k '0') = 0 := by
  induction k with
  | zero => rfl
  | succ k ih =>
    rw [List.replicate_succ', digitsValue_append, ih]
    rfl

theorem digitsValue_lt {s : QString} (h : IsDigits s) : digitsValue s < 10 ^ s.length := by
  induction s using List.reverseRecOn with
  | nil => simp [digitsValue]
  | append_singleton s c ih =>
    have hs : IsDigits s := fun x hx => h x (List.mem_append_left _ hx)
    have hc := (isDigit_iff c).mp (h c (by simp))
    have := ih hs
    rw [digitsValue_append, digitsValue_singleton, List.length_append]
    simp only [List.length_singleton, pow_one, pow_succ]
    omega

/-! #### `Nat.toDigits` -/

theorem toDigitsCore_append (fuel n : Nat) (ds : List Char) :
    Nat.toDigitsCore 10 fuel n ds = Nat.toDigitsCore 10 fuel n [] ++ ds := by
  induction fuel generalizing n ds with
  | zero => simp [Nat.toDigitsCore]
  | succ fuel ih =>
    simp only [Nat.toDigitsCore]
    split_ifs
    · simp
    · rw [ih (n / 10) (Nat.digitChar (n % 10) :: ds), ih (n / 10) [Nat.digitChar (n % 10)]]
      simp

theorem toDigitsCore_spec (fuel n : Nat) (h : n < fuel) :
    IsDigits (Nat.toDigitsCore 10 fuel n []) ∧
    digitsValue (Nat.toDigitsCore 10 fuel n []) = n ∧
    Nat.toDigitsCore 10 fuel n [] ≠ [] := by
  induction fuel generalizing n with
  | zero => omega
  | succ fuel ih =>
    have hmod : n % 10 < 10 := Nat.mod_lt _ (by decide)
    simp only [Nat.toDigitsCore]
    split_ifs with h0
    · refine ⟨?_, ?_, by simp⟩
      · intro c hc
        rw [List.mem_singleton] at hc
        rw [hc]
        exact digitChar_isDigit _ hmod
      · rw [digitsValue_singleton, digitChar_value _ hmod]
        omega
    · have hlt : n / 10 < fuel := by omega
      obtain ⟨h₁, h₂, _⟩ := ih (n / 10) hlt
      rw [toDigitsCore_append]
      refine ⟨?_, ?_, by simp⟩
      · apply isDigits_append h₁
        intro c hc
        rw [List.mem_singleton] at hc
        rw [hc]
        exact digitChar_isDigit _ hmod
      · rw [digitsValue_append, h₂, digitsValue_singleton, digitChar_value _ hmod]
        simp only [List.length_singleton, pow_one]
        omega

theorem toDigits_isDigits (n : Nat) : IsDigits (Nat.toDigits 10 n) :=
  (toDigitsCore_spec (n + 1) n (Nat.lt_succ_self n)).1

theorem digitsValue_toDigits (n : Nat) : digitsValue (Nat.toDigits 10 n) = n :=
  (toDigitsCore_spec (n + 1) n (Nat.lt_succ_self n)).2.1

theorem toDigits_ne_nil (n : Nat) : Nat.toDigits 10 n ≠ [] :=
  (toDigitsCore_spec (n + 1) n (Nat.lt_succ_self n)).2.2

theorem toDigits_length_le (n e : Nat) (h : n < 10 ^ e) (he : 0 < e) :
    (Nat.toDigits 10 n).length ≤ e :=
  Nat.toDigitsCore_length 10 (by decide) (n + 1) n e h he

/-! #### `split`, `toLongLong` -/

theorem split_of_not_mem (sep : Char) (s : QString) (h : sep ∉ s) : split sep s = [s] := by
  induction s with
  | nil => rfl
  | cons c cs ih =>
    have hc : ¬ c = sep := fun e => h (e ▸ List.mem_cons_self c cs)
    have hcs : sep ∉ cs := fun hm => h (List.mem_cons_of_mem c hm)
    simp only [split, hc, if_false, ih hcs]

theorem split_append (sep : Char) (a b : QString) (h : sep ∉ a) :
    split sep (a ++ sep :: b) = a :: split sep b := by
  induction a with
  | nil => simp [split]
  | cons c cs ih =>
    have hc : ¬ c = sep := fun e => h (e ▸ List.mem_cons_self c cs)
    have hcs : sep ∉ cs := fun hm => h (List.mem_cons_of_mem c hm)
    have hstep : split sep (cs.append (sep :: b)) = cs :: split sep b := ih hcs
    simp only [List.cons_append, split, hc, if_false, hstep]

theorem dropWhile_whitespace_of_digits_or_sign (s : QString)
    (h : ∀ c ∈ s, c.isWhitespace = false) :
    s.dropWhile Char.isWhitespace = s := by
  cases s with
  | nil => rfl
  | cons c cs =>
    have := h c (List.mem_cons_self c cs)
    simp [List.dropWhile, this]

theorem trim_of_no_whitespace (s : QString) (h : ∀ c ∈ s, c.isWhitespace = false) :
    ((s.dropWhile Char.isWhitespace).reverse.dropWhile Char.isWhitespace).reverse = s := by
  rw [dropWhile_whitespace_of_digits_or_sign s h,
    dropWhile_whitespace_of_digits_or_sign s.reverse (fun c hc => h c (List.mem_reverse.mp hc)),
    List.reverse_reverse]

theorem two_pow_63 : (10 : Nat) ^ 18 < 2 ^ 63 := by norm_num

/-- The conversion of a string of at most 18 digits, with or without a minus
sign in front. -/
theorem toLongLong_digits (negative : Bool) (s : QString) (hne : s ≠ []) (hd : IsDigits s)
    (hlen : s.length ≤ 18) :
    toLongLong ((if negative then ['-'] else []) ++ s)
      = ((if negative then -(digitsValue s : Int) else (digitsValue s : Int)), true) := by
  have hws : ∀ c ∈ (if negative then ['-'] else []) ++ s, c.isWhitespace = false := by
    intro c hc
    rcases List.mem_append.mp hc with h | h
    · cases negative
      · simp at h
      · simp only [if_true, List.mem_singleton] at h
        rw [h]
        rfl
    · exact not_whitespace_of_isDigit c (hd c h)
  have hlt : digitsValue s < 10 ^ 18 :=
    lt_of_lt_of_le (digitsValue_lt hd) (Nat.pow_le_pow_right (by decide) hlen)
  have hbound : (digitsValue s : Int) < 2 ^ 63 := by
    have : digitsValue s < 2 ^ 63 := lt_trans hlt two_pow_63
    exact_mod_cast this
  have hnonneg : (0 : Int) ≤ (digitsValue s : Int) := Int.natCast_nonneg _
  have hempty : s.isEmpty = false := by
    cases s with
    | nil => exact absurd rfl hne
    | cons c cs => rfl
  unfold toLongLong
  rw [trim_of_no_whitespace _ hws]
  cases negative
  · simp only [Bool.false_eq_true, if_false, List.nil_append]
    cases s with
    | nil => exact absurd rfl hne
    | cons c cs =>
      have hc := hd c (List.mem_cons_self c cs)
      have h1 : ¬ c = '-' := by rintro rfl; exact Bool.noConfusion hc
      have h2 : ¬ c = '+' := by rintro rfl; exact Bool.noConfusion hc
      simp only [h1, h2, if_false, hempty, isDigits_all hd, Bool.not_true, Bool.or_self,
        Bool.false_eq_true]
      rw [if_pos]
      constructor <;> omega
  · simp only [if_true, List.singleton_append, hempty, isDigits_all hd, Bool.not_true, Bool.or_self,
      Bool.false_eq_true, if_false]
    rw [if_pos]
    constructor <;> omega

end CashLemmas

namespace CashLemmas

open QString CashUnits

theorem valid_some (u : CashUnits.Unit) : valid (some u) = true := by
  cases u <;> rfl

theorem decimals_nonneg (u : CashUnits.Unit) : 0 ≤ decimals (some u) := by
  cases u <;> decide

theorem factor_eq_pow (u : CashUnits.Unit) :
    factor (some u) = 10 ^ (decimals (some u)).toNat := by
  cases u <;> decide

/-- What `parse` does with a value whose form without spaces is `whole`, or
`whole`, a point and `fraction`. -/
theorem parse_shape (env : CashEnv) (u : CashUnits.Unit) (value whole fraction : QString)
    (dot : Bool) (hvalue : value ≠ [])
    (hform : env.removeSpaces value = whole ++ (if dot then '.' :: fraction else []))
    (hwhole : '.' ∉ whole) (hfraction : '.' ∉ fraction) (hdot : dot = false → fraction = []) :
    parse env (some u) value
      = if (fraction.length : Int) > decimals (some u) then (false, none)
        else if (whole ++ leftJustified fraction (decimals (some u)) '0').length > 18 then
          (false, none)
        else
          ((toLongLong (whole ++ leftJustified fraction (decimals (some u)) '0')).2,
           some (toLongLong (whole ++ leftJustified fraction (decimals (some u)) '0')).1) := by
  have hempty : value.isEmpty = false := by
    cases value with
    | nil => exact absurd rfl hvalue
    | cons c cs => rfl
  unfold parse
  simp only [valid_some, hempty, Bool.not_true, Bool.or_self, Bool.false_eq_true, if_false, hform]
  cases dot
  · have hf : fraction = [] := hdot rfl
    subst hf
    simp only [Bool.false_eq_true, if_false, List.append_nil, split_of_not_mem '.' whole hwhole,
      List.length_singleton, gt_iff_lt, Nat.lt_irrefl, List.headD_cons,
      show ¬ (2 < 1) by decide, show ¬ (1 < 1) by decide]
  · simp only [if_true, split_append '.' whole fraction hwhole,
      split_of_not_mem '.' fraction hfraction, List.length_cons, List.length_singleton,
      List.length_nil, gt_iff_lt, List.headD_cons, show ¬ (2 < 0 + 1 + 1) by decide,
      show (1 < 0 + 1 + 1) by decide, if_false, List.getD_cons_succ, List.getD_cons_zero]

theorem leftJustified_eq (s : QString) (d : Int) (h : (s.length : Int) ≤ d) :
    leftJustified s d '0' = s ++ List.replicate (d.toNat - s.length) '0' ∧
    (leftJustified s d '0').length = d.toNat := by
  unfold leftJustified
  refine ⟨rfl, ?_⟩
  simp only [List.length_append, List.length_replicate]
  omega

end CashLemmas

namespace CashLemmas

open QString CashUnits

theorem scenario_lawful : CashScenario.env.Lawful where
  removeSpaces := fun _ => rfl
  thin_not_digit := by decide
  thin_not_point := by decide
  thin_not_minus := by decide

theorem point_not_mem_of_isDigits {s : QString} (h : IsDigits s) : '.' ∉ s :=
  isDigits_not_mem h '.' rfl

/-- The result of `parse` for a value that, without its spaces, is an optional
minus sign, the digits `w` and, when `dot` holds, a point and the digits `f`. -/
theorem parse_digits (env : CashEnv) (hlaw : env.Lawful) (u : CashUnits.Unit)
    (value w f : QString) (negative dot : Bool) (hvalue : value ≠ [])
    (hform : value.filter (fun c => c != ' ' && c != env.THIN_SP_CP)
      = ((if negative then ['-'] else []) ++ w) ++ (if dot then '.' :: f else []))
    (hw : IsDigits w) (hf : IsDigits f) (hdot : dot = false → f = [])
    (hlen : f.length ≤ (decimals (some u)).toNat)
    (hsize : (if negative then 1 else 0) + w.length + (decimals (some u)).toNat ≤ 18)
    (hsome : w ≠ [] ∨ 0 < (decimals (some u)).toNat) :
    parse env (some u) value
      = (true, some ((if negative then -1 else 1) *
          ((digitsValue w : Int) * factor (some u)
            + (digitsValue
                (f ++ List.replicate ((decimals (some u)).toNat - f.length) '0') : Int)))) ∧
    (digitsValue w : Int) * factor (some u)
        + (digitsValue (f ++ List.replicate ((decimals (some u)).toNat - f.length) '0') : Int)
      < 10 ^ 18 := by
  have hnn := decimals_nonneg u
  have hfl : (f.length : Int) ≤ decimals (some u) := by omega
  obtain ⟨hpad, hpadlen⟩ := leftJustified_eq f (decimals (some u)) hfl
  have hwhole : '.' ∉ (if negative then ['-'] else []) ++ w := by
    intro hm
    rcases List.mem_append.mp hm with h | h
    · cases negative
      · simp at h
      · simp only [if_true, List.mem_singleton] at h
        exact absurd h (by decide)
    · exact point_not_mem_of_isDigits hw h
  have hshape := parse_shape env u value ((if negative then ['-'] else []) ++ w) f dot hvalue
    (by rw [hlaw.removeSpaces]; exact hform) hwhole (point_not_mem_of_isDigits hf) hdot
  have hsignlen : (if negative then ['-'] else [] : QString).length
      = if negative then 1 else 0 := by
    cases negative <;> rfl
  have hdigits : IsDigits (w ++ (f ++ List.replicate ((decimals (some u)).toNat - f.length) '0')) :=
    isDigits_append hw (isDigits_append hf (isDigits_replicate_zero _))
  have hne : w ++ (f ++ List.replicate ((decimals (some u)).toNat - f.length) '0') ≠ [] := by
    rcases hsome with h | h
    · intro hnil
      exact h (List.append_eq_nil.mp hnil).1
    · intro hnil
      have := congrArg List.length hnil
      simp only [List.length_append, List.length_replicate, List.length_nil] at this
      omega
  have hdlen : (w ++ (f ++ List.replicate ((decimals (some u)).toNat - f.length) '0')).length
      ≤ 18 := by
    simp only [List.length_append, List.length_replicate]
    cases negative <;> simp at hsize <;> omega
  have hconv := toLongLong_digits negative _ hne hdigits hdlen
  have hvalue_eq : (digitsValue
        (w ++ (f ++ List.replicate ((decimals (some u)).toNat - f.length) '0')) : Int)
      = (digitsValue w : Int) * factor (some u)
        + (digitsValue (f ++ List.replicate ((decimals (some u)).toNat - f.length) '0') : Int) := by
    rw [digitsValue_append, factor_eq_pow]
    have hl : (f ++ List.replicate ((decimals (some u)).toNat - f.length) '0').length
        = (decimals (some u)).toNat := by
      simp only [List.length_append, List.length_replicate]
      omega
    rw [hl]
    push_cast
    ring
  constructor
  · rw [hshape]
    have h1 : ¬ (f.length : Int) > decimals (some u) := by omega
    have h2 : ¬ ((if negative then ['-'] else [] : QString)
        ++ (w ++ (f ++ List.replicate ((decimals (some u)).toNat - f.length) '0'))).length
          > 18 := by
      rw [List.length_append, hsignlen]
      simp only [List.length_append, List.length_replicate]
      omega
    simp only [h1, if_false, hpad, List.append_assoc, h2]
    rw [hconv, ← hvalue_eq]
    cases negative <;> simp
  · rw [← hvalue_eq]
    have := digitsValue_lt hdigits
    have hpow : (10 : Nat) ^ (w ++ (f ++ List.replicate
        ((decimals (some u)).toNat - f.length) '0')).length ≤ 10 ^ 18 :=
      Nat.pow_le_pow_right (by decide) hdlen
    have hlt : digitsValue (w ++ (f ++ List.replicate
        ((decimals (some u)).toNat - f.length) '0')) < 10 ^ 18 := lt_of_lt_of_le this hpow
    exact_mod_cast hlt

end CashLemmas

namespace CashLemmas

open QString CashUnits

theorem decimals_le (u : CashUnits.Unit) : (decimals (some u)).toNat ≤ 8 := by
  cases u <;> decide

theorem decimals_cast (u : CashUnits.Unit) :
    decimals (some u) = ((decimals (some u)).toNat : Int) :=
  (Int.toNat_of_nonneg (decimals_nonneg u)).symm

theorem filter_insert (p : Char → Bool) (s : QString) (position : Int) (ch : Char)
    (h : p ch = false) : (QString.insert s position ch).filter p = s.filter p := by
  unfold QString.insert
  rw [List.filter_append, List.filter_cons, h]
  simp only [Bool.false_eq_true, if_false]
  rw [← List.filter_append, List.take_append_drop]

theorem filter_insertSeparators (p : Char → Bool) (thin_sp : Char) (q_size : Int)
    (rounds : Nat) (i : Int) (s : QString) (h : p thin_sp = false) :
    (insertSeparators thin_sp q_size rounds i s).filter p = s.filter p := by
  induction rounds generalizing i s with
  | zero => rfl
  | succ rounds ih =>
    simp only [insertSeparators]
    split_ifs
    · rw [ih, filter_insert p s _ thin_sp h]
    · rfl

/-- The bound on the rounds of the separator loop is not reached: with more
rounds allowed the loop does the same. -/
theorem insertSeparators_rounds (thin_sp : Char) (q_size : Int) (rounds extra : Nat) (i : Int)
    (s : QString) (h : q_size ≤ i + 3 * rounds) :
    insertSeparators thin_sp q_size (rounds + extra) i s
      = insertSeparators thin_sp q_size rounds i s := by
  induction rounds generalizing i s with
  | zero =>
    have hi : ¬ i < q_size := by omega
    cases extra with
    | zero => rfl
    | succ extra =>
      simp only [Nat.zero_add, insertSeparators, hi, if_false]
  | succ rounds ih =>
    rw [Nat.succ_add]
    simp only [insertSeparators]
    split_ifs
    · exact ih _ _ (by push_cast at h ⊢; omega)
    · rfl

theorem filter_eq_self_of_forall (p : Char → Bool) (s : QString) (h : ∀ c ∈ s, p c = true) :
    s.filter p = s :=
  List.filter_eq_self.mpr h

theorem number_natCast (m : Nat) : number (m : Int) = Nat.toDigits 10 m := by
  unfold number
  have : ¬ ((m : Int) < 0) := by omega
  simp only [this, if_false, Int.toNat_ofNat]

/-- The string `format` builds for a unit of `d` decimals and an amount of
absolute value `m`: sign, quotient with separators, point and remainder. -/
theorem format_shape (env : CashEnv) (u : CashUnits.Unit) (n : Int)
    (separators : SeparatorStyle) :
    ∃ quotient_str : QString,
      quotient_str.filter (fun c => c != ' ' && c != env.THIN_SP_CP)
        = (Nat.toDigits 10 (n.natAbs / 10 ^ (decimals (some u)).toNat)).filter
            (fun c => c != ' ' && c != env.THIN_SP_CP) ∧
      format env (some u) n false separators
        = (if n < 0 then ['-'] else []) ++ quotient_str ++
            (if (decimals (some u)).toNat = 0 then []
             else '.' :: (List.replicate ((decimals (some u)).toNat
                  - (Nat.toDigits 10 (n.natAbs % 10 ^ (decimals (some u)).toNat)).length) '0'
                ++ Nat.toDigits 10 (n.natAbs % 10 ^ (decimals (some u)).toNat))) := by
  have habs : (if n > 0 then n else -n) = (n.natAbs : Int) := by
    split_ifs <;> omega
  have hcoin : factor (some u) = ((10 ^ (decimals (some u)).toNat : Nat) : Int) := by
    rw [factor_eq_pow]
    push_cast
    rfl
  have hq : Int.tdiv (if n > 0 then n else -n) (factor (some u))
      = ((n.natAbs / 10 ^ (decimals (some u)).toNat : Nat) : Int) := by
    rw [habs, hcoin, Int.ofNat_tdiv]
  have hr : Int.tmod (if n > 0 then n else -n) (factor (some u))
      = ((n.natAbs % 10 ^ (decimals (some u)).toNat : Nat) : Int) := by
    rw [habs, hcoin, Int.ofNat_tmod]
  have hdz : decimals (some u) ≤ 0 ↔ (decimals (some u)).toNat = 0 := by
    have := decimals_nonneg u
    omega
  refine ⟨if separators = .separatorAlways ∨ (separators = .separatorStandard ∧
        ((Nat.toDigits 10 (n.natAbs / 10 ^ (decimals (some u)).toNat)).length : Int) > 4) then
      insertSeparators env.THIN_SP_CP
        ((Nat.toDigits 10 (n.natAbs / 10 ^ (decimals (some u)).toNat)).length : Int)
        ((Nat.toDigits 10 (n.natAbs / 10 ^ (decimals (some u)).toNat)).length : Int).toNat 3
        (Nat.toDigits 10 (n.natAbs / 10 ^ (decimals (some u)).toNat))
    else Nat.toDigits 10 (n.natAbs / 10 ^ (decimals (some u)).toNat), ?_, ?_⟩
  · split_ifs
    · exact filter_insertSeparators _ _ _ _ _ _ (by simp)
    · rfl
  · unfold format
    simp only [valid_some, Bool.not_true, Bool.false_eq_true, if_false, hq, hr, number_natCast,
      Bool.false_and, rightJustified, QString.insert, Int.toNat_zero, List.take_zero,
      List.drop_zero, List.nil_append, hdz]
    by_cases hneg : n < 0
    · simp only [hneg, if_true]
      split_ifs <;> simp
    · simp only [hneg, if_false]
      split_ifs <;> simp

theorem keep_of_isDigit (env : CashEnv) (hlaw : env.Lawful) (c : Char)
    (h : c.isDigit = true) : (c != ' ' && c != env.THIN_SP_CP) = true := by
  have h1 : c ≠ ' ' := by rintro rfl; exact Bool.noConfusion h
  have h2 : c ≠ env.THIN_SP_CP := by
    intro e
    rw [e, hlaw.thin_not_digit] at h
    exact Bool.noConfusion h
  simp [h1, h2]

theorem filter_digits (env : CashEnv) (hlaw : env.Lawful) (s : QString) (h : IsDigits s) :
    s.filter (fun c => c != ' ' && c != env.THIN_SP_CP) = s :=
  filter_eq_self_of_forall _ s (fun c hc => keep_of_isDigit env hlaw c (h c hc))

/-- Formatting and parsing an amount of absolute value below 10^17. -/
theorem parse_format (env : CashEnv) (hlaw : env.Lawful) (u : CashUnits.Unit) (n : Int)
    (separators : SeparatorStyle) (hn : n.natAbs < 10 ^ 17) :
    parse env (some u) (format env (some u) n false separators) = (true, some n) := by
  obtain ⟨Q', hQ', hfmt⟩ := format_shape env u n separators
  have hd8 := decimals_le u
  generalize hd : (decimals (some u)).toNat = d at hQ' hfmt hd8
  have hpos : 0 < 10 ^ d := Nat.pos_pow_of_pos d (by decide)
  have hQd := toDigits_isDigits (n.natAbs / 10 ^ d)
  have hRd := toDigits_isDigits (n.natAbs % 10 ^ d)
  rw [filter_digits env hlaw _ hQd] at hQ'
  have hQne : Q' ≠ [] := by
    intro hnil
    rw [hnil] at hQ'
    exact toDigits_ne_nil _ hQ'.symm
  have hqlt : n.natAbs / 10 ^ d < 10 ^ (17 - d) := by
    apply Nat.div_lt_of_lt_mul
    rw [← pow_add]
    have : d + (17 - d) = 17 := by omega
    rw [this]
    exact hn
  have hQlen := toDigits_length_le _ (17 - d) hqlt (by omega)
  have hminus : ('-' != ' ' && '-' != env.THIN_SP_CP) = true := by
    have := hlaw.thin_not_minus
    have h2 : ¬ ('-' = env.THIN_SP_CP) := fun e => this e.symm
    simp [h2]
  have hpoint : ('.' != ' ' && '.' != env.THIN_SP_CP) = true := by
    have := hlaw.thin_not_point
    have h2 : ¬ ('.' = env.THIN_SP_CP) := fun e => this e.symm
    simp [h2]
  have hvalue : format env (some u) n false separators ≠ [] := by
    rw [hfmt]
    intro hnil
    exact hQne (List.append_eq_nil.mp (List.append_eq_nil.mp hnil).1).2
  have hsplit := Nat.div_add_mod n.natAbs (10 ^ d)
  by_cases hzero : d = 0
  · -- no decimals
    subst hzero
    simp only [if_true, List.append_nil] at hfmt
    by_cases hneg : n < 0
    · have hform : (format env (some u) n false separators).filter
            (fun c => c != ' ' && c != env.THIN_SP_CP)
          = ((if true then ['-'] else []) ++ Nat.toDigits 10 (n.natAbs / 10 ^ 0))
            ++ (if false then '.' :: [] else []) := by
        rw [hfmt]
        simp only [hneg, if_true, List.filter_append, List.filter_cons, hminus, List.filter_nil,
          hQ', Bool.false_eq_true, if_false, List.append_nil]
      have hp := (parse_digits env hlaw u _ _ [] true false hvalue hform hQd
        (by intro c hc; cases hc) (fun _ => rfl) (by simp)
        (by rw [hd]; simp only [if_true]; omega) (Or.inl (toDigits_ne_nil _))).1
      rw [hp, factor_eq_pow, hd, digitsValue_toDigits]
      simp only [if_true, List.nil_append, digitsValue_replicate_zero, pow_zero, Nat.div_one]
      congr 2
      omega
    · have hform : (format env (some u) n false separators).filter
            (fun c => c != ' ' && c != env.THIN_SP_CP)
          = ((if false then ['-'] else []) ++ Nat.toDigits 10 (n.natAbs / 10 ^ 0))
            ++ (if false then '.' :: [] else []) := by
        rw [hfmt]
        simp only [hneg, if_false, List.filter_append, List.filter_nil, hQ',
          Bool.false_eq_true, List.append_nil, List.nil_append]
      have hp := (parse_digits env hlaw u _ _ [] false false hvalue hform hQd
        (by intro c hc; cases hc) (fun _ => rfl) (by simp)
        (by rw [hd]; simp only [Bool.false_eq_true, if_false]; omega)
        (Or.inl (toDigits_ne_nil _))).1
      rw [hp, factor_eq_pow, hd, digitsValue_toDigits]
      simp only [Bool.false_eq_true, if_false, List.nil_append, digitsValue_replicate_zero,
        pow_zero, Nat.div_one]
      congr 2
      omega
  · -- decimals
    have hdpos : 0 < d := Nat.pos_of_ne_zero hzero
    have hrlt : n.natAbs % 10 ^ d < 10 ^ d := Nat.mod_lt _ hpos
    have hRlen := toDigits_length_le _ d hrlt hdpos
    have hRs : IsDigits (List.replicate (d - (Nat.toDigits 10 (n.natAbs % 10 ^ d)).length) '0'
        ++ Nat.toDigits 10 (n.natAbs % 10 ^ d)) :=
      isDigits_append (isDigits_replicate_zero _) hRd
    have hRslen : (List.replicate (d - (Nat.toDigits 10 (n.natAbs % 10 ^ d)).length) '0'
        ++ Nat.toDigits 10 (n.natAbs % 10 ^ d)).length = d := by
      simp only [List.length_append, List.length_replicate]
      omega
    have hRsval : digitsValue (List.replicate (d - (Nat.toDigits 10 (n.natAbs % 10 ^ d)).length) '0'
        ++ Nat.toDigits 10 (n.natAbs % 10 ^ d)) = n.natAbs % 10 ^ d := by
      rw [digitsValue_append, digitsValue_replicate_zero, digitsValue_toDigits]
      simp
    simp only [hzero, if_false] at hfmt
    by_cases hneg : n < 0
    · have hform : (format env (some u) n false separators).filter
            (fun c => c != ' ' && c != env.THIN_SP_CP)
          = ((if true then ['-'] else []) ++ Nat.toDigits 10 (n.natAbs / 10 ^ d))
            ++ (if true then '.' :: (List.replicate
                  (d - (Nat.toDigits 10 (n.natAbs % 10 ^ d)).length) '0'
                ++ Nat.toDigits 10 (n.natAbs % 10 ^ d)) else []) := by
        rw [hfmt]
        simp only [hneg, if_true, List.filter_append, List.filter_cons, hminus, hpoint,
          List.filter_nil, hQ', filter_digits env hlaw _ hRd,
          filter_digits env hlaw _ (isDigits_replicate_zero _)]
      have hp := (parse_digits env hlaw u _ _ _ true true hvalue hform hQd hRs
        (fun h => Bool.noConfusion h) (by rw [hd, hRslen])
        (by rw [hd]; simp only [if_true]; omega) (Or.inl (toDigits_ne_nil _))).1
      rw [hp, factor_eq_pow, hd, digitsValue_toDigits, hRslen, Nat.sub_self,
        List.replicate_zero, List.append_nil, hRsval]
      simp only [if_true]
      congr 2
      have : ((n.natAbs / 10 ^ d : Nat) : Int) * 10 ^ d + ((n.natAbs % 10 ^ d : Nat) : Int)
          = (n.natAbs : Int) := by
        have := congrArg (fun x : Nat => (x : Int)) hsplit
        simp only at this
        push_cast at this ⊢
        linarith
      rw [this]
      omega
    · have hform : (format env (some u) n false separators).filter
            (fun c => c != ' ' && c != env.THIN_SP_CP)
          = ((if false then ['-'] else []) ++ Nat.toDigits 10 (n.natAbs / 10 ^ d))
            ++ (if true then '.' :: (List.replicate
                  (d - (Nat.toDigits 10 (n.natAbs % 10 ^ d)).length) '0'
                ++ Nat.toDigits 10 (n.natAbs % 10 ^ d)) else []) := by
        rw [hfmt]
        simp only [hneg, if_false, if_true, List.filter_append, List.filter_cons, hpoint,
          List.filter_nil, hQ', filter_digits env hlaw _ hRd,
          filter_digits env hlaw _ (isDigits_replicate_zero _), Bool.false_eq_true,
          List.nil_append]
      have hp := (parse_digits env hlaw u _ _ _ false true hvalue hform hQd hRs
        (fun h => Bool.noConfusion h) (by rw [hd, hRslen])
        (by rw [hd]; simp only [Bool.false_eq_true, if_false]; omega)
        (Or.inl (toDigits_ne_nil _))).1
      rw [hp, factor_eq_pow, hd, digitsValue_toDigits, hRslen, Nat.sub_self,
        List.replicate_zero, List.append_nil, hRsval]
      simp only [Bool.false_eq_true, if_false]
      congr 2
      have : ((n.natAbs / 10 ^ d : Nat) : Int) * 10 ^ d + ((n.natAbs % 10 ^ d : Nat) : Int)
          = (n.natAbs : Int) := by
        have := congrArg (fun x : Nat => (x : Int)) hsplit
        simp only at this
        push_cast at this ⊢
        linarith
      rw [this]
      omega

end CashLemmas

/-- C27.  With a `removeSpaces` that removes spaces and thin spaces, for every
unit, every amount `n` with `|n| < 10^17` and every separator style,
`parse(unit, format(unit, n, false, separators))` returns true and yields `n`;
every unit is valid and has `factor(unit) = 10^decimals(unit)`. -/
theorem C27_parse_format (env : CashEnv) (hlaw : env.Lawful) (u : CashUnits.Unit) (n : Int)
    (separators : CashUnits.SeparatorStyle) (hn : |n| < 10 ^ 17) :
    CashUnits.valid (some u) = true ∧
    CashUnits.factor (some u) = 10 ^ (CashUnits.decimals (some u)).toNat ∧
    CashUnits.parse env (some u) (CashUnits.format env (some u) n false separators)
      = (true, some n) := by
  refine ⟨CashLemmas.valid_some u, CashLemmas.factor_eq_pow u, ?_⟩
  apply CashLemmas.parse_format env hlaw u n separators
  have h := abs_lt.mp hn
  omega

/-- C27 at the header of `CashScenario`: the amount -123456789012345 in the unit
ODYNC with standard separators is written with a minus sign, thin spaces
between the groups of three digits of the whole part, a point and eight
decimals, and is read back; so is the amount -5, below one unit, in every
style. -/
theorem C27_parse_format_witness :
    (CashScenario.env.Lawful ∧ |(-123456789012345 : Int)| < 10 ^ 17) ∧
    CashUnits.format CashScenario.env (some .ODYNC) (-123456789012345) false
        .separatorStandard
      = ['-', '1', Char.ofNat 0x2009, '2', '3', '4', Char.ofNat 0x2009, '5', '6', '7', '.',
         '8', '9', '0', '1', '2', '3', '4', '5'] ∧
    CashUnits.parse CashScenario.env (some .ODYNC)
        (CashUnits.format CashScenario.env (some .ODYNC) (-123456789012345) false
          .separatorStandard)
      = (true, some (-123456789012345)) ∧
    CashUnits.format CashScenario.env (some .ODYNC) (-5) false .separatorAlways
      = ['-', '0', '.', '0', '0', '0', '0', '0', '0', '0', '5'] ∧
    CashUnits.parse CashScenario.env (some .ODYNC)
        (CashUnits.format CashScenario.env (some .ODYNC) (-5) false .separatorAlways)
      = (true, some (-5)) :=
  ⟨⟨CashLemmas.scenario_lawful, by decide⟩, by decide,
   (C27_parse_format CashScenario.env CashLemmas.scenario_lawful .ODYNC (-123456789012345)
      .separatorStandard (by decide)).2.2,
   by decide,
   (C27_parse_format CashScenario.env CashLemmas.scenario_lawful .ODYNC (-5)
      .separatorAlways (by decide)).2.2⟩


section MessageLemmas

open QString

theorem toString_int_data (i : Int) : (toString i).data = QString.number i := by
  cases i with
  | ofNat m =>
    have h : ¬ (Int.ofNat m < 0) := not_lt.mpr (Int.ofNat_nonneg m)
    simp only [QString.number, h, if_false]
    rfl
  | negSucc m =>
    have h : Int.negSucc m < 0 := Int.negSucc_lt_zero m
    simp only [QString.number, h, if_true]
    rfl

theorem number_injective (i j : Int) (h : QString.number i = QString.number j) : i = j := by
  have hhead : ∀ (m : Nat) (rest : QString), Nat.toDigits 10 m ≠ '-' :: rest := by
    intro m rest he
    have := CashLemmas.toDigits_isDigits m '-' (by rw [he]; exact List.mem_cons_self _ _)
    exact Bool.noConfusion this
  unfold QString.number at h
  by_cases hi : i < 0 <;> by_cases hj : j < 0
  · simp only [hi, hj, if_true, List.cons.injEq, true_and] at h
    have := congrArg digitsValue h
    rw [CashLemmas.digitsValue_toDigits, CashLemmas.digitsValue_toDigits] at this
    omega
  · simp only [hi, hj, if_true, if_false] at h
    exact absurd h.symm (hhead _ _)
  · simp only [hi, hj, if_true, if_false] at h
    exact absurd h (hhead _ _)
  · simp only [hi, hj, if_false] at h
    have := congrArg digitsValue h
    rw [CashLemmas.digitsValue_toDigits, CashLemmas.digitsValue_toDigits] at this
    omega

theorem toString_int_injective (i j : Int) (h : toString i = toString j) : i = j :=
  number_injective i j (by rw [← toString_int_data, ← toString_int_data, h])

theorem string_append_left_cancel (a b c : String) (h : a ++ b = a ++ c) : b = c := by
  have := congrArg String.data h
  simp only [String.data_append] at this
  exact String.ext (List.append_cancel_left this)

theorem string_append_right_cancel (a b c : String) (h : a ++ c = b ++ c) : a = b := by
  have := congrArg String.data h
  simp only [String.data_append] at this
  exact String.ext (List.append_cancel_right this)

end MessageLemmas

/-- C29 as stated fails: the votes of the stormnodes with collateral outputs 1
and 12 of transaction 50, for the blocks 23 and 3, for the same payee, differ in
outpoint and height, and the message built from the short outpoint string
("50-1", "50-12"), the decimal height and the payee string is the same for
both, "50-123" followed by the payee string. -/
theorem C29_messages_collide_counterexample :
    (PaymentScenario.vote 50 1 23).vinStormnode.prevout
      ≠ (PaymentScenario.vote 50 12 3).vinStormnode.prevout ∧
    (PaymentScenario.vote 50 1 23).nBlockHeight ≠ (PaymentScenario.vote 50 12 3).nBlockHeight ∧
    (PaymentScenario.vote 50 1 23).strMessage PaymentScenario.env
      = (PaymentScenario.vote 50 12 3).strMessage PaymentScenario.env ∧
    (PaymentScenario.vote 50 1 23).strMessage PaymentScenario.env = "50-123[1, 2, 3]" := by
  decide

/-- C29 (amended).  The message `Sign` and `CheckSignature` build is the short
outpoint string, the decimal block height and the payee asm string, one after
the other.  Two votes whose three strings agree in two places and differ in the
third have different messages; in particular two votes with the same outpoint
string and payee string and different block heights have different messages.
Votes with the same message are indistinguishable for the signature check of
every key. -/
theorem C29_message_parts (env : PayEnv) (v w : CStormnodePaymentVote) :
    v.strMessage env
      = env.ToStringShort v.vinStormnode.prevout ++ toString v.nBlockHeight
          ++ env.ScriptToAsmStr v.payee ∧
    (env.ToStringShort v.vinStormnode.prevout = env.ToStringShort w.vinStormnode.prevout →
      v.nBlockHeight = w.nBlockHeight →
      env.ScriptToAsmStr v.payee ≠ env.ScriptToAsmStr w.payee →
      v.strMessage env ≠ w.strMessage env) ∧
    (env.ToStringShort v.vinStormnode.prevout = env.ToStringShort w.vinStormnode.prevout →
      env.ScriptToAsmStr v.payee = env.ScriptToAsmStr w.payee →
      v.nBlockHeight ≠ w.nBlockHeight →
      v.strMessage env ≠ w.strMessage env) ∧
    (v.nBlockHeight = w.nBlockHeight →
      env.ScriptToAsmStr v.payee = env.ScriptToAsmStr w.payee →
      env.ToStringShort v.vinStormnode.prevout ≠ env.ToStringShort w.vinStormnode.prevout →
      v.strMessage env ≠ w.strMessage env) ∧
    (v.strMessage env = w.strMessage env →
      ∀ (pubkey : Nat) (vchSig : List Nat),
        env.VerifyMessage pubkey vchSig (v.strMessage env)
          = env.VerifyMessage pubkey vchSig (w.strMessage env)) := by
  refine ⟨rfl, ?_, ?_, ?_, ?_⟩
  · intro hs hh hp hm
    simp only [CStormnodePaymentVote.strMessage, hs, hh] at hm
    exact hp (string_append_left_cancel _ _ _ hm)
  · intro hs hp hh hm
    simp only [CStormnodePaymentVote.strMessage, hs, hp] at hm
    have h1 := string_append_right_cancel _ _ _ hm
    exact hh (toString_int_injective _ _ (string_append_left_cancel _ _ _ h1))
  · intro hh hp hs hm
    simp only [CStormnodePaymentVote.strMessage, hh, hp] at hm
    have h1 := string_append_right_cancel _ _ _ hm
    exact hs (string_append_right_cancel _ _ _ h1)
  · intro hm pubkey vchSig
    rw [hm]
